import Mathlib

/-!
Beat synchronisation core of `BpmControl` (src/engine/bpmcontrol.cpp)

A shallow embedding of the per-deck tempo and phase controller.

Conventions of the embedding

* A C++ `double` is an exact rational (`ℚ`): the development is about the
  arithmetic the code writes down, not about the rounding of `double`
  operations or NaN.
  Where the code leaves the type `double`, the conversion is modelled: to the
  32-bit `int` by `truncToInt`, to `float` by `toFloat` (with the overflow to
  infinity stated by `floatOverflowBound`).
  The divisions whose divisor the code does not guard (`loop_size` in
  `calcSyncedRate`, the slider value in `syncTempo`, the file tempo in
  `slotTapFilter`) are discussed where they are used.
* A handler that acts on the grid through `setBpm` or `translate` is modelled
  by the argument of that call.
* Member variables and controls keep the names they have in the source
  (`m_dUserOffset`, `m_pPrevBeat`, ...); a control is modelled by the value
  that `get()` returns.
* A method that mutates the object takes the state and returns the result
  paired with the new state.
-/

/-- The three values `getSyncMode()` can return (`SYNC_NONE`, `SYNC_FOLLOWER`,
`SYNC_MASTER`). -/
inductive SyncMode where
  | SYNC_NONE
  | SYNC_FOLLOWER
  | SYNC_MASTER
  deriving DecidableEq, Repr

/-- The query surface of a beat grid (`Beats`) that `BpmControl` consumes.  The
class itself is not part of the sources, so every query is a field. -/
structure Beats where
  /-- Capability bitmask, `getCapabilities()`. -/
  getCapabilities : Nat
  /-- Global tempo of the grid, `getBpm()`. -/
  getBpm : ℚ
  /-- Previous and next beat around a position; `none` when the query fails. -/
  findPrevNextBeats : ℚ → Option (ℚ × ℚ)
  /-- The n-th beat counted from a position. -/
  findNthBeat : ℚ → ℤ → ℚ
  /-- The beat closest to a position. -/
  findClosestBeat : ℚ → ℚ
  /-- Tempo over a window of beats around a position, `-1` when unavailable. -/
  getBpmAroundPosition : ℚ → ℤ → ℚ

/-- The state of one `BpmControl` object: its own members and the values of the
controls it reads and writes. -/
structure BpmControl where
  m_dPreviousSample : ℚ
  m_dSyncTargetBeatDistance : ℚ
  m_dSyncInstantaneousBpm : ℚ
  m_dLastSyncAdjustment : ℚ
  m_resetSyncAdjustment : Bool
  m_dUserOffset : ℚ
  /-- Value of `getCurrentSample()` (kept by the base class `EngineControl`). -/
  currentSample : ℚ
  /-- Value of `getSyncMode()`. -/
  syncMode : SyncMode
  /-- The grid pointer `m_pBeats`; `none` is the null pointer. -/
  m_pBeats : Option Beats
  m_pPlayButton : ℚ
  m_pReverseButton : ℚ
  m_pQuantize : ℚ
  m_pRateSlider : ℚ
  m_pRateRange : ℚ
  m_pRateDir : ℚ
  m_pPrevBeat : ℚ
  m_pNextBeat : ℚ
  /-- Value of `m_pLoopEnabled->toBool()`. -/
  m_pLoopEnabled : Bool
  m_pLoopStartPosition : ℚ
  m_pLoopEndPosition : ℚ
  m_pFileBpm : ℚ
  m_pLocalBpm : ℚ
  m_pEngineBpm : ℚ
  m_pThisBeatDistance : ℚ

/-- What `BpmControl` reads from the deck that `pickSyncTarget()` returns.  The
class `EngineBuffer` is not part of the sources, so every query is a field. -/
structure EngineBuffer where
  /-- Effective tempo of the other deck, `getBpm()`. -/
  getBpm : ℚ
  /-- Local tempo of the other deck, `getLocalBpm()`. -/
  getLocalBpm : ℚ
  /-- Playback speed of the other deck, `getSpeed()`. -/
  getSpeed : ℚ
  /-- The grid of the loaded track, `getLoadedTrack()->getBeats()`; `none` when
  there is no track or the track has no grid. -/
  getBeats : Option Beats
  /-- Value of the control `track_samples` of the other deck. -/
  track_samples : ℚ
  /-- Play position of the other deck as a fraction of the track. -/
  getVisualPlayPos : ℚ

/-- The integral part of a rational number: the fractional part is discarded,
so the rounding is toward zero. -/
def truncate (x : ℚ) : ℤ :=
  if 0 ≤ x then ⌊x⌋ else ⌈x⌉

/-- Smallest value of the 32-bit type `int`. -/
def INT_MIN : ℤ := -2147483648

/-- Largest value of the 32-bit type `int`. -/
def INT_MAX : ℤ := 2147483647

/-- Conversion of a `double` to the 32-bit `int` (as in
`int i = end_delta / loop_length`): the integral part when it fits an `int`.
When it does not fit, C++ leaves the result undefined; the value taken here is
the one the conversion instruction of x86 delivers, `INT_MIN`. -/
def truncToInt (x : ℚ) : ℤ :=
  if INT_MIN ≤ truncate x ∧ truncate x ≤ INT_MAX then truncate x else INT_MIN

/-- Rounding of a rational number to the nearest integer, a tie going to the
even neighbour (the rounding mode of the floating-point conversions). -/
def roundHalfEven (y : ℚ) : ℤ :=
  let f := ⌊y⌋
  let r := y - f
  if r < 1 / 2 then f
  else if 1 / 2 < r then f + 1
  else if f % 2 = 0 then f
  else f + 1

/-- From this magnitude on a `double` converted to `float` is infinite: the
midpoint between the largest `float`, 2^128 - 2^104, and 2^128. -/
def floatOverflowBound : ℚ := 2 ^ 128 - 2 ^ 103

/-- Conversion of a `double` to `float` (as in
`float fFileBpmDelta = fabs(...)`) for a magnitude below `floatOverflowBound`:
the nearest number with a significand of 24 bits and an exponent of at least
-126, a tie going to the even significand. -/
def toFloat (x : ℚ) : ℚ :=
  if x = 0 then 0
  else
    let e : ℤ := max (Int.log 2 |x|) (-126)
    let quantum : ℚ := 2 ^ (e - 23)
    (if x < 0 then -1 else 1) * (roundHalfEven (|x| / quantum) * quantum)

/-- Modelled from the spec: `math_clamp` of util/math.h, which is not among the
sources; `clamp(x, ±cap)` limits `value` to the closed interval `[lo, hi]`. -/
def math_clamp (value lo hi : ℚ) : ℚ :=
  max lo (min hi value)

/-- The helper `math_min` of util/math.h, which is not among the sources: the
smaller of its two arguments. -/
def math_min (a b : ℚ) : ℚ := min a b

/-- The helper `math_max` of util/math.h, which is not among the sources: the
larger of its two arguments. -/
def math_max (a b : ℚ) : ℚ := max a b

namespace BpmControl

/-- Threshold above which a sync adjustment is made (local constant of
`calcSyncAdjustment`). -/
def kErrorThreshold : ℚ := 0.01

/-- Threshold above which the decks are considered a train wreck. -/
def kTrainWreckThreshold : ℚ := 0.2

/-- Largest distance of the adjustment from 1. -/
def kSyncAdjustmentCap : ℚ := 0.05

/-- Proportional control constant. -/
def kSyncAdjustmentProportional : ℚ := 0.7

/-- Largest change of the adjustment in one call of the proportional branch. -/
def kSyncDeltaCap : ℚ := 0.02

/-- `BpmControl::shortestPercentageChange` (static). -/
def shortestPercentageChange (current_percentage target_percentage : ℚ) : ℚ :=
  if current_percentage = target_percentage then
    0
  else if current_percentage < target_percentage then
    let forwardDistance := target_percentage - current_percentage
    let backwardsDistance := target_percentage - current_percentage - 1
    if |forwardDistance| < |backwardsDistance| then forwardDistance
    else backwardsDistance
  else
    let forwardDistance := 1 - current_percentage + target_percentage
    let backwardsDistance := target_percentage - current_percentage
    if |forwardDistance| < |backwardsDistance| then forwardDistance
    else backwardsDistance

/-- `BpmControl::getBeatContextNoLookup` (static).  `none` is the `false`
return; `some (dBeatLength, dBeatPercentage)` carries the two out-parameters of
the `true` return. -/
def getBeatContextNoLookup (dPosition dPrevBeat dNextBeat : ℚ) : Option (ℚ × ℚ) :=
  if dPrevBeat = -1 ∨ dNextBeat = -1 then
    none
  else
    let dBeatLength := dNextBeat - dPrevBeat
    let p0 := if dBeatLength = 0 then 0 else (dPosition - dPrevBeat) / dBeatLength
    let p1 := if p0 < 0 then p0 + 1 else p0
    let p2 := if p1 > 1 then p1 - 1 else p1
    some (dBeatLength, p2)

/-- `BpmControl::calcSyncAdjustment`: the returned adjustment and the state
after the call. -/
def calcSyncAdjustment (s : BpmControl) (my_percentage : ℚ) (userTweakingSync : Bool) :
    ℚ × BpmControl :=
  let s1 : BpmControl :=
    if s.m_resetSyncAdjustment then
      { s with m_resetSyncAdjustment := false, m_dLastSyncAdjustment := 1 }
    else s
  let master_percentage := s1.m_dSyncTargetBeatDistance
  let shortest_distance := shortestPercentageChange master_percentage my_percentage
  if userTweakingSync then
    (1, { s1 with m_dUserOffset := shortest_distance, m_dLastSyncAdjustment := 1 })
  else
    let error := shortest_distance - s1.m_dUserOffset
    let adjustment : ℚ :=
      if |error| > kTrainWreckThreshold then
        1 + kSyncAdjustmentCap
      else if |error| > kErrorThreshold then
        let adjust := 1 + (-error * kSyncAdjustmentProportional)
        let delta := math_clamp (adjust - s1.m_dLastSyncAdjustment) (-kSyncDeltaCap) kSyncDeltaCap
        1 + math_clamp (s1.m_dLastSyncAdjustment - 1 + delta)
              (-kSyncAdjustmentCap) kSyncAdjustmentCap
      else
        1
    (adjustment, { s1 with m_dLastSyncAdjustment := adjustment })

/-- `BpmControl::calcSyncedRate`: the returned rate and the state after the
call.

`loop_size` divides by `dBeatLength`, which is 0 when the cached previous and
next beat coincide.  For a double the quotient is then an infinity or NaN and
the test `loop_size < 1.0 && loop_size > 0` is false; the rational quotient by
0 is 0, for which the test is false as well, so both take the same branch. -/
def calcSyncedRate (s : BpmControl) (userTweak : ℚ) : ℚ × BpmControl :=
  let rate : ℚ :=
    if s.m_pLocalBpm ≠ 0 then s.m_dSyncInstantaneousBpm / s.m_pLocalBpm else 1
  if s.m_pQuantize = 0 ∨ s.syncMode = SyncMode.SYNC_MASTER ∨
      s.m_pBeats.isNone = true ∨ s.m_pReverseButton ≠ 0 then
    (rate + userTweak, { s with m_resetSyncAdjustment := true })
  else
    let dThisPosition := s.currentSample
    match getBeatContextNoLookup dThisPosition s.m_pPrevBeat s.m_pNextBeat with
    | none => (rate + userTweak, { s with m_resetSyncAdjustment := true })
    | some (dBeatLength, my_percentage) =>
      let loop_enabled := s.m_pLoopEnabled
      let loop_size := (s.m_pLoopEndPosition - s.m_pLoopStartPosition) / dBeatLength
      if loop_enabled = true ∧ loop_size < 1 ∧ loop_size > 0 then
        (rate + userTweak, { s with m_resetSyncAdjustment := true })
      else
        let r := calcSyncAdjustment s my_percentage (decide (userTweak ≠ 0))
        ((rate + userTweak) * r.1, r.2)

/-- `BpmControl::getBeatDistance`. -/
def getBeatDistance (s : BpmControl) (dThisPosition : ℚ) : ℚ :=
  let dPrevBeat := s.m_pPrevBeat
  let dNextBeat := s.m_pNextBeat
  if dPrevBeat = -1 ∨ dNextBeat = -1 then
    0 - s.m_dUserOffset
  else
    let dBeatLength := dNextBeat - dPrevBeat
    let p0 := if dBeatLength = 0 then 0 else (dThisPosition - dPrevBeat) / dBeatLength
    let p1 := if p0 < 0 then p0 + 1 else p0
    let p2 := if p1 > 1 then p1 - 1 else p1
    p2 - s.m_dUserOffset

/-- `BpmControl::getBeatContext` (static).  `none` is the `false` return;
`some (dPrevBeat, dNextBeat, dBeatLength, dBeatPercentage)` carries the four
out-parameters of the `true` return. -/
def getBeatContext (pBeats : Option Beats) (dPosition : ℚ) : Option (ℚ × ℚ × ℚ × ℚ) :=
  match pBeats with
  | none => none
  | some beats =>
    match beats.findPrevNextBeats dPosition with
    | none => none
    | some (dPrevBeat, dNextBeat) =>
      match getBeatContextNoLookup dPosition dPrevBeat dNextBeat with
      | none => none
      | some (dBeatLength, dBeatPercentage) =>
        some (dPrevBeat, dNextBeat, dBeatLength, dBeatPercentage)

/-- The statements of `BpmControl::getNearestPositionInPhase` that precede
`if (respectLoops)`.  `none` stands for one of the early
`return dThisPosition`; `some dNewPlaypos` is the value of `dNewPlaypos` when
control reaches the loop correction.  `syncTarget` is what `pickSyncTarget()`
returns. -/
def phaseAlignedPlaypos (s : BpmControl) (syncTarget : Option EngineBuffer)
    (dThisPosition : ℚ) (playing : Bool) : Option ℚ :=
  match s.m_pBeats with
  | none => none
  | some beats =>
    if s.syncMode = SyncMode.SYNC_MASTER then none
    else
      let thisContext : Option (ℚ × ℚ × ℚ) :=
        if dThisPosition > s.m_pNextBeat ∨ dThisPosition < s.m_pPrevBeat then
          (getBeatContext s.m_pBeats dThisPosition).map (fun c => (c.1, c.2.1, c.2.2.1))
        else
          (getBeatContextNoLookup dThisPosition s.m_pPrevBeat s.m_pNextBeat).map
            (fun c => (s.m_pPrevBeat, s.m_pNextBeat, c.1))
      match thisContext with
      | none => none
      | some (dThisPrevBeat, dThisNextBeat, dThisBeatLength) =>
        let otherFraction : Option ℚ :=
          if s.syncMode = SyncMode.SYNC_FOLLOWER then
            some s.m_dSyncTargetBeatDistance
          else
            match syncTarget with
            | none => none
            | some pOtherEngineBuffer =>
              if playing = true ∧ pOtherEngineBuffer.getSpeed = 0 then none
              else
                match pOtherEngineBuffer.getBeats with
                | none => none
                | some otherBeats =>
                  let dOtherLength := pOtherEngineBuffer.track_samples
                  let dOtherEnginePlayPos := pOtherEngineBuffer.getVisualPlayPos
                  let dOtherPosition := dOtherLength * dOtherEnginePlayPos
                  (getBeatContext (some otherBeats) dOtherPosition).map (fun c => c.2.2.2)
        match otherFraction with
        | none => none
        | some dOtherBeatFraction =>
          let this_near_next : Bool :=
            decide (dThisNextBeat - dThisPosition ≤ dThisPosition - dThisPrevBeat)
          let other_near_next : Bool := decide (dOtherBeatFraction ≥ 0.5)
          let dNewPlaypos := (dOtherBeatFraction + s.m_dUserOffset) * dThisBeatLength
          if this_near_next = other_near_next then
            some (dNewPlaypos + dThisPrevBeat)
          else if this_near_next = true ∧ other_near_next = false then
            some (dNewPlaypos + dThisNextBeat)
          else
            some (dNewPlaypos + beats.findNthBeat dThisPosition (-2))

/-- `BpmControl::getNearestPositionInPhase`.  The first part of the body is
`phaseAlignedPlaypos`; the loop correction follows the source, including its
recursive call with `respectLoops = false`. -/
def getNearestPositionInPhase (s : BpmControl) (syncTarget : Option EngineBuffer)
    (dThisPosition : ℚ) (respectLoops playing : Bool) : ℚ :=
  match phaseAlignedPlaypos s syncTarget dThisPosition playing with
  | none => dThisPosition
  | some dNewPlaypos =>
    if _hLoops : respectLoops = true then
      let loop_enabled := s.m_pLoopEnabled
      let loop_start_position := s.m_pLoopStartPosition
      let loop_end_position := s.m_pLoopEndPosition
      if loop_enabled = true ∧ dThisPosition ≤ loop_end_position then
        let loop_length := loop_end_position - loop_start_position
        let end_delta := dNewPlaypos - loop_end_position
        if end_delta > 0 ∧ loop_length > 0 then
          let i : ℤ := truncToInt (end_delta / loop_length)
          getNearestPositionInPhase s syncTarget
            (loop_start_position + end_delta - i * loop_length) false playing
        else dNewPlaypos
      else dNewPlaypos
    else dNewPlaypos
termination_by (if respectLoops = true then 1 else 0 : ℕ)
decreasing_by simp [*]

/-- `BpmControl::getPhaseOffset`. -/
def getPhaseOffset (s : BpmControl) (syncTarget : Option EngineBuffer)
    (dThisPosition : ℚ) : ℚ :=
  let dNewPlaypos := getNearestPositionInPhase s syncTarget dThisPosition false false
  dNewPlaypos - dThisPosition

/-- `BpmControl::calcRateRatio`. -/
def calcRateRatio (s : BpmControl) : ℚ :=
  1 + s.m_pRateDir * s.m_pRateRange * s.m_pRateSlider

/-- `BpmControl::slotUpdateEngineBpm`, the handler the constructor connects to
the rate slider and to the rate direction. -/
def slotUpdateEngineBpm (s : BpmControl) : BpmControl :=
  let dRate := calcRateRatio s
  { s with m_pEngineBpm := s.m_pLocalBpm * dRate }

/-- `BpmControl::slotUpdateRateSlider`, the handler the constructor connects to
the rate range and to the engine tempo. -/
def slotUpdateRateSlider (s : BpmControl) : BpmControl :=
  let localBpm := s.m_pLocalBpm
  let rateScale := s.m_pRateDir * s.m_pRateRange
  if localBpm = 0 ∨ rateScale = 0 then
    s
  else
    let dRateSlider := (s.m_pEngineBpm / localBpm - 1) / rateScale
    { s with m_pRateSlider := dRateSlider }

/-- `BpmControl::syncTempo`: the returned flag and the state after the call.
`syncTarget` is what `pickSyncTarget()` returns.  The temporary
`fFileBpmDelta` is a `float`: the difference of the local tempos is rounded to
single precision (`toFloat`) before the two comparisons, and a difference of
`floatOverflowBound` or more becomes infinite, so that both comparisons
succeed.  The slider value divides by `rateRange * rateDir` without a guard;
what is proved about it assumes that product non-zero. -/
def syncTempo (s : BpmControl) (syncTarget : Option EngineBuffer) : Bool × BpmControl :=
  match syncTarget with
  | none => (false, s)
  | some pOtherEngineBuffer =>
    let fThisBpm := s.m_pEngineBpm
    let fThisLocalBpm := s.m_pLocalBpm
    let fOtherBpm := pOtherEngineBuffer.getBpm
    let fOtherLocalBpm := pOtherEngineBuffer.getLocalBpm
    if fOtherBpm > 0 ∧ fThisBpm > 0 then
      let desiredRate0 := fOtherBpm / fThisLocalBpm
      let fFileBpmDelta := toFloat |fThisLocalBpm - fOtherLocalBpm|
      let infinite := floatOverflowBound ≤ |fThisLocalBpm - fOtherLocalBpm|
      let desiredRate :=
        if infinite ∨ |fThisLocalBpm * 2 - fOtherLocalBpm| < fFileBpmDelta then
          desiredRate0 / 2
        else if infinite ∨ |fThisLocalBpm - 2 * fOtherLocalBpm| < fFileBpmDelta then
          desiredRate0 * 2
        else desiredRate0
      let desiredRateShift := desiredRate - 1
      if desiredRateShift < 1 ∧ desiredRateShift > -0.5 then
        let desiredRateSlider := desiredRateShift / (s.m_pRateRange * s.m_pRateDir)
        (true, { s with m_pEngineBpm := s.m_pLocalBpm * desiredRate,
                        m_pRateSlider := desiredRateSlider })
      else (false, s)
    else (false, s)

/-- `BpmControl::updateBeatDistance`: the returned beat distance and the state
after the call. -/
def updateBeatDistance (s : BpmControl) : ℚ × BpmControl :=
  let beat_distance := getBeatDistance s s.m_dPreviousSample
  let s1 : BpmControl := { s with m_pThisBeatDistance := beat_distance }
  if s1.syncMode = SyncMode.SYNC_NONE then
    (beat_distance, { s1 with m_dUserOffset := 0 })
  else
    (beat_distance, s1)

/-- `BpmControl::resetSyncAdjustment`. -/
def resetSyncAdjustment (s : BpmControl) : BpmControl :=
  let new_distance := s.m_pThisBeatDistance + s.m_dUserOffset
  { s with m_pThisBeatDistance := new_distance,
           m_dUserOffset := 0,
           m_resetSyncAdjustment := true }

/-- The divisors of the divisions one call of `calcSyncedRate` executes, in
program order: `m_pLocalBpm` (guarded by `!= 0.0`), `dBeatLength` inside
`getBeatContextNoLookup` (guarded by `== 0.0 ? 0.0 :`) and `dBeatLength` in
`loop_size`.  The control flow is that of `calcSyncedRate`;
`calcSyncAdjustment` divides nowhere. -/
def calcSyncedRateDivisors (s : BpmControl) : List ℚ :=
  let d1 : List ℚ := if s.m_pLocalBpm ≠ 0 then [s.m_pLocalBpm] else []
  if s.m_pQuantize = 0 ∨ s.syncMode = SyncMode.SYNC_MASTER ∨
      s.m_pBeats.isNone = true ∨ s.m_pReverseButton ≠ 0 then
    d1
  else if s.m_pPrevBeat = -1 ∨ s.m_pNextBeat = -1 then
    d1
  else
    let dBeatLength := s.m_pNextBeat - s.m_pPrevBeat
    let d2 : List ℚ := if dBeatLength = 0 then [] else [dBeatLength]
    d1 ++ d2 ++ [dBeatLength]

/-- `BpmControl::slotAdjustBeatsFaster`.  The result is the argument of the call
`m_pBeats->setBpm(new_bpm)`, `none` when the handler does not touch the grid.
`BEATSCAP_SETBPM` is the capability bit of the class `Beats`, whose declaration
is not among the sources. -/
def slotAdjustBeatsFaster (s : BpmControl) (BEATSCAP_SETBPM : ℕ) (v : ℚ) : Option ℚ :=
  match s.m_pBeats with
  | none => none
  | some beats =>
    if v > 0 ∧ (beats.getCapabilities &&& BEATSCAP_SETBPM) ≠ 0 then
      let new_bpm := math_min 200 (beats.getBpm + 0.01)
      some new_bpm
    else none

/-- `BpmControl::slotAdjustBeatsSlower`, with the result as for
`slotAdjustBeatsFaster`. -/
def slotAdjustBeatsSlower (s : BpmControl) (BEATSCAP_SETBPM : ℕ) (v : ℚ) : Option ℚ :=
  match s.m_pBeats with
  | none => none
  | some beats =>
    if v > 0 ∧ (beats.getCapabilities &&& BEATSCAP_SETBPM) ≠ 0 then
      let new_bpm := math_max 10 (beats.getBpm - 0.01)
      some new_bpm
    else none

/-- `BpmControl::slotTapFilter`.  The quotient by `dRate` is not guarded in the
source; what is proved about it assumes the rate ratio non-zero. -/
def slotTapFilter (s : BpmControl) (averageLength : ℚ) (numSamples : ℤ) : BpmControl :=
  if averageLength ≤ 0 then s
  else if numSamples < 4 then s
  else
    let averageBpm := 60 * 1000 / averageLength
    let dRate := calcRateRatio s
    slotUpdateEngineBpm { s with m_pFileBpm := averageBpm / dRate }

/-- `BpmControl::slotBeatsTranslate`.  The result is the argument of the call
`m_pBeats->translate(delta)`, `none` when the handler does not touch the grid.
`delta % 2` is the remainder of C++, which has the sign of `delta`.
`BEATSCAP_TRANSLATE` is the capability bit of the class `Beats`. -/
def slotBeatsTranslate (s : BpmControl) (BEATSCAP_TRANSLATE : ℕ) (v : ℚ) : Option ℤ :=
  match s.m_pBeats with
  | none => none
  | some beats =>
    if v > 0 ∧ (beats.getCapabilities &&& BEATSCAP_TRANSLATE) ≠ 0 then
      let currentSample := s.currentSample
      let closestBeat := beats.findClosestBeat currentSample
      let delta : ℤ := truncToInt (currentSample - closestBeat)
      let delta : ℤ := if delta.tmod 2 ≠ 0 then delta - 1 else delta
      some delta
    else none

/-- The position `getNearestPositionInPhase` hands to its recursive call: the
statements `loop_length`, `end_delta`, `i` and the assignment to `dNewPlaypos`
of the loop correction. -/
def loopWrappedPlaypos (loop_start_position loop_end_position dNewPlaypos : ℚ) : ℚ :=
  let loop_length := loop_end_position - loop_start_position
  let end_delta := dNewPlaypos - loop_end_position
  let i : ℤ := truncToInt (end_delta / loop_length)
  loop_start_position + end_delta - i * loop_length

/-- The desired rate `syncTempo` computes from the two local tempos and the
other deck's tempo: the quotient and the half/double adjustment that follows
it, with the `float` temporary `fFileBpmDelta` as in `syncTempo`. -/
def syncTempoDesiredRate (fThisLocalBpm fOtherLocalBpm fOtherBpm : ℚ) : ℚ :=
  let desiredRate := fOtherBpm / fThisLocalBpm
  let fFileBpmDelta := toFloat |fThisLocalBpm - fOtherLocalBpm|
  let infinite := floatOverflowBound ≤ |fThisLocalBpm - fOtherLocalBpm|
  if infinite ∨ |fThisLocalBpm * 2 - fOtherLocalBpm| < fFileBpmDelta then desiredRate / 2
  else if infinite ∨ |fThisLocalBpm - 2 * fOtherLocalBpm| < fFileBpmDelta then
    desiredRate * 2
  else desiredRate

/-- The previous adjustment a call of `calcSyncAdjustment` works with: its first
statement replaces `m_dLastSyncAdjustment` by 1.0 when `m_resetSyncAdjustment`
is set. -/
def lastAdjustmentInEffect (s : BpmControl) : ℚ :=
  if s.m_resetSyncAdjustment = true then 1 else s.m_dLastSyncAdjustment

/-- The phase error `calcSyncAdjustment` computes when the user is not tweaking:
`shortest_distance - m_dUserOffset`. -/
def syncError (s : BpmControl) (my_percentage : ℚ) : ℚ :=
  shortestPercentageChange s.m_dSyncTargetBeatDistance my_percentage - s.m_dUserOffset

/-- A deck as the constructor leaves it: the member initialisers of
`BpmControl::BpmControl`, every control at 0, no grid loaded. -/
def constructed : BpmControl where
  m_dPreviousSample := 0
  m_dSyncTargetBeatDistance := 0
  m_dSyncInstantaneousBpm := 0
  m_dLastSyncAdjustment := 1
  m_resetSyncAdjustment := false
  m_dUserOffset := 0
  currentSample := 0
  syncMode := SyncMode.SYNC_NONE
  m_pBeats := none
  m_pPlayButton := 0
  m_pReverseButton := 0
  m_pQuantize := 0
  m_pRateSlider := 0
  m_pRateRange := 0
  m_pRateDir := 0
  m_pPrevBeat := -1
  m_pNextBeat := -1
  m_pLoopEnabled := false
  m_pLoopStartPosition := -1
  m_pLoopEndPosition := -1
  m_pFileBpm := 0
  m_pLocalBpm := 0
  m_pEngineBpm := 0
  m_pThisBeatDistance := 0

/-- A follower whose master is at beat distance 0.9 (the train-wreck scenario
when the deck itself is at 0.3). -/
def trainWreckDeck : BpmControl :=
  { constructed with
    syncMode := SyncMode.SYNC_FOLLOWER
    m_dSyncTargetBeatDistance := 0.9 }

/-- The deck of the small-error scenario: master at beat distance 0.48. -/
def smallErrorDeck : BpmControl :=
  { constructed with
    syncMode := SyncMode.SYNC_FOLLOWER
    m_dSyncTargetBeatDistance := 0.48 }

/-- A tempo-locked grid used in the scenarios: a beat every `len` samples,
counted from sample 0. -/
def uniformBeats (len bpm : ℚ) : Beats where
  getCapabilities := 0
  getBpm := bpm
  findPrevNextBeats := fun pos => some (⌊pos / len⌋ * len, (⌊pos / len⌋ + 1) * len)
  findNthBeat := fun pos n =>
    if n < 0 then (⌊pos / len⌋ + n + 1) * len
    else if n = 0 then ⌊pos / len⌋ * len
    else (⌈pos / len⌉ + n - 1) * len
  findClosestBeat := fun pos => round (pos / len) * len
  getBpmAroundPosition := fun _ _ => bpm

/-- The deck of the basic-rate scenario: local tempo 120, master tempo 124,
quantize on, grid present, cached beats 0 and 22050, play position 11025, master
beat distance 0.5, no user offset. -/
def basicRateDeck : BpmControl :=
  { constructed with
    syncMode := SyncMode.SYNC_FOLLOWER
    m_pBeats := some (uniformBeats 22050 120)
    m_pQuantize := 1
    m_pLocalBpm := 120
    m_dSyncInstantaneousBpm := 124
    m_pPrevBeat := 0
    m_pNextBeat := 22050
    currentSample := 11025
    m_dPreviousSample := 11025
    m_dSyncTargetBeatDistance := 0.5 }

/-- The basic-rate deck inside an enabled loop of half a beat (samples 0 to
11025). -/
def shortLoopDeck : BpmControl :=
  { basicRateDeck with
    m_pLoopEnabled := true
    m_pLoopStartPosition := 0
    m_pLoopEndPosition := 11025 }

/-- A follower looping over samples 0 to 33075 (one and a half beats of the
grid), with cached beats 22050 and 44100 and the master at beat distance 0.9. -/
def loopingDeck : BpmControl :=
  { basicRateDeck with
    m_pPrevBeat := 22050
    m_pNextBeat := 44100
    m_pLoopEnabled := true
    m_pLoopStartPosition := 0
    m_pLoopEndPosition := 33075
    m_dSyncTargetBeatDistance := 0.9 }

/-- A follower with a grid whose cached beats are still absent (-1) and whose
master is at beat distance 0.25. -/
def staleCacheDeck : BpmControl :=
  { basicRateDeck with
    m_pPrevBeat := -1
    m_pNextBeat := -1
    m_dSyncTargetBeatDistance := 0.25 }

/-- A deck with local tempo 120 and engine tempo 124.8 (slider 0.5 at range
0.08) whose rate range has just been set to 0. -/
def zeroRangeDeck : BpmControl :=
  { basicRateDeck with
    m_pRateDir := 1
    m_pRateRange := 0
    m_pRateSlider := 0.5
    m_pEngineBpm := 124.8 }

/-- The deck of the half-tempo scenario: local and engine tempo 60, rate range
0.08, direction 1. -/
def halfTempoDeck : BpmControl :=
  { constructed with
    m_pLocalBpm := 60
    m_pEngineBpm := 60
    m_pRateRange := 0.08
    m_pRateDir := 1 }

/-- The sync target of the half-tempo scenario: local and effective tempo 120. -/
def doubleTempoTarget : EngineBuffer where
  getBpm := 120
  getLocalBpm := 120
  getSpeed := 1
  getBeats := none
  track_samples := 0
  getVisualPlayPos := 0

/-- The basic-rate deck (half way through its beat) with a user offset of
0.75. -/
def userOffsetDeck : BpmControl :=
  { basicRateDeck with m_dUserOffset := 0.75 }

/-- The basic-rate deck with both cached beats at sample 22050, so that the beat
length is 0. -/
def zeroBeatLengthDeck : BpmControl :=
  { basicRateDeck with
    m_pPrevBeat := 22050
    m_pNextBeat := 22050
    currentSample := 22050
    m_dPreviousSample := 22050 }

/-- A follower looping over samples 1000 to 21000 with cached beats 0 and 22050
and the master at beat distance 0.45. -/
def offGridLoopDeck : BpmControl :=
  { basicRateDeck with
    m_pLoopEnabled := true
    m_pLoopStartPosition := 1000
    m_pLoopEndPosition := 21000
    m_dSyncTargetBeatDistance := 0.45 }

/-- A deck with local tempo 120, engine tempo 126, rate direction 1 and rate
range 0.1, whose slider is still at 0. -/
def sliderBehindDeck : BpmControl :=
  { constructed with
    m_pLocalBpm := 120
    m_pEngineBpm := 126
    m_pRateDir := 1
    m_pRateRange := 0.1
    m_pRateSlider := 0 }

/-- The grid of the scenarios with the capability bits 2 and 16 set and a tempo
of 5. -/
def slowGrid : Beats :=
  { uniformBeats 22050 5 with getCapabilities := 18 }

/-- The basic-rate deck with `slowGrid` loaded and the play position at sample
22046.5, three and a half samples before the closest beat 22050 of the grid. -/
def tunableDeck : BpmControl :=
  { basicRateDeck with
    m_pBeats := some slowGrid
    currentSample := 22046.5
    m_dPreviousSample := 22046.5 }

/-- A deck playing 8 percent faster (direction 1, range 0.08, slider 1) with
local tempo 100. -/
def fasterDeck : BpmControl :=
  { constructed with
    m_pLocalBpm := 100
    m_pRateDir := 1
    m_pRateRange := 0.08
    m_pRateSlider := 1 }

/-- The small-error deck after a train wreck and a reset: the stored last
adjustment is 1.05 and the reset flag is set. -/
def resetPendingDeck : BpmControl :=
  { smallErrorDeck with
    m_dLastSyncAdjustment := 1.05
    m_resetSyncAdjustment := true }

/-- A deck with local and engine tempo 100 + 3/2^21 (an exact `double`), rate
range 0.25 and direction 1. -/
def nearTieDeck : BpmControl :=
  { constructed with
    m_pLocalBpm := 209715203 / 2097152
    m_pEngineBpm := 209715203 / 2097152
    m_pRateRange := 0.25
    m_pRateDir := 1 }

/-- A sync target with local and effective tempo 150 + 5/2^21 (an exact
`double`): a little more than 1.5 times the tempo of `nearTieDeck`. -/
def nearTieTarget : EngineBuffer where
  getBpm := 314572805 / 2097152
  getLocalBpm := 314572805 / 2097152
  getSpeed := 1
  getBeats := none
  track_samples := 0
  getVisualPlayPos := 0

/-- A grid with the TRANSLATE capability (bit 2) whose closest beat is at
sample 0 wherever the play position is: a grid with one beat. -/
def oneBeatGrid : Beats where
  getCapabilities := 2
  getBpm := 120
  findPrevNextBeats := fun _ => none
  findNthBeat := fun _ _ => -1
  findClosestBeat := fun _ => 0
  getBpmAroundPosition := fun _ _ => -1

/-- A deck playing at sample 4294967294.5 (more than 2^32 - 2 samples into a
track) over `oneBeatGrid`. -/
def farFromBeatDeck : BpmControl :=
  { constructed with
    m_pBeats := some oneBeatGrid
    currentSample := 4294967294.5
    m_dPreviousSample := 4294967294.5 }

/-- A follower with cached beats 0 and 2^33, a loop over samples 0 to 1 and the
master at beat distance 1/4 + 3/2^34, so that the aligned position is
2^31 + 1.5. -/
def longBeatDeck : BpmControl :=
  { constructed with
    syncMode := SyncMode.SYNC_FOLLOWER
    m_pBeats := some (uniformBeats 8589934592 120)
    m_pPrevBeat := 0
    m_pNextBeat := 8589934592
    m_pLoopEnabled := true
    m_pLoopStartPosition := 0
    m_pLoopEndPosition := 1
    m_dSyncTargetBeatDistance := 1 / 4 + 3 / 17179869184 }

/-- The deck of the loop-wrap scenario: a follower looping over samples 0 to
44100 and standing at the loop end, with cached beats 22050 and 44100 and the
master at beat distance 5900/22050, so that the naive new position is 50000. -/
def loopWrapDeck : BpmControl :=
  { basicRateDeck with
    m_pPrevBeat := 22050
    m_pNextBeat := 44100
    m_pLoopEnabled := true
    m_pLoopStartPosition := 0
    m_pLoopEndPosition := 44100
    m_dSyncTargetBeatDistance := 5900 / 22050 }

end BpmControl

/-! Auxiliary facts and the theorems about the embedding. -/

theorem math_clamp_abs_le (v c : ℚ) (hc : 0 ≤ c) : |math_clamp v (-c) c| ≤ c := by
  unfold math_clamp
  rw [abs_le]
  constructor
  · exact le_max_left _ _
  · exact max_le (by linarith) (min_le_left _ _)

theorem math_clamp_sub_le (x d c e : ℚ) (hx : |x| ≤ c) (hd : |d| ≤ e) :
    |math_clamp (x + d) (-c) c - x| ≤ e := by
  unfold math_clamp
  rw [abs_le] at hx hd ⊢
  obtain ⟨hx1, hx2⟩ := hx
  obtain ⟨hd1, hd2⟩ := hd
  rcases le_total c (x + d) with h | h
  · rw [min_eq_left h, max_eq_right (by linarith)]
    constructor <;> linarith
  · rw [min_eq_right h]
    rcases le_total (-c) (x + d) with h2 | h2
    · rw [max_eq_right h2]
      constructor <;> linarith
    · rw [max_eq_left h2]
      constructor <;> linarith

/-- The integral part differs from the number by less than one unit, on the side
of zero. -/
theorem truncate_bounds (x : ℚ) :
    (0 ≤ x → 0 ≤ x - truncate x ∧ x - truncate x < 1) ∧
    (x < 0 → -1 < x - truncate x ∧ x - truncate x ≤ 0) := by
  unfold truncate
  constructor
  · intro h
    rw [if_pos h]
    have h1 := Int.floor_le x
    have h2 := Int.lt_floor_add_one x
    constructor <;> linarith
  · intro h
    rw [if_neg (not_le.mpr h)]
    have h1 := Int.le_ceil x
    have h2 := Int.ceil_lt_add_one x
    constructor <;> linarith

/-- A `double` strictly between -2^31 - 1 and 2^31 is converted to its integral
part. -/
theorem truncToInt_of_fits (x : ℚ) (h1 : -2147483649 < x) (h2 : x < 2147483648) :
    truncToInt x = truncate x := by
  have hb := truncate_bounds x
  have hlo : INT_MIN ≤ truncate x := by
    unfold INT_MIN
    rcases le_or_lt 0 x with h | h
    · have h3 : (0 : ℚ) ≤ truncate x := by
        unfold truncate
        rw [if_pos h]
        exact_mod_cast Int.floor_nonneg.mpr h
      have h4 : (0 : ℤ) ≤ truncate x := by exact_mod_cast h3
      omega
    · have h3 := (hb.2 h).2
      have h4 : (-2147483649 : ℚ) < truncate x := by linarith
      have h5 : (-2147483649 : ℤ) < truncate x := by exact_mod_cast h4
      omega
  have hhi : truncate x ≤ INT_MAX := by
    unfold INT_MAX
    rcases le_or_lt 0 x with h | h
    · have h3 := (hb.1 h).1
      have h4 : (truncate x : ℚ) < 2147483648 := by linarith
      have h5 : truncate x < 2147483648 := by exact_mod_cast h4
      omega
    · have h3 : (truncate x : ℚ) ≤ 0 := by
        unfold truncate
        rw [if_neg (not_le.mpr h)]
        exact_mod_cast Int.ceil_le.mpr (by exact_mod_cast h.le)
      have h4 : truncate x ≤ 0 := by exact_mod_cast h3
      omega
  unfold truncToInt
  rw [if_pos ⟨hlo, hhi⟩]

/-- The integral part of a number in [n, n + 1), n ≥ 0, is n. -/
theorem truncate_eq_of_nonneg (x : ℚ) (n : ℤ) (h0 : 0 ≤ x) (h1 : (n : ℚ) ≤ x)
    (h2 : x < n + 1) : truncate x = n := by
  unfold truncate
  rw [if_pos h0, Int.floor_eq_iff]
  exact ⟨h1, h2⟩

/-- A `double` in [0, 1) is converted to 0. -/
theorem truncToInt_eq_zero (x : ℚ) (h0 : 0 ≤ x) (h1 : x < 1) : truncToInt x = 0 := by
  rw [truncToInt_of_fits x (by linarith) (by linarith)]
  exact truncate_eq_of_nonneg x 0 h0 (by simpa using h0) (by simpa using h1)

/-- An integral part beyond `INT_MAX` is converted to `INT_MIN`. -/
theorem truncToInt_of_large (x : ℚ) (h : INT_MAX < truncate x) : truncToInt x = INT_MIN := by
  unfold truncToInt
  rw [if_neg (fun hh => absurd hh.2 (not_le.mpr h))]

/-- Rounding a number that is less than one half above an integer gives that
integer. -/
theorem roundHalfEven_of_lt (y : ℚ) (n : ℤ) (h1 : (n : ℚ) ≤ y) (h2 : y < n + 1 / 2) :
    roundHalfEven y = n := by
  have hf : ⌊y⌋ = n := by
    rw [Int.floor_eq_iff]
    exact ⟨h1, by linarith⟩
  unfold roundHalfEven
  dsimp only
  rw [hf, if_pos (by linarith)]

/-- For a positive `x` in the binade [2^e, 2^(e+1)), e ≥ -126, the conversion to
`float` rounds `x` to a multiple of 2^(e-23). -/
theorem toFloat_of_binade (x : ℚ) (e : ℤ) (hx : 0 < x) (he1 : (2 : ℚ) ^ e ≤ x)
    (he2 : x < (2 : ℚ) ^ (e + 1)) (hmin : -126 ≤ e) :
    toFloat x = roundHalfEven (x / 2 ^ (e - 23)) * 2 ^ (e - 23) := by
  have hlog : Int.log 2 x = e := by
    apply le_antisymm
    · have : Int.log 2 x < e + 1 := by
        rw [← Int.lt_zpow_iff_log_lt (by norm_num) hx]
        exact_mod_cast he2
      omega
    · rw [← Int.zpow_le_iff_le_log (by norm_num) hx]
      exact_mod_cast he1
  unfold toFloat
  rw [if_neg (ne_of_gt hx)]
  dsimp only
  rw [abs_of_pos hx, hlog, max_eq_left hmin, if_neg (not_lt.mpr hx.le), one_mul]

/-- The difference 60 of the half-tempo scenario is a `float`. -/
theorem toFloat_sixty : toFloat 60 = 60 := by
  rw [toFloat_of_binade 60 5 (by norm_num) (by norm_num) (by norm_num) (by norm_num)]
  have h : roundHalfEven ((60 : ℚ) / 2 ^ ((5 : ℤ) - 23)) = 15728640 := by
    apply roundHalfEven_of_lt
    · norm_num
    · norm_num
  rw [h]
  norm_num

/-- The difference 50 + 2^-20 is rounded to the `float` 50. -/
theorem toFloat_near_fifty : toFloat (50 + 1 / 1048576) = 50 := by
  rw [toFloat_of_binade (50 + 1 / 1048576) 5 (by norm_num) (by norm_num) (by norm_num)
    (by norm_num)]
  have h : roundHalfEven ((50 + 1 / 1048576 : ℚ) / 2 ^ ((5 : ℤ) - 23)) = 13107200 := by
    apply roundHalfEven_of_lt
    · norm_num
    · norm_num
  rw [h]
  norm_num

namespace BpmControl

/-- The stored `m_dLastSyncAdjustment` is the value returned. -/
theorem calcSyncAdjustment_stored (s : BpmControl) (f : ℚ) (tw : Bool) :
    (calcSyncAdjustment s f tw).2.m_dLastSyncAdjustment = (calcSyncAdjustment s f tw).1 := by
  unfold calcSyncAdjustment
  cases tw <;> rfl

/-- Without user tweaking, `calcSyncAdjustment` returns the value of its three
branches, computed from the error and the previous adjustment in effect. -/
theorem calcSyncAdjustment_auto (s : BpmControl) (f : ℚ) :
    (calcSyncAdjustment s f false).1 =
      if |syncError s f| > kTrainWreckThreshold then 1 + kSyncAdjustmentCap
      else if |syncError s f| > kErrorThreshold then
        1 + math_clamp
          (lastAdjustmentInEffect s - 1 +
            math_clamp
              (1 + (-(syncError s f) * kSyncAdjustmentProportional)
                - lastAdjustmentInEffect s)
              (-kSyncDeltaCap) kSyncDeltaCap)
          (-kSyncAdjustmentCap) kSyncAdjustmentCap
      else 1 := by
  unfold calcSyncAdjustment lastAdjustmentInEffect syncError
  cases hr : s.m_resetSyncAdjustment <;> simp

/-- With user tweaking, `calcSyncAdjustment` returns 1. -/
theorem calcSyncAdjustment_tweak (s : BpmControl) (f : ℚ) :
    (calcSyncAdjustment s f true).1 = 1 := by
  unfold calcSyncAdjustment
  rfl

/-- C1. For every state and every input the adjustment returned by
`calcSyncAdjustment` is within `kSyncAdjustmentCap` = 0.05 of 1, and so is the
`m_dLastSyncAdjustment` the call stores. -/
theorem calcSyncAdjustment_cap (s : BpmControl) (my_percentage : ℚ)
    (userTweakingSync : Bool) :
    |(calcSyncAdjustment s my_percentage userTweakingSync).1 - 1| ≤ 0.05 ∧
    |(calcSyncAdjustment s my_percentage userTweakingSync).2.m_dLastSyncAdjustment - 1|
      ≤ 0.05 := by
  have hc : (0 : ℚ) ≤ kSyncAdjustmentCap := by norm_num [kSyncAdjustmentCap]
  have hk : kSyncAdjustmentCap = 0.05 := by norm_num [kSyncAdjustmentCap]
  rw [calcSyncAdjustment_stored, and_self]
  cases userTweakingSync
  · rw [calcSyncAdjustment_auto]
    split_ifs
    · rw [add_sub_cancel_left, hk, abs_le]; constructor <;> norm_num
    · rw [add_sub_cancel_left, ← hk]; exact math_clamp_abs_le _ _ hc
    · rw [sub_self, abs_zero]; norm_num
  · rw [calcSyncAdjustment_tweak, sub_self, abs_zero]; norm_num

/-- C2 (as stated, refuted). From the constructed state (last adjustment 1.0)
with the master at 0.9 and the deck at 0.3 the call returns 1.05, which is 0.05
away from the stored last adjustment, more than `kSyncDeltaCap` = 0.02. -/
theorem calcSyncAdjustment_jump_exceeds_delta :
    trainWreckDeck.m_dLastSyncAdjustment = 1 ∧
    (calcSyncAdjustment trainWreckDeck 0.3 false).1 = 1.05 ∧
    ¬ |(calcSyncAdjustment trainWreckDeck 0.3 false).1
        - trainWreckDeck.m_dLastSyncAdjustment| ≤ 0.02 := by
  have h : (calcSyncAdjustment trainWreckDeck 0.3 false).1 = 1.05 := by
    rw [calcSyncAdjustment_auto]
    norm_num [syncError, trainWreckDeck, constructed, shortestPercentageChange,
      kTrainWreckThreshold, kSyncAdjustmentCap, abs_of_pos, abs_of_neg]
  refine ⟨rfl, h, ?_⟩
  rw [h]
  norm_num [trainWreckDeck, constructed, abs_of_pos]

/-- C2 (amended). In the proportional branch (no user tweaking, reset flag
clear, 0.01 < |error| ≤ 0.2), starting from a stored last adjustment within 0.05
of 1, the returned adjustment differs from the stored last adjustment by at most
`kSyncDeltaCap` = 0.02. -/
theorem calcSyncAdjustment_delta_cap (s : BpmControl) (my_percentage : ℚ)
    (hreset : s.m_resetSyncAdjustment = false)
    (hlo : 0.01 < |syncError s my_percentage|)
    (hhi : |syncError s my_percentage| ≤ 0.2)
    (hlast : |s.m_dLastSyncAdjustment - 1| ≤ 0.05) :
    |(calcSyncAdjustment s my_percentage false).1 - s.m_dLastSyncAdjustment| ≤ 0.02 := by
  have hL : lastAdjustmentInEffect s = s.m_dLastSyncAdjustment := by
    simp [lastAdjustmentInEffect, hreset]
  have h1 : ¬ |syncError s my_percentage| > kTrainWreckThreshold := by
    rw [kTrainWreckThreshold]; exact not_lt.mpr hhi
  have h2 : |syncError s my_percentage| > kErrorThreshold := by
    rw [kErrorThreshold]; exact hlo
  have hd : (0 : ℚ) ≤ kSyncDeltaCap := by norm_num [kSyncDeltaCap]
  have hk : kSyncAdjustmentCap = 0.05 := by norm_num [kSyncAdjustmentCap]
  have hk2 : kSyncDeltaCap = 0.02 := by norm_num [kSyncDeltaCap]
  rw [calcSyncAdjustment_auto, if_neg h1, if_pos h2, hL]
  have key := math_clamp_sub_le (s.m_dLastSyncAdjustment - 1)
    (math_clamp (1 + (-(syncError s my_percentage) * kSyncAdjustmentProportional)
        - s.m_dLastSyncAdjustment) (-kSyncDeltaCap) kSyncDeltaCap)
    kSyncAdjustmentCap kSyncDeltaCap (hk ▸ hlast) (math_clamp_abs_le _ _ hd)
  rw [← hk2]
  calc |1 + math_clamp _ (-kSyncAdjustmentCap) kSyncAdjustmentCap - s.m_dLastSyncAdjustment|
      = |math_clamp _ (-kSyncAdjustmentCap) kSyncAdjustmentCap
          - (s.m_dLastSyncAdjustment - 1)| := by congr 1; ring
    _ ≤ kSyncDeltaCap := key

/-- C2 (amended), at the small-error scenario: master at 0.48, deck at 0.5. -/
theorem calcSyncAdjustment_delta_cap_witness :
    smallErrorDeck.m_resetSyncAdjustment = false ∧
    0.01 < |syncError smallErrorDeck 0.5| ∧
    |syncError smallErrorDeck 0.5| ≤ 0.2 ∧
    |smallErrorDeck.m_dLastSyncAdjustment - 1| ≤ 0.05 ∧
    |(calcSyncAdjustment smallErrorDeck 0.5 false).1
        - smallErrorDeck.m_dLastSyncAdjustment| ≤ 0.02 := by
  have he : syncError smallErrorDeck 0.5 = 0.02 := by
    norm_num [syncError, smallErrorDeck, constructed, shortestPercentageChange,
      abs_of_pos, abs_of_neg]
  have h1 : (0.01 : ℚ) < |syncError smallErrorDeck 0.5| := by
    rw [he]; norm_num [abs_of_pos]
  have h2 : |syncError smallErrorDeck 0.5| ≤ 0.2 := by
    rw [he]; norm_num [abs_of_pos]
  have h3 : |smallErrorDeck.m_dLastSyncAdjustment - 1| ≤ 0.05 := by
    norm_num [smallErrorDeck, constructed]
  exact ⟨rfl, h1, h2, h3, calcSyncAdjustment_delta_cap smallErrorDeck 0.5 rfl h1 h2 h3⟩

/-- C3. With user tweaking, for every state and every beat fraction,
`calcSyncAdjustment` returns exactly 1, sets `m_dUserOffset` to
`shortestPercentageChange(m_dSyncTargetBeatDistance, my_percentage)` and stores
`m_dLastSyncAdjustment` = 1. -/
theorem calcSyncAdjustment_user_tweak (s : BpmControl) (my_percentage : ℚ) :
    (calcSyncAdjustment s my_percentage true).1 = 1 ∧
    (calcSyncAdjustment s my_percentage true).2.m_dUserOffset =
      shortestPercentageChange s.m_dSyncTargetBeatDistance my_percentage ∧
    (calcSyncAdjustment s my_percentage true).2.m_dLastSyncAdjustment = 1 := by
  unfold calcSyncAdjustment
  cases s.m_resetSyncAdjustment <;> simp

/-- C4. Without user tweaking, whenever the error
`shortestPercentageChange(m_dSyncTargetBeatDistance, my_percentage) - m_dUserOffset`
has magnitude above 0.2, `calcSyncAdjustment` returns (and stores) exactly
1.05, whatever the sign of the error and whatever the previous adjustment. -/
theorem calcSyncAdjustment_train_wreck (s : BpmControl) (my_percentage : ℚ)
    (herr : 0.2 < |shortestPercentageChange s.m_dSyncTargetBeatDistance my_percentage
              - s.m_dUserOffset|) :
    (calcSyncAdjustment s my_percentage false).1 = 1.05 ∧
    (calcSyncAdjustment s my_percentage false).2.m_dLastSyncAdjustment = 1.05 := by
  have h : |syncError s my_percentage| > kTrainWreckThreshold := by
    rw [kTrainWreckThreshold]; exact herr
  rw [calcSyncAdjustment_stored, and_self, calcSyncAdjustment_auto, if_pos h]
  norm_num [kSyncAdjustmentCap]

/-- C4, at the scenario of the claim: master at 0.9, deck at 0.3, no user
offset. -/
theorem calcSyncAdjustment_train_wreck_witness :
    trainWreckDeck.m_dSyncTargetBeatDistance = 0.9 ∧
    trainWreckDeck.m_dUserOffset = 0 ∧
    (0.2 : ℚ) < |shortestPercentageChange trainWreckDeck.m_dSyncTargetBeatDistance 0.3
              - trainWreckDeck.m_dUserOffset| ∧
    (calcSyncAdjustment trainWreckDeck 0.3 false).1 = 1.05 := by
  have h : (0.2 : ℚ) < |shortestPercentageChange trainWreckDeck.m_dSyncTargetBeatDistance 0.3
              - trainWreckDeck.m_dUserOffset| := by
    norm_num [trainWreckDeck, constructed, shortestPercentageChange, abs_of_pos, abs_of_neg]
  exact ⟨rfl, rfl, h, (calcSyncAdjustment_train_wreck trainWreckDeck 0.3 h).1⟩

/-- The comparisons of absolute values in `shortestPercentageChange` resolved:
the forward distance is chosen exactly when it is below one half. -/
theorem shortestPercentageChange_eq (c t : ℚ) :
    shortestPercentageChange c t =
      if c = t then 0
      else if c < t then (if t - c < 1 / 2 then t - c else t - c - 1)
      else (if 1 - c + t < 1 / 2 then 1 - c + t else t - c) := by
  unfold shortestPercentageChange
  by_cases h0 : c = t
  · rw [if_pos h0, if_pos h0]
  · rw [if_neg h0, if_neg h0]
    by_cases h1 : c < t
    · rw [if_pos h1, if_pos h1]
      dsimp only
      have hpos : 0 < t - c := by linarith
      rw [abs_of_pos hpos]
      by_cases h2 : t - c < 1 / 2
      · rw [if_pos h2, if_pos]
        rw [abs_of_neg (by linarith)]
        linarith
      · rw [if_neg h2, if_neg]
        intro hlt
        rcases le_total 0 (t - c - 1) with h3 | h3
        · rw [abs_of_nonneg h3] at hlt; linarith
        · rw [abs_of_nonpos h3] at hlt; linarith
    · rw [if_neg h1, if_neg h1]
      dsimp only
      have hneg : t - c < 0 := by
        rcases lt_or_gt_of_ne h0 with h | h
        · exact absurd h h1
        · linarith
      rw [abs_of_neg hneg]
      by_cases h2 : 1 - c + t < 1 / 2
      · rw [if_pos h2, if_pos]
        rcases le_total 0 (1 - c + t) with h3 | h3
        · rw [abs_of_nonneg h3]; linarith
        · rw [abs_of_nonpos h3]; linarith
      · rw [if_neg h2, if_neg]
        intro hlt
        rw [abs_of_nonneg (by linarith)] at hlt
        linarith

/-- C5. For `current` and `target` in [0, 1) the result δ of
`shortestPercentageChange` is a shortest signed circular distance: |δ| ≤ 0.5
and `current + δ - target` is an integer. -/
theorem shortestPercentageChange_shortest (current target : ℚ)
    (hc0 : 0 ≤ current) (hc1 : current < 1) (ht0 : 0 ≤ target) (ht1 : target < 1) :
    |shortestPercentageChange current target| ≤ 0.5 ∧
    ∃ k : ℤ, current + shortestPercentageChange current target - target = k := by
  rw [shortestPercentageChange_eq]
  have half : (0.5 : ℚ) = 1 / 2 := by norm_num
  rw [half]
  split_ifs with h0 h1 h2 h2
  · exact ⟨by norm_num, 0, by rw [h0]; norm_num⟩
  · exact ⟨by rw [abs_le]; constructor <;> linarith, 0, by push_cast; ring⟩
  · exact ⟨by rw [abs_le]; constructor <;> linarith, -1, by push_cast; ring⟩
  · exact ⟨by rw [abs_le]; constructor <;> linarith, 1, by push_cast; ring⟩
  · have hlt : target < current := lt_of_le_of_ne (not_lt.mp h1) (Ne.symm h0)
    exact ⟨by rw [abs_le]; constructor <;> linarith, 0, by push_cast; ring⟩

/-- C5, at current = 0.9 and target = 0.1 (the short way crosses the beat). -/
theorem shortestPercentageChange_shortest_witness :
    ((0 : ℚ) ≤ 0.9 ∧ (0.9 : ℚ) < 1 ∧ (0 : ℚ) ≤ 0.1 ∧ (0.1 : ℚ) < 1) ∧
    |shortestPercentageChange 0.9 0.1| ≤ 0.5 ∧
    ∃ k : ℤ, (0.9 : ℚ) + shortestPercentageChange 0.9 0.1 - 0.1 = k :=
  ⟨⟨by norm_num, by norm_num, by norm_num, by norm_num⟩,
    shortestPercentageChange_shortest 0.9 0.1 (by norm_num) (by norm_num) (by norm_num)
      (by norm_num)⟩

/-- C6 (as stated, refuted). On the tie of the claim the code returns the
backward distance: `shortestPercentageChange(0.25, 0.75)` is -0.5, not +0.5. -/
theorem shortestPercentageChange_tie_not_forward :
    shortestPercentageChange 0.25 0.75 = -0.5 ∧
    shortestPercentageChange 0.25 0.75 ≠ 0.5 := by
  have h : shortestPercentageChange 0.25 0.75 = -0.5 := by
    rw [shortestPercentageChange_eq]; norm_num
  exact ⟨h, by rw [h]; norm_num⟩

/-- C6 (amended). For `current` and `target` in [0, 1): when forward and
backward distance have equal magnitude (|target - current| = 0.5) the result is
the backward distance -0.5; in every case the result lies in [-0.5, 0.5), so it
is never +0.5. -/
theorem shortestPercentageChange_tie_backward (current target : ℚ)
    (hc0 : 0 ≤ current) (hc1 : current < 1) (ht0 : 0 ≤ target) (ht1 : target < 1) :
    (|target - current| = 0.5 → shortestPercentageChange current target = -0.5) ∧
    -0.5 ≤ shortestPercentageChange current target ∧
    shortestPercentageChange current target < 0.5 := by
  rw [shortestPercentageChange_eq]
  have half : (0.5 : ℚ) = 1 / 2 := by norm_num
  rw [half]
  split_ifs with h0 h1 h2 h2
  · refine ⟨?_, by norm_num, by norm_num⟩
    intro h; rw [h0, sub_self, abs_zero] at h; norm_num at h
  · refine ⟨?_, by linarith, by linarith⟩
    intro h; rw [abs_of_pos (by linarith)] at h; linarith
  · refine ⟨?_, by linarith, by linarith⟩
    intro h; rw [abs_of_pos (by linarith)] at h; linarith
  · refine ⟨?_, by linarith, by linarith⟩
    intro h
    have hlt : target < current := lt_of_le_of_ne (not_lt.mp h1) (Ne.symm h0)
    rw [abs_of_neg (by linarith)] at h; linarith
  · have hlt : target < current := lt_of_le_of_ne (not_lt.mp h1) (Ne.symm h0)
    refine ⟨?_, by linarith, by linarith⟩
    intro h; rw [abs_of_neg (by linarith)] at h; linarith

/-- C6 (amended), at the other tie: current = 0.75, target = 0.25. -/
theorem shortestPercentageChange_tie_backward_witness :
    ((0 : ℚ) ≤ 0.75 ∧ (0.75 : ℚ) < 1 ∧ (0 : ℚ) ≤ 0.25 ∧ (0.25 : ℚ) < 1) ∧
    |(0.25 : ℚ) - 0.75| = 0.5 ∧
    shortestPercentageChange 0.75 0.25 = -0.5 ∧
    -0.5 ≤ shortestPercentageChange 0.75 0.25 ∧
    shortestPercentageChange 0.75 0.25 < 0.5 := by
  have key := shortestPercentageChange_tie_backward 0.75 0.25 (by norm_num) (by norm_num)
    (by norm_num) (by norm_num)
  have htie : |(0.25 : ℚ) - 0.75| = 0.5 := by
    rw [abs_of_neg (by norm_num)]; norm_num
  exact ⟨⟨by norm_num, by norm_num, by norm_num, by norm_num⟩, htie, key.1 htie, key.2⟩

/-- C7 (as stated, refuted). Both orders of the tie 0.25 / 0.75 return -0.5, so
`shortestPercentageChange(0.25, 0.75)` is not the negative of
`shortestPercentageChange(0.75, 0.25)`. -/
theorem shortestPercentageChange_not_antisymmetric :
    shortestPercentageChange 0.25 0.75 = -0.5 ∧
    shortestPercentageChange 0.75 0.25 = -0.5 ∧
    shortestPercentageChange 0.25 0.75 ≠ -shortestPercentageChange 0.75 0.25 := by
  have h1 : shortestPercentageChange 0.25 0.75 = -0.5 := by
    rw [shortestPercentageChange_eq]; norm_num
  have h2 : shortestPercentageChange 0.75 0.25 = -0.5 := by
    rw [shortestPercentageChange_eq]; norm_num
  exact ⟨h1, h2, by rw [h1, h2]; norm_num⟩

/-- C7 (amended). Away from the tie, `shortestPercentageChange` is
antisymmetric: for all a and b with |a - b| ≠ 0.5 (in particular for such a, b
in [0, 1)), `shortestPercentageChange(a, b) = -shortestPercentageChange(b, a)`. -/
theorem shortestPercentageChange_antisymmetric (a b : ℚ) (hne : |a - b| ≠ 0.5) :
    shortestPercentageChange a b = -shortestPercentageChange b a := by
  have half : (0.5 : ℚ) = 1 / 2 := by norm_num
  rw [half] at hne
  rw [shortestPercentageChange_eq, shortestPercentageChange_eq]
  rcases lt_trichotomy a b with hab | hab | hab
  · have hne2 : b - a ≠ 1 / 2 := by
      intro h; apply hne; rw [abs_of_neg (by linarith)]; linarith
    rw [if_neg (ne_of_lt hab), if_pos hab, if_neg (ne_of_gt hab), if_neg (not_lt.mpr hab.le)]
    rcases lt_or_gt_of_ne hne2 with h | h
    · rw [if_pos h, if_neg (by linarith)]; ring
    · rw [if_neg (by linarith), if_pos (by linarith)]; ring
  · rw [if_pos hab, if_pos hab.symm]; norm_num
  · have hne2 : a - b ≠ 1 / 2 := by
      intro h; apply hne; rw [abs_of_pos (by linarith)]; exact h
    rw [if_neg (ne_of_gt hab), if_neg (not_lt.mpr hab.le), if_neg (ne_of_lt hab), if_pos hab]
    rcases lt_or_gt_of_ne hne2 with h | h
    · rw [if_neg (by linarith), if_pos h]; ring
    · rw [if_pos (by linarith), if_neg (by linarith)]; ring

/-- C7 (amended), at a = 0.9, b = 0.1: the two results are 0.2 and -0.2. -/
theorem shortestPercentageChange_antisymmetric_witness :
    |(0.9 : ℚ) - 0.1| ≠ 0.5 ∧
    shortestPercentageChange 0.9 0.1 = -shortestPercentageChange 0.1 0.9 := by
  have h : |(0.9 : ℚ) - 0.1| ≠ 0.5 := by
    rw [abs_of_pos (by norm_num)]; norm_num
  exact ⟨h, shortestPercentageChange_antisymmetric 0.9 0.1 h⟩

/-- When both beats are present, `getBeatContextNoLookup` succeeds with the beat
length `dNextBeat - dPrevBeat`. -/
theorem getBeatContextNoLookup_present (pos prev next : ℚ)
    (hp : prev ≠ -1) (hn : next ≠ -1) :
    ∃ f, getBeatContextNoLookup pos prev next = some (next - prev, f) := by
  unfold getBeatContextNoLookup
  rw [if_neg (by rintro (h | h); exacts [hp h, hn h])]
  exact ⟨_, rfl⟩

/-- When a beat is absent, `getBeatContextNoLookup` fails. -/
theorem getBeatContextNoLookup_absent (pos prev next : ℚ)
    (h : prev = -1 ∨ next = -1) :
    getBeatContextNoLookup pos prev next = none := by
  unfold getBeatContextNoLookup
  rw [if_pos h]

/-- C8 (as stated, refuted). At `position = next` (beats 0 and 22050, position
22050) `getBeatContextNoLookup` returns the fraction 1, which is not below 1. -/
theorem getBeatContextNoLookup_at_next_is_one :
    getBeatContextNoLookup 22050 0 22050 = some (22050, 1) ∧
    ¬ ∃ f : ℚ, (getBeatContextNoLookup 22050 0 22050).map Prod.snd = some f ∧
        0 ≤ f ∧ f < 1 := by
  have h : getBeatContextNoLookup 22050 0 22050 = some (22050, 1) := by
    norm_num [getBeatContextNoLookup]
  refine ⟨h, ?_⟩
  rintro ⟨f, hf, -, hlt⟩
  rw [h] at hf
  simp only [Option.map_some', Option.some.injEq] at hf
  rw [← hf] at hlt
  exact lt_irrefl _ hlt

/-- C8 (amended). With both beats present, `prev ≤ position ≤ next` and
`next > prev`, `getBeatContextNoLookup` succeeds with beat length `next - prev`
and a fraction in the closed interval [0, 1]; the fraction is below 1 exactly
when `position < next` (at `position = next` it is 1). -/
theorem getBeatContextNoLookup_fraction (position prev next : ℚ)
    (hp : prev ≠ -1) (hn : next ≠ -1)
    (h1 : prev ≤ position) (h2 : position ≤ next) (h3 : prev < next) :
    ∃ f, getBeatContextNoLookup position prev next = some (next - prev, f) ∧
      0 ≤ f ∧ f ≤ 1 ∧ (f < 1 ↔ position < next) := by
  have hlen : 0 < next - prev := by linarith
  have hf0 : 0 ≤ (position - prev) / (next - prev) :=
    div_nonneg (by linarith) hlen.le
  have hf1 : (position - prev) / (next - prev) ≤ 1 :=
    (div_le_one hlen).mpr (by linarith)
  refine ⟨(position - prev) / (next - prev), ?_, hf0, hf1, ?_⟩
  · unfold getBeatContextNoLookup
    rw [if_neg (by rintro (h | h); exacts [hp h, hn h])]
    dsimp only
    rw [if_neg (ne_of_gt hlen), if_neg (not_lt.mpr hf0), if_neg (not_lt.mpr hf1)]
  · rw [div_lt_one hlen]
    constructor <;> intro h <;> linarith

/-- C8 (amended), at beats 0 and 22050 and position 11025. -/
theorem getBeatContextNoLookup_fraction_witness :
    ((0 : ℚ) ≠ -1 ∧ (22050 : ℚ) ≠ -1 ∧ (0 : ℚ) ≤ 11025 ∧ (11025 : ℚ) ≤ 22050 ∧
      (0 : ℚ) < 22050) ∧
    ∃ f, getBeatContextNoLookup 11025 0 22050 = some (22050 - 0, f) ∧
      0 ≤ f ∧ f ≤ 1 ∧ (f < 1 ↔ (11025 : ℚ) < 22050) :=
  ⟨⟨by norm_num, by norm_num, by norm_num, by norm_num, by norm_num⟩,
    getBeatContextNoLookup_fraction 11025 0 22050 (by norm_num) (by norm_num)
      (by norm_num) (by norm_num) (by norm_num)⟩

/-- For cached beats in grid order (`prev ≤ next`) the loop test of
`calcSyncedRate`, written on the loop size in beats, says that the loop is
longer than 0 and shorter than the beat. -/
theorem loop_size_test_iff (loopStart loopEnd prev next : ℚ) (h : prev ≤ next) :
    ((loopEnd - loopStart) / (next - prev) < 1 ∧ (loopEnd - loopStart) / (next - prev) > 0)
      ↔ (0 < loopEnd - loopStart ∧ loopEnd - loopStart < next - prev) := by
  rcases eq_or_lt_of_le h with heq | hlt
  · have hz : next - prev = 0 := by rw [heq]; ring
    rw [hz, div_zero]
    constructor
    · rintro ⟨-, h0⟩; exact absurd h0 (lt_irrefl _)
    · rintro ⟨h0, h1⟩; exact absurd (h0.trans h1) (lt_irrefl _)
  · have hpos : 0 < next - prev := by linarith
    rw [div_lt_one hpos, gt_iff_lt, div_pos_iff_of_pos_right hpos]
    exact and_comm

/-- C9. If quantize is off, or the deck is the sync master, or no grid is
loaded, or reverse is engaged, or a cached beat is absent (-1), or a loop is
enabled whose length is more than 0 and less than the beat length, then
`calcSyncedRate` returns `rate + userTweak` (rate = instantaneous tempo / local
tempo, or 1 when the local tempo is 0) and the only change of state is that
`m_resetSyncAdjustment` is set: `m_dLastSyncAdjustment` and `m_dUserOffset` are
untouched. -/
theorem calcSyncedRate_short_circuit (s : BpmControl) (userTweak : ℚ)
    (h : s.m_pQuantize = 0 ∨ s.syncMode = SyncMode.SYNC_MASTER ∨ s.m_pBeats.isNone = true ∨
      s.m_pReverseButton ≠ 0 ∨ s.m_pPrevBeat = -1 ∨ s.m_pNextBeat = -1 ∨
      (s.m_pLoopEnabled = true ∧ 0 < s.m_pLoopEndPosition - s.m_pLoopStartPosition ∧
        s.m_pLoopEndPosition - s.m_pLoopStartPosition < s.m_pNextBeat - s.m_pPrevBeat)) :
    calcSyncedRate s userTweak =
      ((if s.m_pLocalBpm = 0 then 1 else s.m_dSyncInstantaneousBpm / s.m_pLocalBpm)
          + userTweak,
        { s with m_resetSyncAdjustment := true }) ∧
    (calcSyncedRate s userTweak).2.m_resetSyncAdjustment = true ∧
    (calcSyncedRate s userTweak).2.m_dLastSyncAdjustment = s.m_dLastSyncAdjustment ∧
    (calcSyncedRate s userTweak).2.m_dUserOffset = s.m_dUserOffset := by
  have hrate : (if s.m_pLocalBpm ≠ 0 then s.m_dSyncInstantaneousBpm / s.m_pLocalBpm else 1)
      = (if s.m_pLocalBpm = 0 then 1 else s.m_dSyncInstantaneousBpm / s.m_pLocalBpm) := by
    by_cases hz : s.m_pLocalBpm = 0
    · rw [if_neg (not_not.mpr hz), if_pos hz]
    · rw [if_pos hz, if_neg hz]
  have main : calcSyncedRate s userTweak =
      ((if s.m_pLocalBpm = 0 then 1 else s.m_dSyncInstantaneousBpm / s.m_pLocalBpm)
          + userTweak,
        { s with m_resetSyncAdjustment := true }) := by
    unfold calcSyncedRate
    dsimp only
    rw [hrate]
    by_cases hg : s.m_pQuantize = 0 ∨ s.syncMode = SyncMode.SYNC_MASTER ∨
        s.m_pBeats.isNone = true ∨ s.m_pReverseButton ≠ 0
    · rw [if_pos hg]
    · rw [if_neg hg]
      by_cases ha : s.m_pPrevBeat = -1 ∨ s.m_pNextBeat = -1
      · rw [getBeatContextNoLookup_absent _ _ _ ha]
      · obtain ⟨f, hf⟩ := getBeatContextNoLookup_present s.currentSample s.m_pPrevBeat
          s.m_pNextBeat (fun e => ha (Or.inl e)) (fun e => ha (Or.inr e))
        rw [hf]
        dsimp only
        have hloop : s.m_pLoopEnabled = true ∧
            0 < s.m_pLoopEndPosition - s.m_pLoopStartPosition ∧
            s.m_pLoopEndPosition - s.m_pLoopStartPosition < s.m_pNextBeat - s.m_pPrevBeat := by
          rcases h with h | h | h | h | h | h | h
          · exact absurd (Or.inl h) hg
          · exact absurd (Or.inr (Or.inl h)) hg
          · exact absurd (Or.inr (Or.inr (Or.inl h))) hg
          · exact absurd (Or.inr (Or.inr (Or.inr h))) hg
          · exact absurd (Or.inl h) ha
          · exact absurd (Or.inr h) ha
          · exact h
        obtain ⟨hen, hl0, hl1⟩ := hloop
        have hord : s.m_pPrevBeat ≤ s.m_pNextBeat := by linarith
        rw [if_pos ⟨hen, (loop_size_test_iff _ _ _ _ hord).mpr ⟨hl0, hl1⟩⟩]
  rw [main]
  exact ⟨rfl, rfl, rfl, rfl⟩

/-- C9, at the basic-rate deck inside an enabled half-beat loop: the call
returns the plain rate 124/120. -/
theorem calcSyncedRate_short_circuit_witness :
    (shortLoopDeck.m_pLoopEnabled = true ∧
      0 < shortLoopDeck.m_pLoopEndPosition - shortLoopDeck.m_pLoopStartPosition ∧
      shortLoopDeck.m_pLoopEndPosition - shortLoopDeck.m_pLoopStartPosition
        < shortLoopDeck.m_pNextBeat - shortLoopDeck.m_pPrevBeat) ∧
    (calcSyncedRate shortLoopDeck 0).1 = 124 / 120 ∧
    (calcSyncedRate shortLoopDeck 0).2.m_resetSyncAdjustment = true := by
  have hl : shortLoopDeck.m_pLoopEnabled = true ∧
      0 < shortLoopDeck.m_pLoopEndPosition - shortLoopDeck.m_pLoopStartPosition ∧
      shortLoopDeck.m_pLoopEndPosition - shortLoopDeck.m_pLoopStartPosition
        < shortLoopDeck.m_pNextBeat - shortLoopDeck.m_pPrevBeat := by
    refine ⟨rfl, ?_, ?_⟩ <;> norm_num [shortLoopDeck, basicRateDeck, constructed]
  have key := calcSyncedRate_short_circuit shortLoopDeck 0
    (Or.inr (Or.inr (Or.inr (Or.inr (Or.inr (Or.inr hl))))))
  refine ⟨hl, ?_, key.2.1⟩
  rw [key.1]
  norm_num [shortLoopDeck, basicRateDeck, constructed]

/-- C10. When no short-circuit condition applies (quantize on, not the sync
master, grid present, not reversed, both cached beats present, and no enabled
loop whose size in beats lies strictly between 0 and 1), `calcSyncedRate`
returns `(rate + userTweak) * calcSyncAdjustment(f, userTweak ≠ 0)` and leaves
the state that call produces, where rate = instantaneous tempo / local tempo (1
when the local tempo is 0) and `f` is the beat fraction
`getBeatContextNoLookup` computes for the current sample between the cached
beats. -/
theorem calcSyncedRate_adjusted (s : BpmControl) (userTweak : ℚ)
    (hq : s.m_pQuantize ≠ 0) (hm : s.syncMode ≠ SyncMode.SYNC_MASTER)
    (hb : s.m_pBeats.isSome = true) (hr : s.m_pReverseButton = 0)
    (hp : s.m_pPrevBeat ≠ -1) (hn : s.m_pNextBeat ≠ -1)
    (hl : ¬ (s.m_pLoopEnabled = true ∧
      0 < (s.m_pLoopEndPosition - s.m_pLoopStartPosition) / (s.m_pNextBeat - s.m_pPrevBeat) ∧
      (s.m_pLoopEndPosition - s.m_pLoopStartPosition) / (s.m_pNextBeat - s.m_pPrevBeat) < 1)) :
    ∃ f, getBeatContextNoLookup s.currentSample s.m_pPrevBeat s.m_pNextBeat
        = some (s.m_pNextBeat - s.m_pPrevBeat, f) ∧
      calcSyncedRate s userTweak =
        (((if s.m_pLocalBpm = 0 then 1 else s.m_dSyncInstantaneousBpm / s.m_pLocalBpm)
            + userTweak) * (calcSyncAdjustment s f (decide (userTweak ≠ 0))).1,
          (calcSyncAdjustment s f (decide (userTweak ≠ 0))).2) := by
  obtain ⟨f, hf⟩ := getBeatContextNoLookup_present s.currentSample s.m_pPrevBeat
    s.m_pNextBeat hp hn
  refine ⟨f, hf, ?_⟩
  have hrate : (if s.m_pLocalBpm ≠ 0 then s.m_dSyncInstantaneousBpm / s.m_pLocalBpm else 1)
      = (if s.m_pLocalBpm = 0 then 1 else s.m_dSyncInstantaneousBpm / s.m_pLocalBpm) := by
    by_cases hz : s.m_pLocalBpm = 0
    · rw [if_neg (not_not.mpr hz), if_pos hz]
    · rw [if_pos hz, if_neg hz]
  have hg : ¬ (s.m_pQuantize = 0 ∨ s.syncMode = SyncMode.SYNC_MASTER ∨
      s.m_pBeats.isNone = true ∨ s.m_pReverseButton ≠ 0) := by
    rintro (h | h | h | h)
    · exact hq h
    · exact hm h
    · cases hs : s.m_pBeats with
      | none => rw [hs] at hb; exact Bool.false_ne_true hb
      | some g => rw [hs] at h; exact Bool.false_ne_true h
    · exact h hr
  unfold calcSyncedRate
  dsimp only
  rw [hrate, if_neg hg, hf]
  dsimp only
  rw [if_neg (fun h => hl ⟨h.1, h.2.2, h.2.1⟩)]

/-- C10, at the basic-rate scenario: local tempo 120, master tempo 124, beats 0
and 22050, position 11025, master beat distance 0.5, no user offset, no tweak;
the beat fraction is 0.5, the adjustment 1 and the result 124/120. -/
theorem calcSyncedRate_adjusted_witness :
    (basicRateDeck.m_pQuantize ≠ 0 ∧ basicRateDeck.syncMode ≠ SyncMode.SYNC_MASTER ∧
      basicRateDeck.m_pBeats.isSome = true ∧ basicRateDeck.m_pReverseButton = 0 ∧
      basicRateDeck.m_pPrevBeat ≠ -1 ∧ basicRateDeck.m_pNextBeat ≠ -1 ∧
      basicRateDeck.m_pLoopEnabled = false) ∧
    getBeatContextNoLookup basicRateDeck.currentSample basicRateDeck.m_pPrevBeat
        basicRateDeck.m_pNextBeat = some (22050, 0.5) ∧
    (calcSyncAdjustment basicRateDeck 0.5 (decide ((0 : ℚ) ≠ 0))).1 = 1 ∧
    (calcSyncedRate basicRateDeck 0).1 = 124 / 120 := by
  have hq : basicRateDeck.m_pQuantize ≠ 0 := by norm_num [basicRateDeck, constructed]
  have hm : basicRateDeck.syncMode ≠ SyncMode.SYNC_MASTER := by
    simp [basicRateDeck, constructed]
  have hb : basicRateDeck.m_pBeats.isSome = true := rfl
  have hr : basicRateDeck.m_pReverseButton = 0 := rfl
  have hp : basicRateDeck.m_pPrevBeat ≠ -1 := by norm_num [basicRateDeck, constructed]
  have hn : basicRateDeck.m_pNextBeat ≠ -1 := by norm_num [basicRateDeck, constructed]
  have hle : basicRateDeck.m_pLoopEnabled = false := rfl
  have hctx : getBeatContextNoLookup basicRateDeck.currentSample basicRateDeck.m_pPrevBeat
      basicRateDeck.m_pNextBeat = some (22050, 0.5) := by
    norm_num [getBeatContextNoLookup, basicRateDeck, constructed]
  have hadj : (calcSyncAdjustment basicRateDeck 0.5 (decide ((0 : ℚ) ≠ 0))).1 = 1 := by
    have hd : decide ((0 : ℚ) ≠ 0) = false := by simp
    rw [hd, calcSyncAdjustment_auto]
    norm_num [syncError, basicRateDeck, constructed, shortestPercentageChange,
      kTrainWreckThreshold, kErrorThreshold]
  obtain ⟨f, hf, hres⟩ := calcSyncedRate_adjusted basicRateDeck 0 hq hm hb hr hp hn
    (fun h => Bool.false_ne_true (hle.symm.trans h.1))
  have hf2 : f = 0.5 := by
    rw [hctx] at hf
    simp only [Option.some.injEq, Prod.mk.injEq] at hf
    exact hf.2.symm
  rw [hf2] at hres
  refine ⟨⟨hq, hm, hb, hr, hp, hn, hle⟩, hctx, hadj, ?_⟩
  rw [hres]
  show _ * (calcSyncAdjustment basicRateDeck 0.5 (decide ((0 : ℚ) ≠ 0))).1 = _
  rw [hadj]
  norm_num [basicRateDeck, constructed]

/-- C11 (as stated, refuted). With the master at 0.48 and the deck at 0.5 the
distance measured from the master to the deck is +0.02, and from a last
adjustment of 1.0 the call returns 0.986, not 1.014. -/
theorem calcSyncAdjustment_small_error_not_speed_up :
    smallErrorDeck.m_dSyncTargetBeatDistance = 0.48 ∧
    smallErrorDeck.m_dUserOffset = 0 ∧
    smallErrorDeck.m_dLastSyncAdjustment = 1 ∧
    shortestPercentageChange smallErrorDeck.m_dSyncTargetBeatDistance 0.5 = 0.02 ∧
    (calcSyncAdjustment smallErrorDeck 0.5 false).1 = 0.986 ∧
    (calcSyncAdjustment smallErrorDeck 0.5 false).1 ≠ 1.014 := by
  have hs : shortestPercentageChange smallErrorDeck.m_dSyncTargetBeatDistance 0.5 = 0.02 := by
    rw [shortestPercentageChange_eq]
    norm_num [smallErrorDeck, constructed]
  have he : syncError smallErrorDeck 0.5 = 0.02 := by
    rw [syncError, hs]; norm_num [smallErrorDeck, constructed]
  have hr : (calcSyncAdjustment smallErrorDeck 0.5 false).1 = 0.986 := by
    rw [calcSyncAdjustment_auto, he]
    norm_num [lastAdjustmentInEffect, smallErrorDeck, constructed, kTrainWreckThreshold,
      kErrorThreshold, kSyncAdjustmentProportional, kSyncDeltaCap, kSyncAdjustmentCap,
      math_clamp, abs_of_pos]
  refine ⟨rfl, rfl, rfl, hs, hr, ?_⟩
  rw [hr]; norm_num

/-- C11 (amended). With the master beat distance 0.48, the deck at 0.5, no user
offset, a last adjustment of 1.0 and no user tweaking, `calcSyncAdjustment`
computes shortest = +0.02 and error = +0.02, and returns and stores the
adjustment 0.986 (a slow-down of 0.02 * 0.7). -/
theorem calcSyncAdjustment_small_error (s : BpmControl)
    (htarget : s.m_dSyncTargetBeatDistance = 0.48) (hoff : s.m_dUserOffset = 0)
    (hlast : s.m_dLastSyncAdjustment = 1) :
    shortestPercentageChange s.m_dSyncTargetBeatDistance 0.5 = 0.02 ∧
    syncError s 0.5 = 0.02 ∧
    (calcSyncAdjustment s 0.5 false).1 = 0.986 ∧
    (calcSyncAdjustment s 0.5 false).2.m_dLastSyncAdjustment = 0.986 := by
  have hs : shortestPercentageChange s.m_dSyncTargetBeatDistance 0.5 = 0.02 := by
    rw [shortestPercentageChange_eq, htarget]
    norm_num
  have he : syncError s 0.5 = 0.02 := by
    rw [syncError, hs, hoff]; norm_num
  have hL : lastAdjustmentInEffect s = 1 := by
    unfold lastAdjustmentInEffect
    split_ifs
    · rfl
    · exact hlast
  have hr : (calcSyncAdjustment s 0.5 false).1 = 0.986 := by
    rw [calcSyncAdjustment_auto, he, hL]
    norm_num [kTrainWreckThreshold, kErrorThreshold, kSyncAdjustmentProportional,
      kSyncDeltaCap, kSyncAdjustmentCap, math_clamp, abs_of_pos]
  exact ⟨hs, he, hr, by rw [calcSyncAdjustment_stored, hr]⟩

/-- C11 (amended), at the deck of the small-error scenario. -/
theorem calcSyncAdjustment_small_error_witness :
    (smallErrorDeck.m_dSyncTargetBeatDistance = 0.48 ∧ smallErrorDeck.m_dUserOffset = 0 ∧
      smallErrorDeck.m_dLastSyncAdjustment = 1) ∧
    shortestPercentageChange smallErrorDeck.m_dSyncTargetBeatDistance 0.5 = 0.02 ∧
    syncError smallErrorDeck 0.5 = 0.02 ∧
    (calcSyncAdjustment smallErrorDeck 0.5 false).1 = 0.986 ∧
    (calcSyncAdjustment smallErrorDeck 0.5 false).2.m_dLastSyncAdjustment = 0.986 :=
  ⟨⟨rfl, rfl, rfl⟩, calcSyncAdjustment_small_error smallErrorDeck rfl rfl rfl⟩

/-- With `respectLoops = false` the function returns the aligned position, or
the input position after an early return. -/
theorem getNearestPositionInPhase_no_loops (s : BpmControl) (t : Option EngineBuffer)
    (pos : ℚ) (playing : Bool) :
    getNearestPositionInPhase s t pos false playing
      = (phaseAlignedPlaypos s t pos playing).getD pos := by
  rw [getNearestPositionInPhase]
  cases phaseAlignedPlaypos s t pos playing <;> simp

/-- After an early return the input position is returned, whatever
`respectLoops` is. -/
theorem getNearestPositionInPhase_of_none (s : BpmControl) (t : Option EngineBuffer)
    (pos : ℚ) (respectLoops playing : Bool)
    (h : phaseAlignedPlaypos s t pos playing = none) :
    getNearestPositionInPhase s t pos respectLoops playing = pos := by
  rw [getNearestPositionInPhase, h]

/-- The body of the function for `respectLoops = true` once the aligned position
is known. -/
theorem getNearestPositionInPhase_loops (s : BpmControl) (t : Option EngineBuffer)
    (pos n : ℚ) (playing : Bool) (h : phaseAlignedPlaypos s t pos playing = some n) :
    getNearestPositionInPhase s t pos true playing =
      if s.m_pLoopEnabled = true ∧ pos ≤ s.m_pLoopEndPosition then
        if n - s.m_pLoopEndPosition > 0 ∧ s.m_pLoopEndPosition - s.m_pLoopStartPosition > 0 then
          getNearestPositionInPhase s t
            (s.m_pLoopStartPosition + (n - s.m_pLoopEndPosition)
              - truncToInt ((n - s.m_pLoopEndPosition)
                  / (s.m_pLoopEndPosition - s.m_pLoopStartPosition))
                * (s.m_pLoopEndPosition - s.m_pLoopStartPosition)) false playing
        else n
      else n := by
  rw [getNearestPositionInPhase, h]
  simp

/-- A follower whose position lies between its cached, present beats aligns to
the target beat distance from one of three anchors. -/
theorem phaseAlignedPlaypos_follower_cached (s : BpmControl) (g : Beats)
    (t : Option EngineBuffer) (pos : ℚ) (playing : Bool)
    (hmode : s.syncMode = SyncMode.SYNC_FOLLOWER) (hgrid : s.m_pBeats = some g)
    (hp : s.m_pPrevBeat ≠ -1) (hn : s.m_pNextBeat ≠ -1)
    (h1 : s.m_pPrevBeat ≤ pos) (h2 : pos ≤ s.m_pNextBeat) :
    phaseAlignedPlaypos s t pos playing =
      some ((s.m_dSyncTargetBeatDistance + s.m_dUserOffset) * (s.m_pNextBeat - s.m_pPrevBeat)
        + (if decide (s.m_pNextBeat - pos ≤ pos - s.m_pPrevBeat)
              = decide (s.m_dSyncTargetBeatDistance ≥ 0.5) then s.m_pPrevBeat
           else if decide (s.m_pNextBeat - pos ≤ pos - s.m_pPrevBeat) = true
              ∧ decide (s.m_dSyncTargetBeatDistance ≥ 0.5) = false then s.m_pNextBeat
           else g.findNthBeat pos (-2))) := by
  obtain ⟨f, hf⟩ := getBeatContextNoLookup_present pos s.m_pPrevBeat s.m_pNextBeat hp hn
  have hstale : ¬ (pos > s.m_pNextBeat ∨ pos < s.m_pPrevBeat) := by
    rintro (h | h)
    · exact absurd h (not_lt.mpr h2)
    · exact absurd h (not_lt.mpr h1)
  have hm : ¬ s.syncMode = SyncMode.SYNC_MASTER := by
    rw [hmode]; decide
  unfold phaseAlignedPlaypos
  rw [hgrid]
  dsimp only
  rw [if_neg hm, if_neg hstale, hf, if_pos hmode]
  dsimp only [Option.map_some']
  split_ifs <;> rfl

/-- Inside a beat of positive length the normalisation changes nothing: the
fraction is `(position - prev) / (next - prev)`. -/
theorem getBeatContextNoLookup_inside (pos prev next : ℚ)
    (hp : prev ≠ -1) (hn : next ≠ -1)
    (h1 : prev ≤ pos) (h2 : pos ≤ next) (h3 : prev < next) :
    getBeatContextNoLookup pos prev next
      = some (next - prev, (pos - prev) / (next - prev)) := by
  have hlen : 0 < next - prev := by linarith
  have hf0 : 0 ≤ (pos - prev) / (next - prev) := div_nonneg (by linarith) hlen.le
  have hf1 : (pos - prev) / (next - prev) ≤ 1 := (div_le_one hlen).mpr (by linarith)
  unfold getBeatContextNoLookup
  rw [if_neg (by rintro (h | h); exacts [hp h, hn h])]
  dsimp only
  rw [if_neg (ne_of_gt hlen), if_neg (not_lt.mpr hf0), if_neg (not_lt.mpr hf1)]

/-- C12. For a follower with a loaded grid of uniformly spaced beats of length
L > 0 (cached beats `prev` and `next = prev + L`, both present, and
`findNthBeat(position, -2) = prev - L`), `respectLoops = false` and
`prev ≤ position ≤ next`, the position p returned by
`getNearestPositionInPhase` is `b + (targetBeatDistance + userOffset) * L` for a
grid beat `b = prev + k * L` with k in {-1, 0, 1}; when the user offset is 0 and
the target beat distance is in [0, 1), p lies in the beat that starts at b and
its beat fraction there is the target beat distance. -/
theorem getNearestPositionInPhase_in_phase (s : BpmControl) (g : Beats)
    (syncTarget : Option EngineBuffer) (position L : ℚ) (playing : Bool)
    (hmode : s.syncMode = SyncMode.SYNC_FOLLOWER) (hgrid : s.m_pBeats = some g)
    (hL : 0 < L) (hnext : s.m_pNextBeat = s.m_pPrevBeat + L)
    (hnth : g.findNthBeat position (-2) = s.m_pPrevBeat - L)
    (hp : s.m_pPrevBeat ≠ -1) (hn : s.m_pNextBeat ≠ -1)
    (h1 : s.m_pPrevBeat ≤ position) (h2 : position ≤ s.m_pNextBeat) :
    ∃ (k : ℤ) (b : ℚ), (k = -1 ∨ k = 0 ∨ k = 1) ∧ b = s.m_pPrevBeat + k * L ∧
      getNearestPositionInPhase s syncTarget position false playing
        = b + (s.m_dSyncTargetBeatDistance + s.m_dUserOffset) * L ∧
      (s.m_dUserOffset = 0 → 0 ≤ s.m_dSyncTargetBeatDistance →
        s.m_dSyncTargetBeatDistance < 1 →
        b ≤ getNearestPositionInPhase s syncTarget position false playing ∧
        getNearestPositionInPhase s syncTarget position false playing < b + L ∧
        (getNearestPositionInPhase s syncTarget position false playing - b) / L
          = s.m_dSyncTargetBeatDistance ∧
        (b ≠ -1 → b + L ≠ -1 →
          getBeatContextNoLookup
              (getNearestPositionInPhase s syncTarget position false playing) b (b + L)
            = some (L, s.m_dSyncTargetBeatDistance))) := by
  have hlen : s.m_pNextBeat - s.m_pPrevBeat = L := by rw [hnext]; ring
  have key : ∀ b : ℚ,
      getNearestPositionInPhase s syncTarget position false playing
        = b + (s.m_dSyncTargetBeatDistance + s.m_dUserOffset) * L →
      (s.m_dUserOffset = 0 → 0 ≤ s.m_dSyncTargetBeatDistance →
        s.m_dSyncTargetBeatDistance < 1 →
        b ≤ getNearestPositionInPhase s syncTarget position false playing ∧
        getNearestPositionInPhase s syncTarget position false playing < b + L ∧
        (getNearestPositionInPhase s syncTarget position false playing - b) / L
          = s.m_dSyncTargetBeatDistance ∧
        (b ≠ -1 → b + L ≠ -1 →
          getBeatContextNoLookup
              (getNearestPositionInPhase s syncTarget position false playing) b (b + L)
            = some (L, s.m_dSyncTargetBeatDistance))) := by
    intro b hb ho ht0 ht1
    rw [hb, ho, add_zero]
    have hfrac : (b + s.m_dSyncTargetBeatDistance * L - b) / L = s.m_dSyncTargetBeatDistance := by
      field_simp
    have hlo : b ≤ b + s.m_dSyncTargetBeatDistance * L := by
      have := mul_nonneg ht0 hL.le
      linarith
    have hhi : b + s.m_dSyncTargetBeatDistance * L < b + L := by
      have := mul_lt_mul_of_pos_right ht1 hL
      linarith
    refine ⟨hlo, hhi, hfrac, ?_⟩
    intro hb1 hb2
    rw [getBeatContextNoLookup_inside _ _ _ hb1 hb2 hlo hhi.le (by linarith)]
    have e1 : b + L - b = L := by ring
    rw [e1, hfrac]
  have hval := phaseAlignedPlaypos_follower_cached s g syncTarget position playing hmode hgrid
    hp hn h1 h2
  rw [hlen] at hval
  have hres : getNearestPositionInPhase s syncTarget position false playing
      = (s.m_dSyncTargetBeatDistance + s.m_dUserOffset) * L
        + (if decide (s.m_pNextBeat - position ≤ position - s.m_pPrevBeat)
              = decide (s.m_dSyncTargetBeatDistance ≥ 0.5) then s.m_pPrevBeat
           else if decide (s.m_pNextBeat - position ≤ position - s.m_pPrevBeat) = true
              ∧ decide (s.m_dSyncTargetBeatDistance ≥ 0.5) = false then s.m_pNextBeat
           else g.findNthBeat position (-2)) := by
    rw [getNearestPositionInPhase_no_loops, hval, Option.getD_some]
  by_cases hA : decide (s.m_pNextBeat - position ≤ position - s.m_pPrevBeat)
      = decide (s.m_dSyncTargetBeatDistance ≥ 0.5)
  · rw [if_pos hA] at hres
    have hb : getNearestPositionInPhase s syncTarget position false playing
        = (s.m_pPrevBeat + ((0 : ℤ) : ℚ) * L)
          + (s.m_dSyncTargetBeatDistance + s.m_dUserOffset) * L := by
      rw [hres]; push_cast; ring
    exact ⟨0, _, Or.inr (Or.inl rfl), rfl, hb, key _ hb⟩
  · rw [if_neg hA] at hres
    by_cases hB : decide (s.m_pNextBeat - position ≤ position - s.m_pPrevBeat) = true
        ∧ decide (s.m_dSyncTargetBeatDistance ≥ 0.5) = false
    · rw [if_pos hB] at hres
      have hb : getNearestPositionInPhase s syncTarget position false playing
          = (s.m_pPrevBeat + ((1 : ℤ) : ℚ) * L)
            + (s.m_dSyncTargetBeatDistance + s.m_dUserOffset) * L := by
        rw [hres, hnext]; push_cast; ring
      exact ⟨1, _, Or.inr (Or.inr rfl), rfl, hb, key _ hb⟩
    · rw [if_neg hB, hnth] at hres
      have hb : getNearestPositionInPhase s syncTarget position false playing
          = (s.m_pPrevBeat + ((-1 : ℤ) : ℚ) * L)
            + (s.m_dSyncTargetBeatDistance + s.m_dUserOffset) * L := by
        rw [hres]; push_cast; ring
      exact ⟨-1, _, Or.inl rfl, rfl, hb, key _ hb⟩

/-- C12, at the basic-rate deck (beats 0 and 22050, position 11025, master beat
distance 0.5): the aligned position is 11025 itself. -/
theorem getNearestPositionInPhase_in_phase_witness :
    (basicRateDeck.syncMode = SyncMode.SYNC_FOLLOWER ∧
      basicRateDeck.m_pBeats = some (uniformBeats 22050 120) ∧
      basicRateDeck.m_pNextBeat = basicRateDeck.m_pPrevBeat + 22050 ∧
      (uniformBeats 22050 120).findNthBeat 11025 (-2) = basicRateDeck.m_pPrevBeat - 22050 ∧
      basicRateDeck.m_pPrevBeat ≤ 11025 ∧ 11025 ≤ basicRateDeck.m_pNextBeat) ∧
    getNearestPositionInPhase basicRateDeck none 11025 false false = 11025 ∧
    ∃ (k : ℤ) (b : ℚ), (k = -1 ∨ k = 0 ∨ k = 1) ∧ b = basicRateDeck.m_pPrevBeat + k * 22050 ∧
      getNearestPositionInPhase basicRateDeck none 11025 false false
        = b + (basicRateDeck.m_dSyncTargetBeatDistance + basicRateDeck.m_dUserOffset) * 22050 ∧
      (basicRateDeck.m_dUserOffset = 0 → 0 ≤ basicRateDeck.m_dSyncTargetBeatDistance →
        basicRateDeck.m_dSyncTargetBeatDistance < 1 →
        b ≤ getNearestPositionInPhase basicRateDeck none 11025 false false ∧
        getNearestPositionInPhase basicRateDeck none 11025 false false < b + 22050 ∧
        (getNearestPositionInPhase basicRateDeck none 11025 false false - b) / 22050
          = basicRateDeck.m_dSyncTargetBeatDistance ∧
        (b ≠ -1 → b + 22050 ≠ -1 →
          getBeatContextNoLookup
              (getNearestPositionInPhase basicRateDeck none 11025 false false) b (b + 22050)
            = some (22050, basicRateDeck.m_dSyncTargetBeatDistance))) := by
  have hnext : basicRateDeck.m_pNextBeat = basicRateDeck.m_pPrevBeat + 22050 := by
    norm_num [basicRateDeck, constructed]
  have hnth : (uniformBeats 22050 120).findNthBeat 11025 (-2)
      = basicRateDeck.m_pPrevBeat - 22050 := by
    norm_num [uniformBeats, basicRateDeck, constructed]
  have hp : basicRateDeck.m_pPrevBeat ≠ -1 := by norm_num [basicRateDeck, constructed]
  have hn : basicRateDeck.m_pNextBeat ≠ -1 := by norm_num [basicRateDeck, constructed]
  have h1 : basicRateDeck.m_pPrevBeat ≤ 11025 := by norm_num [basicRateDeck, constructed]
  have h2 : (11025 : ℚ) ≤ basicRateDeck.m_pNextBeat := by norm_num [basicRateDeck, constructed]
  have hval : getNearestPositionInPhase basicRateDeck none 11025 false false = 11025 := by
    rw [getNearestPositionInPhase_no_loops]
    simp [phaseAlignedPlaypos, basicRateDeck, constructed, getBeatContextNoLookup]
    norm_num
  exact ⟨⟨rfl, rfl, hnext, hnth, h1, h2⟩, hval,
    getNearestPositionInPhase_in_phase basicRateDeck (uniformBeats 22050 120) none 11025 22050
      false rfl rfl (by norm_num) hnext hnth hp hn h1 h2⟩

/-- The wrapped position of the loop correction: for a positive overshoot `d`
past the loop end and a positive loop length, `loopStart + d - i * length` with
`i` the integral part of the quotient lies in the loop, the end excluded. -/
theorem wrapped_in_loop (loopStart len d : ℚ) (hd : 0 < d) (hlen : 0 < len) :
    loopStart ≤ loopStart + d - truncate (d / len) * len ∧
    loopStart + d - truncate (d / len) * len < loopStart + len := by
  have hq : 0 ≤ d / len := (div_pos hd hlen).le
  have ht : truncate (d / len) = ⌊d / len⌋ := by
    unfold truncate
    rw [if_pos hq]
  rw [ht]
  have hfl : (⌊d / len⌋ : ℚ) ≤ d / len := Int.floor_le _
  have hfl2 : d / len < ⌊d / len⌋ + 1 := Int.lt_floor_add_one _
  have e1 : (⌊d / len⌋ : ℚ) * len ≤ d := by
    have := mul_le_mul_of_nonneg_right hfl hlen.le
    rwa [div_mul_cancel₀ _ (ne_of_gt hlen)] at this
  have e2 : d < ((⌊d / len⌋ : ℚ) + 1) * len := by
    have := mul_lt_mul_of_pos_right hfl2 hlen
    rwa [div_mul_cancel₀ _ (ne_of_gt hlen)] at this
  constructor
  · linarith
  · linarith

/-- The alignment of the wrapped position can end before the loop start, which
the source allows ("syncing to before the loop beginning is allowed").  A
follower loops over samples 0 to 33075 and stands at the loop end (cached beats
22050 and 44100, master beat distance 0.9): the aligned position 41895 is
wrapped to 8820, and the alignment of 8820 returns -2205. -/
theorem getNearestPositionInPhase_leaves_loop :
    loopingDeck.m_pLoopEnabled = true ∧
    loopingDeck.m_pLoopStartPosition = 0 ∧ loopingDeck.m_pLoopEndPosition = 33075 ∧
    getNearestPositionInPhase loopingDeck none 33075 false false = 41895 ∧
    getNearestPositionInPhase loopingDeck none 33075 true false = -2205 ∧
    ¬ (loopingDeck.m_pLoopStartPosition
        ≤ getNearestPositionInPhase loopingDeck none 33075 true false ∧
      getNearestPositionInPhase loopingDeck none 33075 true false
        ≤ loopingDeck.m_pLoopEndPosition) := by
  have hn : phaseAlignedPlaypos loopingDeck none 33075 false = some 41895 := by
    simp [phaseAlignedPlaypos, loopingDeck, basicRateDeck, constructed, getBeatContextNoLookup]
    norm_num
  have hw : phaseAlignedPlaypos loopingDeck none 8820 false = some (-2205) := by
    simp [phaseAlignedPlaypos, loopingDeck, basicRateDeck, constructed, getBeatContextNoLookup,
      getBeatContext, uniformBeats]
    norm_num
  have h1 : getNearestPositionInPhase loopingDeck none 33075 false false = 41895 := by
    rw [getNearestPositionInPhase_no_loops, hn, Option.getD_some]
  have h2 : getNearestPositionInPhase loopingDeck none 8820 false false = -2205 := by
    rw [getNearestPositionInPhase_no_loops, hw, Option.getD_some]
  have hs : loopingDeck.m_pLoopStartPosition = 0 := rfl
  have he : loopingDeck.m_pLoopEndPosition = 33075 := rfl
  have hen : loopingDeck.m_pLoopEnabled = true := rfl
  have hi : truncToInt (((41895 : ℚ) - 33075) / (33075 - 0)) = 0 :=
    truncToInt_eq_zero _ (by norm_num) (by norm_num)
  have h3 : getNearestPositionInPhase loopingDeck none 33075 true false = -2205 := by
    rw [getNearestPositionInPhase_loops _ _ _ _ _ hn, hs, he, hen,
      if_pos ⟨rfl, le_refl _⟩, if_pos (by norm_num), hi]
    have e : (0 : ℚ) + (41895 - 33075) - ((0 : ℤ) : ℚ) * (33075 - 0) = 8820 := by norm_num
    rw [e, h2]
  refine ⟨hen, hs, he, h1, h3, ?_⟩
  rw [h3, hs]
  rintro ⟨h, -⟩
  norm_num at h

/-- C13 (code evaluated at the failing input). A follower with a grid (beats
every 22050 samples, cached beats 0 and 22050, master beat distance 0.45) loops
over samples 1000 to 21000 and stands at the loop end 21000.  The naive new
position 31972.5 is past the loop end; it is wrapped to 11972.5, inside the
loop, but the alignment of 11972.5 returns 31972.5 again: the returned position
is past the loop end. -/
theorem getNearestPositionInPhase_realigned_past_loop_end :
    (offGridLoopDeck.m_pBeats.isSome = true ∧
      offGridLoopDeck.syncMode ≠ SyncMode.SYNC_MASTER ∧
      offGridLoopDeck.m_pLoopEnabled = true ∧
      offGridLoopDeck.m_pLoopStartPosition = 1000 ∧
      offGridLoopDeck.m_pLoopEndPosition = 21000 ∧
      offGridLoopDeck.m_pLoopStartPosition < offGridLoopDeck.m_pLoopEndPosition ∧
      (21000 : ℚ) ≤ offGridLoopDeck.m_pLoopEndPosition ∧
      phaseAlignedPlaypos offGridLoopDeck none 21000 false = some 31972.5 ∧
      offGridLoopDeck.m_pLoopEndPosition < 31972.5) ∧
    loopWrappedPlaypos 1000 21000 31972.5 = 11972.5 ∧
    getNearestPositionInPhase offGridLoopDeck none 11972.5 false false = 31972.5 ∧
    getNearestPositionInPhase offGridLoopDeck none 21000 true false = 31972.5 ∧
    ¬ (offGridLoopDeck.m_pLoopStartPosition
        ≤ getNearestPositionInPhase offGridLoopDeck none 21000 true false ∧
      getNearestPositionInPhase offGridLoopDeck none 21000 true false
        ≤ offGridLoopDeck.m_pLoopEndPosition) := by
  have hn : phaseAlignedPlaypos offGridLoopDeck none 21000 false = some 31972.5 := by
    simp [phaseAlignedPlaypos, offGridLoopDeck, basicRateDeck, constructed,
      getBeatContextNoLookup]
    norm_num
  have hw : phaseAlignedPlaypos offGridLoopDeck none 11972.5 false = some 31972.5 := by
    simp [phaseAlignedPlaypos, offGridLoopDeck, basicRateDeck, constructed,
      getBeatContextNoLookup]
    norm_num
  have hs : offGridLoopDeck.m_pLoopStartPosition = 1000 := rfl
  have he : offGridLoopDeck.m_pLoopEndPosition = 21000 := rfl
  have hen : offGridLoopDeck.m_pLoopEnabled = true := rfl
  have hm : offGridLoopDeck.syncMode ≠ SyncMode.SYNC_MASTER := by
    simp [offGridLoopDeck, basicRateDeck, constructed]
  have hi : truncToInt (((31972.5 : ℚ) - 21000) / (21000 - 1000)) = 0 :=
    truncToInt_eq_zero _ (by norm_num) (by norm_num)
  have hwrap : loopWrappedPlaypos 1000 21000 31972.5 = 11972.5 := by
    unfold loopWrappedPlaypos
    dsimp only
    rw [hi]
    norm_num
  have h2 : getNearestPositionInPhase offGridLoopDeck none 11972.5 false false = 31972.5 := by
    rw [getNearestPositionInPhase_no_loops, hw, Option.getD_some]
  have h3 : getNearestPositionInPhase offGridLoopDeck none 21000 true false = 31972.5 := by
    rw [getNearestPositionInPhase_loops _ _ _ _ _ hn, hs, he, hen,
      if_pos ⟨rfl, le_refl _⟩, if_pos (by norm_num), hi]
    have e : (1000 : ℚ) + (31972.5 - 21000) - ((0 : ℤ) : ℚ) * (21000 - 1000) = 11972.5 := by
      norm_num
    rw [e, h2]
  refine ⟨⟨rfl, hm, hen, hs, he, by rw [hs, he]; norm_num, by rw [he], hn,
    by rw [he]; norm_num⟩, hwrap, h2, h3, ?_⟩
  rw [h3, he]
  rintro ⟨-, h⟩
  norm_num at h

/-- C14 (as stated, refuted). A follower with a grid whose cached beats are both
-1 is asked about position 5000: the position is outside the cached pair, the
grid is queried, and the result is 5512.5, not 5000; the phase offset is 512.5. -/
theorem getNearestPositionInPhase_absent_cache_requeried :
    staleCacheDeck.m_pPrevBeat = -1 ∧ staleCacheDeck.m_pNextBeat = -1 ∧
    getNearestPositionInPhase staleCacheDeck none 5000 false false = 5512.5 ∧
    getNearestPositionInPhase staleCacheDeck none 5000 false false ≠ 5000 ∧
    getPhaseOffset staleCacheDeck none 5000 = 512.5 := by
  have hn : phaseAlignedPlaypos staleCacheDeck none 5000 false = some 5512.5 := by
    simp [phaseAlignedPlaypos, staleCacheDeck, basicRateDeck, constructed,
      getBeatContextNoLookup, getBeatContext, uniformBeats]
    norm_num
  have h1 : getNearestPositionInPhase staleCacheDeck none 5000 false false = 5512.5 := by
    rw [getNearestPositionInPhase_no_loops, hn, Option.getD_some]
  refine ⟨rfl, rfl, h1, by rw [h1]; norm_num, ?_⟩
  unfold getPhaseOffset
  rw [h1]; norm_num

/-- C14 (amended). `getNearestPositionInPhase` returns its input position, for
every value of `respectLoops` and `playing`, whenever no grid is loaded, or the
deck is the sync master, or the position lies within the cached pair and a
cached beat is -1, or the position lies outside the cached pair and the grid
lookup `getBeatContext` fails; in those cases `getPhaseOffset(position)` is 0. -/
theorem getNearestPositionInPhase_unchanged (s : BpmControl)
    (syncTarget : Option EngineBuffer) (position : ℚ) (respectLoops playing : Bool)
    (h : s.m_pBeats = none ∨ s.syncMode = SyncMode.SYNC_MASTER ∨
      (s.m_pPrevBeat ≤ position ∧ position ≤ s.m_pNextBeat ∧
        (s.m_pPrevBeat = -1 ∨ s.m_pNextBeat = -1)) ∨
      ((position > s.m_pNextBeat ∨ position < s.m_pPrevBeat) ∧
        getBeatContext s.m_pBeats position = none)) :
    getNearestPositionInPhase s syncTarget position respectLoops playing = position ∧
    getPhaseOffset s syncTarget position = 0 := by
  have hnone : ∀ pl : Bool, phaseAlignedPlaypos s syncTarget position pl = none := by
    intro pl
    unfold phaseAlignedPlaypos
    cases hb : s.m_pBeats with
    | none => rfl
    | some g =>
      dsimp only
      by_cases hm : s.syncMode = SyncMode.SYNC_MASTER
      · rw [if_pos hm]
      · rw [if_neg hm]
        rcases h with h | h | h | h
        · rw [hb] at h; exact absurd h (Option.some_ne_none g)
        · exact absurd h hm
        · obtain ⟨h1, h2, h3⟩ := h
          have hstale : ¬ (position > s.m_pNextBeat ∨ position < s.m_pPrevBeat) := by
            rintro (h | h)
            · exact absurd h (not_lt.mpr h2)
            · exact absurd h (not_lt.mpr h1)
          rw [if_neg hstale, getBeatContextNoLookup_absent _ _ _ h3]
          rfl
        · obtain ⟨h1, h2⟩ := h
          rw [hb] at h2
          rw [if_pos h1, h2]
          rfl
  refine ⟨getNearestPositionInPhase_of_none _ _ _ _ _ (hnone playing), ?_⟩
  unfold getPhaseOffset
  rw [getNearestPositionInPhase_of_none _ _ _ _ _ (hnone false)]
  exact sub_self _

/-- C14 (amended), at the follower with absent cached beats asked about
position -1, which lies within the cached pair (-1, -1). -/
theorem getNearestPositionInPhase_unchanged_witness :
    (staleCacheDeck.m_pPrevBeat ≤ -1 ∧ -1 ≤ staleCacheDeck.m_pNextBeat ∧
      (staleCacheDeck.m_pPrevBeat = -1 ∨ staleCacheDeck.m_pNextBeat = -1)) ∧
    getNearestPositionInPhase staleCacheDeck none (-1) true true = -1 ∧
    getPhaseOffset staleCacheDeck none (-1) = 0 := by
  have h : staleCacheDeck.m_pPrevBeat ≤ -1 ∧ -1 ≤ staleCacheDeck.m_pNextBeat ∧
      (staleCacheDeck.m_pPrevBeat = -1 ∨ staleCacheDeck.m_pNextBeat = -1) :=
    ⟨by norm_num [staleCacheDeck, basicRateDeck, constructed],
      by norm_num [staleCacheDeck, basicRateDeck, constructed], Or.inl rfl⟩
  exact ⟨h, getNearestPositionInPhase_unchanged staleCacheDeck none (-1) true true
    (Or.inr (Or.inr (Or.inl h)))⟩

/-- C15 (as stated, refuted). The rate range is wired to
`slotUpdateRateSlider`; with the range set to 0 that handler changes nothing, so
a deck with local tempo 120, slider 0.5 and engine tempo 124.8 keeps the engine
tempo 124.8, while `localBpm * (1 + rateDir * rateRange * rateSlider)` is 120. -/
theorem slotUpdateRateSlider_zero_range_breaks_identity :
    zeroRangeDeck.m_pRateRange = 0 ∧
    (slotUpdateRateSlider zeroRangeDeck).m_pEngineBpm = 124.8 ∧
    (slotUpdateRateSlider zeroRangeDeck).m_pLocalBpm
      * (1 + (slotUpdateRateSlider zeroRangeDeck).m_pRateDir
            * (slotUpdateRateSlider zeroRangeDeck).m_pRateRange
            * (slotUpdateRateSlider zeroRangeDeck).m_pRateSlider) = 120 ∧
    (slotUpdateRateSlider zeroRangeDeck).m_pEngineBpm ≠
      (slotUpdateRateSlider zeroRangeDeck).m_pLocalBpm
        * (1 + (slotUpdateRateSlider zeroRangeDeck).m_pRateDir
              * (slotUpdateRateSlider zeroRangeDeck).m_pRateRange
              * (slotUpdateRateSlider zeroRangeDeck).m_pRateSlider) := by
  have h : slotUpdateRateSlider zeroRangeDeck = zeroRangeDeck := by
    unfold slotUpdateRateSlider
    rw [if_pos (Or.inr (by norm_num [zeroRangeDeck, basicRateDeck, constructed]))]
  rw [h]
  refine ⟨rfl, rfl, ?_, ?_⟩ <;> norm_num [zeroRangeDeck, basicRateDeck, constructed]

/-- C15 (amended). After the handler of the rate slider and of the rate
direction (`slotUpdateEngineBpm`) the engine tempo is
`localBpm * (1 + rateDir * rateRange * rateSlider)` for every combination of
values.  After the handler of the rate range (`slotUpdateRateSlider`) the same
identity holds when `localBpm ≠ 0` and `rateDir * rateRange ≠ 0`; when
`localBpm = 0` or `rateDir * rateRange = 0` that handler leaves the state as it
is. -/
theorem engine_bpm_identity_after_rate_change (s : BpmControl) :
    (slotUpdateEngineBpm s).m_pEngineBpm =
      (slotUpdateEngineBpm s).m_pLocalBpm
        * (1 + (slotUpdateEngineBpm s).m_pRateDir * (slotUpdateEngineBpm s).m_pRateRange
              * (slotUpdateEngineBpm s).m_pRateSlider) ∧
    (s.m_pLocalBpm ≠ 0 → s.m_pRateDir * s.m_pRateRange ≠ 0 →
      (slotUpdateRateSlider s).m_pEngineBpm =
        (slotUpdateRateSlider s).m_pLocalBpm
          * (1 + (slotUpdateRateSlider s).m_pRateDir * (slotUpdateRateSlider s).m_pRateRange
                * (slotUpdateRateSlider s).m_pRateSlider)) ∧
    (s.m_pLocalBpm = 0 ∨ s.m_pRateDir * s.m_pRateRange = 0 → slotUpdateRateSlider s = s) := by
  refine ⟨rfl, ?_, ?_⟩
  · intro h1 h2
    unfold slotUpdateRateSlider
    rw [if_neg (by rintro (h | h); exacts [h1 h, h2 h])]
    dsimp only
    field_simp
    ring
  · intro h
    unfold slotUpdateRateSlider
    rw [if_pos h]

/-- C15 (amended), at a deck with local tempo 120, engine tempo 126 and range
0.1: the range handler moves the slider so that the identity holds. -/
theorem engine_bpm_identity_after_rate_change_witness :
    (sliderBehindDeck.m_pLocalBpm ≠ 0 ∧
      sliderBehindDeck.m_pRateDir * sliderBehindDeck.m_pRateRange ≠ 0) ∧
    (slotUpdateRateSlider sliderBehindDeck).m_pEngineBpm =
      (slotUpdateRateSlider sliderBehindDeck).m_pLocalBpm
        * (1 + (slotUpdateRateSlider sliderBehindDeck).m_pRateDir
              * (slotUpdateRateSlider sliderBehindDeck).m_pRateRange
              * (slotUpdateRateSlider sliderBehindDeck).m_pRateSlider) := by
  have h1 : sliderBehindDeck.m_pLocalBpm ≠ 0 := by norm_num [sliderBehindDeck, constructed]
  have h2 : sliderBehindDeck.m_pRateDir * sliderBehindDeck.m_pRateRange ≠ 0 := by
    norm_num [sliderBehindDeck, constructed]
  exact ⟨⟨h1, h2⟩, (engine_bpm_identity_after_rate_change sliderBehindDeck).2.1 h1 h2⟩

/-- C16. `slotUpdateRateSlider`: when `localBpm ≠ 0` and
`rateDir * rateRange ≠ 0` it sets the rate slider to
`(engineBpm / localBpm - 1) / (rateDir * rateRange)` and changes nothing else,
so that `localBpm * (1 + rateDir * rateRange * slider) = engineBpm`; when
`localBpm = 0` or `rateDir * rateRange = 0` it changes no state. -/
theorem slotUpdateRateSlider_spec (s : BpmControl) :
    (s.m_pLocalBpm ≠ 0 → s.m_pRateDir * s.m_pRateRange ≠ 0 →
      slotUpdateRateSlider s =
        { s with m_pRateSlider :=
            (s.m_pEngineBpm / s.m_pLocalBpm - 1) / (s.m_pRateDir * s.m_pRateRange) } ∧
      s.m_pLocalBpm * (1 + s.m_pRateDir * s.m_pRateRange
          * ((s.m_pEngineBpm / s.m_pLocalBpm - 1) / (s.m_pRateDir * s.m_pRateRange)))
        = s.m_pEngineBpm) ∧
    (s.m_pLocalBpm = 0 ∨ s.m_pRateDir * s.m_pRateRange = 0 → slotUpdateRateSlider s = s) := by
  constructor
  · intro h1 h2
    constructor
    · unfold slotUpdateRateSlider
      rw [if_neg (by rintro (h | h); exacts [h1 h, h2 h])]
    · field_simp
      ring
  · intro h
    unfold slotUpdateRateSlider
    rw [if_pos h]

/-- C16, at a deck with local tempo 120, engine tempo 126, direction 1 and
range 0.1: the slider is set to 0.5. -/
theorem slotUpdateRateSlider_spec_witness :
    (sliderBehindDeck.m_pLocalBpm ≠ 0 ∧
      sliderBehindDeck.m_pRateDir * sliderBehindDeck.m_pRateRange ≠ 0) ∧
    (slotUpdateRateSlider sliderBehindDeck).m_pRateSlider = 0.5 ∧
    (slotUpdateRateSlider sliderBehindDeck).m_pEngineBpm = 126 := by
  have h1 : sliderBehindDeck.m_pLocalBpm ≠ 0 := by norm_num [sliderBehindDeck, constructed]
  have h2 : sliderBehindDeck.m_pRateDir * sliderBehindDeck.m_pRateRange ≠ 0 := by
    norm_num [sliderBehindDeck, constructed]
  have key := ((slotUpdateRateSlider_spec sliderBehindDeck).1 h1 h2).1
  refine ⟨⟨h1, h2⟩, ?_, ?_⟩
  · rw [key]
    norm_num [sliderBehindDeck, constructed]
  · rw [key]
    rfl

/-- `syncTempo` written with `syncTempoDesiredRate`. -/
theorem syncTempo_eq (s : BpmControl) (other : EngineBuffer) :
    syncTempo s (some other) =
      if other.getBpm > 0 ∧ s.m_pEngineBpm > 0 then
        if syncTempoDesiredRate s.m_pLocalBpm other.getLocalBpm other.getBpm - 1 < 1 ∧
            syncTempoDesiredRate s.m_pLocalBpm other.getLocalBpm other.getBpm - 1 > -0.5 then
          (true, { s with
            m_pEngineBpm := s.m_pLocalBpm
              * syncTempoDesiredRate s.m_pLocalBpm other.getLocalBpm other.getBpm,
            m_pRateSlider :=
              (syncTempoDesiredRate s.m_pLocalBpm other.getLocalBpm other.getBpm - 1)
                / (s.m_pRateRange * s.m_pRateDir) })
        else (false, s)
      else (false, s) := by
  unfold syncTempo syncTempoDesiredRate
  rfl

/-- The desired rate when the single-precision value of the tempo difference is
known and finite. -/
theorem syncTempoDesiredRate_of_float (a b r f : ℚ) (hf : toFloat |a - b| = f)
    (hfin : |a - b| < floatOverflowBound) :
    syncTempoDesiredRate a b r =
      if |a * 2 - b| < f then r / a / 2
      else if |a - 2 * b| < f then r / a * 2
      else r / a := by
  have hno : ¬ floatOverflowBound ≤ |a - b| := not_le.mpr hfin
  unfold syncTempoDesiredRate
  dsimp only
  rw [hf]
  by_cases h1 : |a * 2 - b| < f
  · rw [if_pos (Or.inr h1), if_pos h1]
  · rw [if_neg (by rintro (h | h); exacts [hno h, h1 h]), if_neg h1]
    by_cases h2 : |a - 2 * b| < f
    · rw [if_pos (Or.inr h2), if_pos h2]
    · rw [if_neg (by rintro (h | h); exacts [hno h, h2 h]), if_neg h2]

/-- The tempo difference of the near-tie pair is 50 + 2^-20, below the overflow
bound, and its single-precision value is 50. -/
theorem nearTie_delta :
    |nearTieDeck.m_pLocalBpm - nearTieTarget.getLocalBpm| = 50 + 1 / 1048576 ∧
    |nearTieDeck.m_pLocalBpm - nearTieTarget.getLocalBpm| < floatOverflowBound ∧
    toFloat |nearTieDeck.m_pLocalBpm - nearTieTarget.getLocalBpm| = 50 := by
  have h : |nearTieDeck.m_pLocalBpm - nearTieTarget.getLocalBpm| = 50 + 1 / 1048576 := by
    have e : nearTieDeck.m_pLocalBpm - nearTieTarget.getLocalBpm = -(50 + 1 / 1048576) := by
      norm_num [nearTieDeck, constructed, nearTieTarget]
    rw [e, abs_neg, abs_of_pos (by norm_num)]
  refine ⟨h, ?_, ?_⟩
  · rw [h]
    norm_num [floatOverflowBound]
  · rw [h]
    exact toFloat_near_fifty

/-- The desired rate of the near-tie pair is the plain quotient of the tempos:
neither the halving nor the doubling test succeeds against the single-precision
difference 50. -/
theorem nearTie_desiredRate (r : ℚ) :
    syncTempoDesiredRate nearTieDeck.m_pLocalBpm nearTieTarget.getLocalBpm r
      = r / nearTieDeck.m_pLocalBpm := by
  rw [syncTempoDesiredRate_of_float _ _ r 50 nearTie_delta.2.2 nearTie_delta.2.1]
  have h1 : ¬ |nearTieDeck.m_pLocalBpm * 2 - nearTieTarget.getLocalBpm| < 50 := by
    have e : nearTieDeck.m_pLocalBpm * 2 - nearTieTarget.getLocalBpm = 50 + 1 / 2097152 := by
      norm_num [nearTieDeck, constructed, nearTieTarget]
    rw [e, abs_of_pos (by norm_num)]
    norm_num
  have h2 : ¬ |nearTieDeck.m_pLocalBpm - 2 * nearTieTarget.getLocalBpm| < 50 := by
    have e : nearTieDeck.m_pLocalBpm - 2 * nearTieTarget.getLocalBpm
        = -(200 + 7 / 2097152) := by
      norm_num [nearTieDeck, constructed, nearTieTarget]
    rw [e, abs_neg, abs_of_pos (by norm_num)]
    norm_num
  rw [if_neg h1, if_neg h2]

/-- C17 (as stated, refuted). This deck has local and engine tempo
a = 100 + 3/2^21, the sync target has local and effective tempo
b = 150 + 5/2^21.  Then |2a - b| = 50 + 2^-21 is below |a - b| = 50 + 2^-20 and
the halved rate b / a / 2 has a shift of about -0.25, between -0.5 and 1; but
the code compares with the `float` value 50 of the difference, does not halve,
and sets the engine tempo to b, not to a * (b / a / 2). -/
theorem syncTempo_near_tie_not_halved :
    (0 < nearTieTarget.getBpm ∧ 0 < nearTieDeck.m_pEngineBpm ∧
      |2 * nearTieDeck.m_pLocalBpm - nearTieTarget.getLocalBpm|
        < |nearTieDeck.m_pLocalBpm - nearTieTarget.getLocalBpm| ∧
      -0.5 < nearTieTarget.getBpm / nearTieDeck.m_pLocalBpm / 2 - 1 ∧
      nearTieTarget.getBpm / nearTieDeck.m_pLocalBpm / 2 - 1 < 1) ∧
    toFloat |nearTieDeck.m_pLocalBpm - nearTieTarget.getLocalBpm| = 50 ∧
    (syncTempo nearTieDeck (some nearTieTarget)).1 = true ∧
    (syncTempo nearTieDeck (some nearTieTarget)).2.m_pEngineBpm = 314572805 / 2097152 ∧
    (syncTempo nearTieDeck (some nearTieTarget)).2.m_pEngineBpm
      ≠ nearTieDeck.m_pLocalBpm
          * (nearTieTarget.getBpm / nearTieDeck.m_pLocalBpm / 2) := by
  have h1 : 0 < nearTieTarget.getBpm := by norm_num [nearTieTarget]
  have h2 : 0 < nearTieDeck.m_pEngineBpm := by norm_num [nearTieDeck, constructed]
  have h3 : |2 * nearTieDeck.m_pLocalBpm - nearTieTarget.getLocalBpm|
      < |nearTieDeck.m_pLocalBpm - nearTieTarget.getLocalBpm| := by
    rw [nearTie_delta.1]
    have e : 2 * nearTieDeck.m_pLocalBpm - nearTieTarget.getLocalBpm = 50 + 1 / 2097152 := by
      norm_num [nearTieDeck, constructed, nearTieTarget]
    rw [e, abs_of_pos (by norm_num)]
    norm_num
  have h4 : -0.5 < nearTieTarget.getBpm / nearTieDeck.m_pLocalBpm / 2 - 1 := by
    norm_num [nearTieDeck, constructed, nearTieTarget]
  have h5 : nearTieTarget.getBpm / nearTieDeck.m_pLocalBpm / 2 - 1 < 1 := by
    norm_num [nearTieDeck, constructed, nearTieTarget]
  have hshift1 : nearTieTarget.getBpm / nearTieDeck.m_pLocalBpm - 1 < 1 := by
    norm_num [nearTieDeck, constructed, nearTieTarget]
  have hshift2 : nearTieTarget.getBpm / nearTieDeck.m_pLocalBpm - 1 > -0.5 := by
    norm_num [nearTieDeck, constructed, nearTieTarget]
  have hres : syncTempo nearTieDeck (some nearTieTarget) =
      (true, { nearTieDeck with
        m_pEngineBpm := nearTieDeck.m_pLocalBpm
          * (nearTieTarget.getBpm / nearTieDeck.m_pLocalBpm),
        m_pRateSlider := (nearTieTarget.getBpm / nearTieDeck.m_pLocalBpm - 1)
          / (nearTieDeck.m_pRateRange * nearTieDeck.m_pRateDir) }) := by
    rw [syncTempo_eq, nearTie_desiredRate, if_pos ⟨h1, h2⟩, if_pos ⟨hshift1, hshift2⟩]
  have hbpm : (syncTempo nearTieDeck (some nearTieTarget)).2.m_pEngineBpm
      = 314572805 / 2097152 := by
    rw [hres]
    norm_num [nearTieDeck, constructed, nearTieTarget]
  refine ⟨⟨h1, h2, h3, h4, h5⟩, nearTie_delta.2.2, by rw [hres], hbpm, ?_⟩
  rw [hbpm]
  norm_num [nearTieDeck, constructed, nearTieTarget]

/-- C17 (amended). `syncTempo` with a sync target whose tempo and this deck's
tempo are positive, when |2 * thisLocalBpm - otherLocalBpm| is below the
single-precision value of |thisLocalBpm - otherLocalBpm| (the `float`
`fFileBpmDelta`, infinite from `floatOverflowBound` on): the desired rate is
`(otherBpm / thisLocalBpm) / 2`; when the shift `desiredRate - 1` lies strictly
between -0.5 and 1 (and `rateRange * rateDir ≠ 0`, the divisor of the slider
value), `syncTempo` returns true, sets the engine tempo to
`localBpm * desiredRate` and the rate slider to
`(desiredRate - 1) / (rateRange * rateDir)`, and changes nothing else; the rate
ratio of the new state is the desired rate. -/
theorem syncTempo_half_bpm (s : BpmControl) (other : EngineBuffer)
    (hother : 0 < other.getBpm) (hthis : 0 < s.m_pEngineBpm)
    (hhalf : floatOverflowBound ≤ |s.m_pLocalBpm - other.getLocalBpm| ∨
      |2 * s.m_pLocalBpm - other.getLocalBpm|
        < toFloat |s.m_pLocalBpm - other.getLocalBpm|)
    (hlo : -0.5 < other.getBpm / s.m_pLocalBpm / 2 - 1)
    (hhi : other.getBpm / s.m_pLocalBpm / 2 - 1 < 1)
    (hscale : s.m_pRateRange * s.m_pRateDir ≠ 0) :
    syncTempo s (some other) =
      (true, { s with
        m_pEngineBpm := s.m_pLocalBpm * (other.getBpm / s.m_pLocalBpm / 2),
        m_pRateSlider := (other.getBpm / s.m_pLocalBpm / 2 - 1)
          / (s.m_pRateRange * s.m_pRateDir) }) ∧
    calcRateRatio (syncTempo s (some other)).2 = other.getBpm / s.m_pLocalBpm / 2 := by
  have hhalf2 : floatOverflowBound ≤ |s.m_pLocalBpm - other.getLocalBpm| ∨
      |s.m_pLocalBpm * 2 - other.getLocalBpm|
        < toFloat |s.m_pLocalBpm - other.getLocalBpm| := by
    rw [mul_comm]; exact hhalf
  have hmain : syncTempo s (some other) =
      (true, { s with
        m_pEngineBpm := s.m_pLocalBpm * (other.getBpm / s.m_pLocalBpm / 2),
        m_pRateSlider := (other.getBpm / s.m_pLocalBpm / 2 - 1)
          / (s.m_pRateRange * s.m_pRateDir) }) := by
    unfold syncTempo
    dsimp only
    rw [if_pos ⟨hother, hthis⟩, if_pos hhalf2, if_pos ⟨hhi, hlo⟩]
  refine ⟨hmain, ?_⟩
  rw [hmain]
  unfold calcRateRatio
  dsimp only
  have e : s.m_pRateDir * s.m_pRateRange = s.m_pRateRange * s.m_pRateDir := mul_comm _ _
  rw [e, mul_div_cancel₀ _ hscale]
  ring

/-- C17 (amended), at the scenario of the claim: this deck at local and engine
tempo 60, the other at 120 (rate range 0.08, direction 1); the difference 60 is
a `float`, the engine tempo becomes 60 and the slider 0. -/
theorem syncTempo_half_bpm_witness :
    (0 < doubleTempoTarget.getBpm ∧ 0 < halfTempoDeck.m_pEngineBpm ∧
      toFloat |halfTempoDeck.m_pLocalBpm - doubleTempoTarget.getLocalBpm| = 60 ∧
      |2 * halfTempoDeck.m_pLocalBpm - doubleTempoTarget.getLocalBpm|
        < toFloat |halfTempoDeck.m_pLocalBpm - doubleTempoTarget.getLocalBpm| ∧
      -0.5 < doubleTempoTarget.getBpm / halfTempoDeck.m_pLocalBpm / 2 - 1 ∧
      doubleTempoTarget.getBpm / halfTempoDeck.m_pLocalBpm / 2 - 1 < 1 ∧
      halfTempoDeck.m_pRateRange * halfTempoDeck.m_pRateDir ≠ 0) ∧
    (syncTempo halfTempoDeck (some doubleTempoTarget)).1 = true ∧
    (syncTempo halfTempoDeck (some doubleTempoTarget)).2.m_pEngineBpm = 60 ∧
    (syncTempo halfTempoDeck (some doubleTempoTarget)).2.m_pRateSlider = 0 := by
  have h1 : 0 < doubleTempoTarget.getBpm := by norm_num [doubleTempoTarget]
  have h2 : 0 < halfTempoDeck.m_pEngineBpm := by norm_num [halfTempoDeck, constructed]
  have hd : |halfTempoDeck.m_pLocalBpm - doubleTempoTarget.getLocalBpm| = 60 := by
    have e : halfTempoDeck.m_pLocalBpm - doubleTempoTarget.getLocalBpm = -60 := by
      norm_num [halfTempoDeck, constructed, doubleTempoTarget]
    rw [e, abs_neg, abs_of_pos (by norm_num)]
  have hf : toFloat |halfTempoDeck.m_pLocalBpm - doubleTempoTarget.getLocalBpm| = 60 := by
    rw [hd]; exact toFloat_sixty
  have h3 : |2 * halfTempoDeck.m_pLocalBpm - doubleTempoTarget.getLocalBpm|
      < toFloat |halfTempoDeck.m_pLocalBpm - doubleTempoTarget.getLocalBpm| := by
    rw [hf]
    norm_num [halfTempoDeck, constructed, doubleTempoTarget]
  have h4 : -0.5 < doubleTempoTarget.getBpm / halfTempoDeck.m_pLocalBpm / 2 - 1 := by
    norm_num [halfTempoDeck, constructed, doubleTempoTarget]
  have h5 : doubleTempoTarget.getBpm / halfTempoDeck.m_pLocalBpm / 2 - 1 < 1 := by
    norm_num [halfTempoDeck, constructed, doubleTempoTarget]
  have h6 : halfTempoDeck.m_pRateRange * halfTempoDeck.m_pRateDir ≠ 0 := by
    norm_num [halfTempoDeck, constructed]
  have key := (syncTempo_half_bpm halfTempoDeck doubleTempoTarget h1 h2 (Or.inr h3) h4 h5
    h6).1
  refine ⟨⟨h1, h2, hf, h3, h4, h5, h6⟩, ?_, ?_, ?_⟩
  · rw [key]
  · rw [key]
    norm_num [halfTempoDeck, constructed, doubleTempoTarget]
  · rw [key]
    norm_num [halfTempoDeck, constructed, doubleTempoTarget]

/-- C18 (as stated, refuted). The basic-rate deck is half way through its beat;
with a user offset of 0.75 `updateBeatDistance` publishes 0.5 - 0.75 = -0.25,
which is below 0. -/
theorem updateBeatDistance_negative :
    userOffsetDeck.m_dUserOffset = 0.75 ∧
    (updateBeatDistance userOffsetDeck).1 = -0.25 ∧
    (updateBeatDistance userOffsetDeck).2.m_pThisBeatDistance = -0.25 ∧
    ¬ (0 ≤ (updateBeatDistance userOffsetDeck).2.m_pThisBeatDistance) := by
  have h : getBeatDistance userOffsetDeck userOffsetDeck.m_dPreviousSample = -0.25 := by
    norm_num [getBeatDistance, userOffsetDeck, basicRateDeck, constructed]
  have h1 : (updateBeatDistance userOffsetDeck).1 = -0.25 := by
    unfold updateBeatDistance
    dsimp only
    split_ifs <;> exact h
  have h2 : (updateBeatDistance userOffsetDeck).2.m_pThisBeatDistance = -0.25 := by
    unfold updateBeatDistance
    dsimp only
    split_ifs <;> exact h
  refine ⟨rfl, h1, h2, ?_⟩
  rw [h2]; norm_num

/-- C18 (amended). The beat distance `updateBeatDistance` publishes (the value
of `getBeatDistance` at `m_dPreviousSample`) is the beat fraction minus the user
offset.  With an absent beat the fraction is 0 and the published value is
`0 - userOffset`; with present beats, `prev ≤ position ≤ next` and `next > prev`
the fraction is `(position - prev) / (next - prev)`, the value
`getBeatContextNoLookup` computes, which lies in [0, 1].  Hence for a user offset
in [-1, 1) the published value lies in (-1, 2], and in [0, 1] when the user
offset is 0. -/
theorem updateBeatDistance_range (s : BpmControl)
    (h : (s.m_pPrevBeat = -1 ∨ s.m_pNextBeat = -1) ∨
      (s.m_pPrevBeat ≠ -1 ∧ s.m_pNextBeat ≠ -1 ∧ s.m_pPrevBeat ≤ s.m_dPreviousSample ∧
        s.m_dPreviousSample ≤ s.m_pNextBeat ∧ s.m_pPrevBeat < s.m_pNextBeat)) :
    (updateBeatDistance s).2.m_pThisBeatDistance = (updateBeatDistance s).1 ∧
    (updateBeatDistance s).1 = getBeatDistance s s.m_dPreviousSample ∧
    ((s.m_pPrevBeat = -1 ∨ s.m_pNextBeat = -1) →
      (updateBeatDistance s).1 = 0 - s.m_dUserOffset) ∧
    ((s.m_pPrevBeat ≠ -1 ∧ s.m_pNextBeat ≠ -1 ∧ s.m_pPrevBeat ≤ s.m_dPreviousSample ∧
        s.m_dPreviousSample ≤ s.m_pNextBeat ∧ s.m_pPrevBeat < s.m_pNextBeat) →
      (updateBeatDistance s).1
        = (s.m_dPreviousSample - s.m_pPrevBeat) / (s.m_pNextBeat - s.m_pPrevBeat)
          - s.m_dUserOffset ∧
      getBeatContextNoLookup s.m_dPreviousSample s.m_pPrevBeat s.m_pNextBeat
        = some (s.m_pNextBeat - s.m_pPrevBeat,
            (s.m_dPreviousSample - s.m_pPrevBeat) / (s.m_pNextBeat - s.m_pPrevBeat)) ∧
      0 ≤ (s.m_dPreviousSample - s.m_pPrevBeat) / (s.m_pNextBeat - s.m_pPrevBeat) ∧
      (s.m_dPreviousSample - s.m_pPrevBeat) / (s.m_pNextBeat - s.m_pPrevBeat) ≤ 1) ∧
    (∃ f : ℚ, 0 ≤ f ∧ f ≤ 1 ∧ (updateBeatDistance s).1 = f - s.m_dUserOffset) ∧
    (-1 ≤ s.m_dUserOffset → s.m_dUserOffset < 1 →
      -1 < (updateBeatDistance s).1 ∧ (updateBeatDistance s).1 ≤ 2) ∧
    (s.m_dUserOffset = 0 → 0 ≤ (updateBeatDistance s).1 ∧ (updateBeatDistance s).1 ≤ 1) := by
  have h1 : (updateBeatDistance s).1 = getBeatDistance s s.m_dPreviousSample := by
    unfold updateBeatDistance
    dsimp only
    split_ifs <;> rfl
  have h2 : (updateBeatDistance s).2.m_pThisBeatDistance = (updateBeatDistance s).1 := by
    unfold updateBeatDistance
    dsimp only
    split_ifs <;> rfl
  have habs : (s.m_pPrevBeat = -1 ∨ s.m_pNextBeat = -1) →
      getBeatDistance s s.m_dPreviousSample = 0 - s.m_dUserOffset := by
    intro ha
    unfold getBeatDistance
    dsimp only
    rw [if_pos ha]
  have hpres : (s.m_pPrevBeat ≠ -1 ∧ s.m_pNextBeat ≠ -1 ∧
      s.m_pPrevBeat ≤ s.m_dPreviousSample ∧
      s.m_dPreviousSample ≤ s.m_pNextBeat ∧ s.m_pPrevBeat < s.m_pNextBeat) →
      getBeatDistance s s.m_dPreviousSample
        = (s.m_dPreviousSample - s.m_pPrevBeat) / (s.m_pNextBeat - s.m_pPrevBeat)
          - s.m_dUserOffset ∧
      0 ≤ (s.m_dPreviousSample - s.m_pPrevBeat) / (s.m_pNextBeat - s.m_pPrevBeat) ∧
      (s.m_dPreviousSample - s.m_pPrevBeat) / (s.m_pNextBeat - s.m_pPrevBeat) ≤ 1 := by
    rintro ⟨hp, hn, ha, hb, hc⟩
    have hlen : 0 < s.m_pNextBeat - s.m_pPrevBeat := by linarith
    have hf0 : 0 ≤ (s.m_dPreviousSample - s.m_pPrevBeat) / (s.m_pNextBeat - s.m_pPrevBeat) :=
      div_nonneg (by linarith) hlen.le
    have hf1 : (s.m_dPreviousSample - s.m_pPrevBeat) / (s.m_pNextBeat - s.m_pPrevBeat) ≤ 1 :=
      (div_le_one hlen).mpr (by linarith)
    refine ⟨?_, hf0, hf1⟩
    unfold getBeatDistance
    dsimp only
    rw [if_neg (by rintro (h | h); exacts [hp h, hn h]), if_neg (ne_of_gt hlen),
      if_neg (not_lt.mpr hf0), if_neg (not_lt.mpr hf1)]
  have hf : ∃ f : ℚ, 0 ≤ f ∧ f ≤ 1 ∧
      getBeatDistance s s.m_dPreviousSample = f - s.m_dUserOffset := by
    rcases h with ha | hp
    · exact ⟨0, le_refl _, zero_le_one, habs ha⟩
    · obtain ⟨e, hf0, hf1⟩ := hpres hp
      exact ⟨_, hf0, hf1, e⟩
  rw [h1]
  obtain ⟨f, hf0, hf1, hfe⟩ := hf
  refine ⟨h2.trans h1, rfl, habs, ?_, ⟨f, hf0, hf1, hfe⟩, ?_, ?_⟩
  · intro hp
    obtain ⟨e, hg0, hg1⟩ := hpres hp
    exact ⟨e, getBeatContextNoLookup_inside _ _ _ hp.1 hp.2.1 hp.2.2.1 hp.2.2.2.1 hp.2.2.2.2,
      hg0, hg1⟩
  · intro ho1 ho2
    rw [hfe]
    constructor <;> linarith
  · intro ho
    rw [hfe, ho]
    constructor <;> linarith

/-- C18 (amended), at the deck with user offset 0.75 half way through its beat:
the fraction is 0.5 and the published value 0.5 - 0.75. -/
theorem updateBeatDistance_range_witness :
    (userOffsetDeck.m_pPrevBeat ≠ -1 ∧ userOffsetDeck.m_pNextBeat ≠ -1 ∧
      userOffsetDeck.m_pPrevBeat ≤ userOffsetDeck.m_dPreviousSample ∧
      userOffsetDeck.m_dPreviousSample ≤ userOffsetDeck.m_pNextBeat ∧
      userOffsetDeck.m_pPrevBeat < userOffsetDeck.m_pNextBeat) ∧
    (-1 ≤ userOffsetDeck.m_dUserOffset ∧ userOffsetDeck.m_dUserOffset < 1) ∧
    (userOffsetDeck.m_dPreviousSample - userOffsetDeck.m_pPrevBeat)
      / (userOffsetDeck.m_pNextBeat - userOffsetDeck.m_pPrevBeat) = 0.5 ∧
    (updateBeatDistance userOffsetDeck).1
      = (userOffsetDeck.m_dPreviousSample - userOffsetDeck.m_pPrevBeat)
          / (userOffsetDeck.m_pNextBeat - userOffsetDeck.m_pPrevBeat)
        - userOffsetDeck.m_dUserOffset ∧
    -1 < (updateBeatDistance userOffsetDeck).1 ∧ (updateBeatDistance userOffsetDeck).1 ≤ 2 := by
  have h : userOffsetDeck.m_pPrevBeat ≠ -1 ∧ userOffsetDeck.m_pNextBeat ≠ -1 ∧
      userOffsetDeck.m_pPrevBeat ≤ userOffsetDeck.m_dPreviousSample ∧
      userOffsetDeck.m_dPreviousSample ≤ userOffsetDeck.m_pNextBeat ∧
      userOffsetDeck.m_pPrevBeat < userOffsetDeck.m_pNextBeat := by
    refine ⟨?_, ?_, ?_, ?_, ?_⟩ <;> norm_num [userOffsetDeck, basicRateDeck, constructed]
  have ho1 : -1 ≤ userOffsetDeck.m_dUserOffset := by
    norm_num [userOffsetDeck, basicRateDeck, constructed]
  have ho2 : userOffsetDeck.m_dUserOffset < 1 := by
    norm_num [userOffsetDeck, basicRateDeck, constructed]
  have hfr : (userOffsetDeck.m_dPreviousSample - userOffsetDeck.m_pPrevBeat)
      / (userOffsetDeck.m_pNextBeat - userOffsetDeck.m_pPrevBeat) = 0.5 := by
    norm_num [userOffsetDeck, basicRateDeck, constructed]
  have key := updateBeatDistance_range userOffsetDeck (Or.inr h)
  exact ⟨h, ⟨ho1, ho2⟩, hfr, (key.2.2.2.1 h).1, key.2.2.2.2.2.1 ho1 ho2⟩

/-- C19. After `resetSyncAdjustment` the published beat distance is its old
value plus the old user offset, the user offset is 0 and the reset flag is set
(nothing else changes); the next call of `calcSyncAdjustment` clears the flag
and computes exactly what it computes from the same state with the flag clear
and `m_dLastSyncAdjustment` = 1. -/
theorem resetSyncAdjustment_spec (s : BpmControl) :
    resetSyncAdjustment s =
      { s with m_pThisBeatDistance := s.m_pThisBeatDistance + s.m_dUserOffset,
               m_dUserOffset := 0, m_resetSyncAdjustment := true } ∧
    (resetSyncAdjustment s).m_pThisBeatDistance = s.m_pThisBeatDistance + s.m_dUserOffset ∧
    (resetSyncAdjustment s).m_dUserOffset = 0 ∧
    (resetSyncAdjustment s).m_resetSyncAdjustment = true ∧
    ∀ (my_percentage : ℚ) (userTweakingSync : Bool),
      (calcSyncAdjustment (resetSyncAdjustment s) my_percentage
          userTweakingSync).2.m_resetSyncAdjustment = false ∧
      calcSyncAdjustment (resetSyncAdjustment s) my_percentage userTweakingSync =
        calcSyncAdjustment
          { resetSyncAdjustment s with m_resetSyncAdjustment := false,
                                       m_dLastSyncAdjustment := 1 }
          my_percentage userTweakingSync := by
  refine ⟨rfl, rfl, rfl, rfl, ?_⟩
  intro f tw
  constructor
  · unfold calcSyncAdjustment resetSyncAdjustment
    cases tw <;> rfl
  · unfold calcSyncAdjustment resetSyncAdjustment
    cases tw <;> rfl

/-- C20 (code evaluated at the failing input). With quantize on, a grid, both
cached beats present at sample 22050 and local tempo 120, `calcSyncedRate`
passes its guards and performs two divisions, by 120 and, for `loop_size`, by
the beat length 0. -/
theorem calcSyncedRate_divides_by_zero :
    zeroBeatLengthDeck.m_pPrevBeat = 22050 ∧ zeroBeatLengthDeck.m_pNextBeat = 22050 ∧
    calcSyncedRateDivisors zeroBeatLengthDeck = [120, 0] ∧
    (0 : ℚ) ∈ calcSyncedRateDivisors zeroBeatLengthDeck := by
  have h : calcSyncedRateDivisors zeroBeatLengthDeck = [120, 0] := by
    simp [calcSyncedRateDivisors, zeroBeatLengthDeck, basicRateDeck, constructed]
    norm_num
  refine ⟨rfl, rfl, h, ?_⟩
  rw [h]
  simp

/-- C21 (as stated, refuted). On a grid with the capability bit (16) and a tempo
of 5, `slotAdjustBeatsFaster` passes 5.01 to `setBpm`; `clamp(5 + 0.01, 10, 200)`
is 10, and 5.01 is not in [10, 200]. -/
theorem slotAdjustBeatsFaster_below_ten :
    slowGrid.getBpm = 5 ∧
    slotAdjustBeatsFaster tunableDeck 16 1 = some 5.01 ∧
    math_clamp (5 + 0.01) 10 200 = 10 ∧
    slotAdjustBeatsFaster tunableDeck 16 1 ≠ some (math_clamp (5 + 0.01) 10 200) ∧
    ¬ ((10 : ℚ) ≤ 5.01) := by
  have hcap : (18 &&& 16 : ℕ) ≠ 0 := by decide
  have h1 : slotAdjustBeatsFaster tunableDeck 16 1 = some 5.01 := by
    have hb : tunableDeck.m_pBeats = some slowGrid := rfl
    unfold slotAdjustBeatsFaster
    rw [hb]
    dsimp only
    rw [if_pos ⟨by norm_num, hcap⟩]
    norm_num [math_min, slowGrid, uniformBeats]
  have h2 : math_clamp (5 + 0.01) 10 200 = 10 := by
    norm_num [math_clamp]
  refine ⟨rfl, h1, h2, ?_, by norm_num⟩
  rw [h1, h2]
  norm_num

/-- C21 (amended). For a grid that supports SET_BPM with tempo g and v > 0,
`slotAdjustBeatsFaster` sets `min(200, g + 0.01)`, which is
`clamp(g + 0.01, 10, 200)` when g ≥ 9.99, and `slotAdjustBeatsSlower` sets
`max(10, g - 0.01)`, which is `clamp(g - 0.01, 10, 200)` when g ≤ 200.01; for g
in [10, 200] both values lie in [10, 200].  When v ≤ 0, no grid is loaded or the
grid lacks SET_BPM, neither handler touches the grid. -/
theorem slotAdjustBeats_spec (s : BpmControl) (BEATSCAP_SETBPM : ℕ) (v : ℚ) :
    (∀ beats : Beats, s.m_pBeats = some beats → 0 < v →
        (beats.getCapabilities &&& BEATSCAP_SETBPM) ≠ 0 →
      slotAdjustBeatsFaster s BEATSCAP_SETBPM v = some (min 200 (beats.getBpm + 0.01)) ∧
      slotAdjustBeatsSlower s BEATSCAP_SETBPM v = some (max 10 (beats.getBpm - 0.01)) ∧
      (9.99 ≤ beats.getBpm → slotAdjustBeatsFaster s BEATSCAP_SETBPM v
          = some (math_clamp (beats.getBpm + 0.01) 10 200)) ∧
      (beats.getBpm ≤ 200.01 → slotAdjustBeatsSlower s BEATSCAP_SETBPM v
          = some (math_clamp (beats.getBpm - 0.01) 10 200)) ∧
      (10 ≤ beats.getBpm → beats.getBpm ≤ 200 →
        10 ≤ min 200 (beats.getBpm + 0.01) ∧ min 200 (beats.getBpm + 0.01) ≤ 200 ∧
        10 ≤ max 10 (beats.getBpm - 0.01) ∧ max 10 (beats.getBpm - 0.01) ≤ 200)) ∧
    ((v ≤ 0 ∨ s.m_pBeats = none ∨
        ∃ beats : Beats, s.m_pBeats = some beats ∧
          (beats.getCapabilities &&& BEATSCAP_SETBPM) = 0) →
      slotAdjustBeatsFaster s BEATSCAP_SETBPM v = none ∧
      slotAdjustBeatsSlower s BEATSCAP_SETBPM v = none) := by
  constructor
  · intro beats hb hv hcap
    have hf : slotAdjustBeatsFaster s BEATSCAP_SETBPM v
        = some (min 200 (beats.getBpm + 0.01)) := by
      unfold slotAdjustBeatsFaster
      rw [hb]
      dsimp only
      rw [if_pos ⟨hv, hcap⟩]
      rfl
    have hs : slotAdjustBeatsSlower s BEATSCAP_SETBPM v
        = some (max 10 (beats.getBpm - 0.01)) := by
      unfold slotAdjustBeatsSlower
      rw [hb]
      dsimp only
      rw [if_pos ⟨hv, hcap⟩]
      rfl
    refine ⟨hf, hs, ?_, ?_, ?_⟩
    · intro hg
      rw [hf]
      unfold math_clamp
      have h10 : (10 : ℚ) ≤ min 200 (beats.getBpm + 0.01) := by
        apply le_min
        · norm_num
        · norm_num at hg ⊢
          linarith
      rw [max_eq_right h10]
    · intro hg
      rw [hs]
      unfold math_clamp
      have h200 : beats.getBpm - 0.01 ≤ 200 := by
        norm_num at hg ⊢
        linarith
      rw [min_eq_right h200]
    · intro h10 h200
      refine ⟨?_, min_le_left _ _, le_max_left _ _, ?_⟩
      · apply le_min
        · norm_num
        · norm_num
          linarith
      · apply max_le
        · norm_num
        · norm_num
          linarith
  · intro h
    unfold slotAdjustBeatsFaster slotAdjustBeatsSlower
    cases hb : s.m_pBeats with
    | none => exact ⟨rfl, rfl⟩
    | some g =>
      dsimp only
      have hno : ¬ (v > 0 ∧ (g.getCapabilities &&& BEATSCAP_SETBPM) ≠ 0) := by
        rintro ⟨hv, hcap⟩
        rcases h with h | h | ⟨g2, hg2, hc2⟩
        · exact absurd hv (not_lt.mpr h)
        · rw [hb] at h; exact absurd h (Option.some_ne_none g)
        · rw [hb] at hg2
          have e : g = g2 := Option.some.inj hg2
          rw [e] at hcap
          exact hcap hc2
      rw [if_neg hno, if_neg hno]
      exact ⟨rfl, rfl⟩

/-- C21 (amended), at the grid with tempo 5: `slotAdjustBeatsSlower` sets 10,
the value of `clamp(5 - 0.01, 10, 200)`. -/
theorem slotAdjustBeats_spec_witness :
    (tunableDeck.m_pBeats = some slowGrid ∧ (0 : ℚ) < 1 ∧
      (slowGrid.getCapabilities &&& 16) ≠ 0 ∧ slowGrid.getBpm ≤ 200.01) ∧
    slotAdjustBeatsSlower tunableDeck 16 1 = some (math_clamp (slowGrid.getBpm - 0.01) 10 200) ∧
    math_clamp (slowGrid.getBpm - 0.01) 10 200 = 10 := by
  have hcap : (slowGrid.getCapabilities &&& 16) ≠ 0 := by
    show (18 &&& 16 : ℕ) ≠ 0
    decide
  have hg : slowGrid.getBpm ≤ 200.01 := by
    norm_num [slowGrid, uniformBeats]
  have key := ((slotAdjustBeats_spec tunableDeck 16 1).1 slowGrid rfl (by norm_num)
    hcap).2.2.2.1 hg
  refine ⟨⟨rfl, by norm_num, hcap, hg⟩, key, ?_⟩
  norm_num [math_clamp, slowGrid, uniformBeats]

/-- C22. `slotTapFilter` leaves the state (and with it the file tempo) as it is
when there are fewer than 4 samples or the average interval is not positive.
Otherwise, the rate ratio `1 + rateDir * rateRange * rateSlider` being the
non-zero divisor, it sets the file tempo to `(60000 / averageLength) / rateRatio`,
so that file tempo times rate ratio is the tapped tempo; an average interval of
500 ms gives `120 / rateRatio`. -/
theorem slotTapFilter_spec (s : BpmControl) (averageLength : ℚ) (numSamples : ℤ) :
    ((numSamples < 4 ∨ averageLength ≤ 0) → slotTapFilter s averageLength numSamples = s) ∧
    (0 < averageLength → 4 ≤ numSamples → calcRateRatio s ≠ 0 →
      (slotTapFilter s averageLength numSamples).m_pFileBpm
        = (60000 / averageLength)
            / (1 + s.m_pRateDir * s.m_pRateRange * s.m_pRateSlider) ∧
      (slotTapFilter s averageLength numSamples).m_pFileBpm * calcRateRatio s
        = 60000 / averageLength ∧
      (averageLength = 500 →
        (slotTapFilter s averageLength numSamples).m_pFileBpm = 120 / calcRateRatio s)) := by
  constructor
  · intro h
    unfold slotTapFilter
    by_cases ha : averageLength ≤ 0
    · rw [if_pos ha]
    · rw [if_neg ha]
      rcases h with h | h
      · rw [if_pos h]
      · exact absurd h ha
  · intro ha hn hr
    have hval : (slotTapFilter s averageLength numSamples).m_pFileBpm
        = 60 * 1000 / averageLength / calcRateRatio s := by
      unfold slotTapFilter
      rw [if_neg (not_le.mpr ha), if_neg (not_lt.mpr hn)]
      rfl
    have e60 : (60 : ℚ) * 1000 = 60000 := by norm_num
    rw [e60] at hval
    refine ⟨hval, ?_, ?_⟩
    · rw [hval, div_mul_cancel₀ _ hr]
    · intro h500
      rw [hval, h500]
      norm_num

/-- C22, at a deck playing 8 percent faster: taps 500 ms apart over 4 samples
set the file tempo to 120 / 1.08. -/
theorem slotTapFilter_spec_witness :
    ((0 : ℚ) < 500 ∧ (4 : ℤ) ≤ 4 ∧ calcRateRatio fasterDeck ≠ 0) ∧
    calcRateRatio fasterDeck = 1.08 ∧
    (slotTapFilter fasterDeck 500 4).m_pFileBpm = 120 / 1.08 := by
  have hr : calcRateRatio fasterDeck = 1.08 := by
    norm_num [calcRateRatio, fasterDeck, constructed]
  have hne : calcRateRatio fasterDeck ≠ 0 := by
    rw [hr]; norm_num
  have key := ((slotTapFilter_spec fasterDeck 500 4).2 (by norm_num) (le_refl _) hne).2.2 rfl
  refine ⟨⟨by norm_num, le_refl _, hne⟩, hr, ?_⟩
  rw [key, hr]

/-- The C++ test `delta % 2 != 0` holds exactly for the odd integers. -/
theorem tmod_two_ne_zero_iff (d : ℤ) : d.tmod 2 ≠ 0 ↔ ¬ Even d := by
  rw [even_iff_two_dvd, Int.dvd_iff_tmod_eq_zero]

/-- C23 (as stated, refuted). The play position is 4294967294.5 samples past the
closest beat.  The integral part 4294967294 of that difference is even, so the
claim makes it the delta; it does not fit the 32-bit `int` the source converts
to, the conversion yields `INT_MIN`, and the delta passed to `translate` is
-2147483648, which leaves the beat far more than 2 samples from the play
position. -/
theorem slotBeatsTranslate_out_of_int_range :
    farFromBeatDeck.currentSample
      - oneBeatGrid.findClosestBeat farFromBeatDeck.currentSample = 4294967294.5 ∧
    truncate (farFromBeatDeck.currentSample
      - oneBeatGrid.findClosestBeat farFromBeatDeck.currentSample) = 4294967294 ∧
    Even (4294967294 : ℤ) ∧
    slotBeatsTranslate farFromBeatDeck 2 1 = some (-2147483648) ∧
    slotBeatsTranslate farFromBeatDeck 2 1 ≠ some 4294967294 ∧
    ¬ |farFromBeatDeck.currentSample
        - (oneBeatGrid.findClosestBeat farFromBeatDeck.currentSample
            + ((-2147483648 : ℤ) : ℚ))| < 2 := by
  have hx : farFromBeatDeck.currentSample
      - oneBeatGrid.findClosestBeat farFromBeatDeck.currentSample = 4294967294.5 := by
    norm_num [farFromBeatDeck, constructed, oneBeatGrid]
  have ht : truncate (4294967294.5 : ℚ) = 4294967294 :=
    truncate_eq_of_nonneg _ _ (by norm_num) (by norm_num) (by norm_num)
  have hconv : truncToInt (4294967294.5 : ℚ) = INT_MIN := by
    apply truncToInt_of_large
    rw [ht]
    unfold INT_MAX
    norm_num
  have heven : Even INT_MIN := ⟨-1073741824, by unfold INT_MIN; norm_num⟩
  have hcap : (oneBeatGrid.getCapabilities &&& 2) ≠ 0 := by
    show (2 &&& 2 : ℕ) ≠ 0
    decide
  have hres : slotBeatsTranslate farFromBeatDeck 2 1 = some (-2147483648) := by
    have hb : farFromBeatDeck.m_pBeats = some oneBeatGrid := rfl
    unfold slotBeatsTranslate
    rw [hb]
    dsimp only
    rw [if_pos ⟨by norm_num, hcap⟩, hx, hconv,
      if_neg (by rw [tmod_two_ne_zero_iff]; exact not_not.mpr heven)]
    rfl
  refine ⟨hx, by rw [hx]; exact ht, ⟨2147483647, by norm_num⟩, hres, ?_, ?_⟩
  · rw [hres]
    intro h
    have h2 := Option.some.inj h
    norm_num at h2
  · have hc : farFromBeatDeck.currentSample = 4294967294.5 := rfl
    have h0 : oneBeatGrid.findClosestBeat farFromBeatDeck.currentSample = 0 := rfl
    rw [h0, hc, abs_of_pos (by norm_num)]
    norm_num

/-- C23 (amended). When `slotBeatsTranslate` acts (v > 0, a grid with the
TRANSLATE capability) and the difference currentSample - closestBeat fits the
32-bit `int` (it lies strictly between -2^31 - 1 and 2^31), the delta it passes
to `translate` is an even integer: with t the integral part of the difference
it is t when t is even and t - 1 when t is odd, also for negative t; the closest
beat moved by that delta is less than 2 samples away from the current sample. -/
theorem slotBeatsTranslate_even (s : BpmControl) (beats : Beats) (BEATSCAP_TRANSLATE : ℕ)
    (v : ℚ) (hgrid : s.m_pBeats = some beats) (hv : 0 < v)
    (hcap : (beats.getCapabilities &&& BEATSCAP_TRANSLATE) ≠ 0)
    (hfit1 : -2147483649 < s.currentSample - beats.findClosestBeat s.currentSample)
    (hfit2 : s.currentSample - beats.findClosestBeat s.currentSample < 2147483648) :
    ∃ delta : ℤ, slotBeatsTranslate s BEATSCAP_TRANSLATE v = some delta ∧
      Even delta ∧
      delta = (if Even (truncate (s.currentSample - beats.findClosestBeat s.currentSample))
        then truncate (s.currentSample - beats.findClosestBeat s.currentSample)
        else truncate (s.currentSample - beats.findClosestBeat s.currentSample) - 1) ∧
      |s.currentSample - (beats.findClosestBeat s.currentSample + delta)| < 2 := by
  have hb := truncate_bounds (s.currentSample - beats.findClosestBeat s.currentSample)
  have hconv := truncToInt_of_fits
    (s.currentSample - beats.findClosestBeat s.currentSample) hfit1 hfit2
  by_cases hev : Even (truncate (s.currentSample - beats.findClosestBeat s.currentSample))
  · refine ⟨truncate (s.currentSample - beats.findClosestBeat s.currentSample), ?_, hev,
      by rw [if_pos hev], ?_⟩
    · unfold slotBeatsTranslate
      rw [hgrid]
      dsimp only
      rw [if_pos ⟨hv, hcap⟩, hconv,
        if_neg (by rw [tmod_two_ne_zero_iff]; exact not_not.mpr hev)]
    · rw [abs_lt]
      rcases le_or_lt 0 (s.currentSample - beats.findClosestBeat s.currentSample) with h | h
      · obtain ⟨h1, h2⟩ := hb.1 h
        constructor <;> linarith
      · obtain ⟨h1, h2⟩ := hb.2 h
        constructor <;> linarith
  · refine ⟨truncate (s.currentSample - beats.findClosestBeat s.currentSample) - 1, ?_,
      Int.even_sub_one.mpr hev, by rw [if_neg hev], ?_⟩
    · unfold slotBeatsTranslate
      rw [hgrid]
      dsimp only
      rw [if_pos ⟨hv, hcap⟩, hconv, if_pos (by rw [tmod_two_ne_zero_iff]; exact hev)]
    · rw [abs_lt]
      push_cast
      rcases le_or_lt 0 (s.currentSample - beats.findClosestBeat s.currentSample) with h | h
      · obtain ⟨h1, h2⟩ := hb.1 h
        constructor <;> linarith
      · obtain ⟨h1, h2⟩ := hb.2 h
        constructor <;> linarith

/-- C23 (amended), at the play position 22046.5 with the closest beat at 22050:
the difference -3.5 has the integral part -3, which is odd, and the delta is
-4. -/
theorem slotBeatsTranslate_even_witness :
    (tunableDeck.m_pBeats = some slowGrid ∧ (0 : ℚ) < 1 ∧
      (slowGrid.getCapabilities &&& 2) ≠ 0 ∧
      -2147483649 < tunableDeck.currentSample
        - slowGrid.findClosestBeat tunableDeck.currentSample ∧
      tunableDeck.currentSample
        - slowGrid.findClosestBeat tunableDeck.currentSample < 2147483648) ∧
    truncate (tunableDeck.currentSample
      - slowGrid.findClosestBeat tunableDeck.currentSample) = -3 ∧
    slotBeatsTranslate tunableDeck 2 1 = some (-4) := by
  have hcap : (slowGrid.getCapabilities &&& 2) ≠ 0 := by
    show (18 &&& 2 : ℕ) ≠ 0
    decide
  have hclosest : slowGrid.findClosestBeat tunableDeck.currentSample = 22050 := by
    have hr : round ((22046.5 : ℚ) / 22050) = 1 := by
      rw [round_eq, Int.floor_eq_iff]
      constructor <;> norm_num
    show (round ((22046.5 : ℚ) / 22050) : ℚ) * 22050 = 22050
    rw [hr]
    norm_num
  have hc : tunableDeck.currentSample = 22046.5 := rfl
  have hf1 : -2147483649 < tunableDeck.currentSample
      - slowGrid.findClosestBeat tunableDeck.currentSample := by
    rw [hclosest, hc]; norm_num
  have hf2 : tunableDeck.currentSample
      - slowGrid.findClosestBeat tunableDeck.currentSample < 2147483648 := by
    rw [hclosest, hc]; norm_num
  have ht : truncate (tunableDeck.currentSample
      - slowGrid.findClosestBeat tunableDeck.currentSample) = -3 := by
    rw [hclosest, hc]
    unfold truncate
    rw [if_neg (by norm_num), Int.ceil_eq_iff]
    constructor <;> norm_num
  obtain ⟨d, hd, -, hval, -⟩ := slotBeatsTranslate_even tunableDeck slowGrid 2 1 rfl
    (by norm_num) hcap hf1 hf2
  refine ⟨⟨rfl, by norm_num, hcap, hf1, hf2⟩, ht, ?_⟩
  rw [hd, hval, ht]
  have hodd : ¬ Even (-3 : ℤ) := by decide
  rw [if_neg hodd]
  rfl

/-- C25 (as stated, refuted). A follower stands at sample 1 in a loop over
samples 0 to 1; its beat is 2^33 samples long and the naive new position is
2^31 + 1.5.  The quotient of the overshoot 2^31 + 0.5 by the loop length 1 does
not fit the 32-bit `int i`, the conversion yields `INT_MIN`, and the position
handed to the recursive call is 2^32 + 0.5 (the formula of the claim gives
0.5), which is not in the loop. -/
theorem loopWrappedPlaypos_out_of_int_range :
    (longBeatDeck.m_pLoopEnabled = true ∧
      longBeatDeck.m_pLoopStartPosition = 0 ∧ longBeatDeck.m_pLoopEndPosition = 1 ∧
      phaseAlignedPlaypos longBeatDeck none 1 false = some 2147483649.5) ∧
    (0 : ℚ) + (2147483649.5 - 1)
      - truncate ((2147483649.5 - 1) / (1 - 0) : ℚ) * (1 - 0) = 0.5 ∧
    loopWrappedPlaypos 0 1 2147483649.5 = 4294967296.5 ∧
    ¬ (loopWrappedPlaypos 0 1 2147483649.5 < 1) ∧
    getNearestPositionInPhase longBeatDeck none 1 true false
      = getNearestPositionInPhase longBeatDeck none 4294967296.5 false false := by
  have hn : phaseAlignedPlaypos longBeatDeck none 1 false = some 2147483649.5 := by
    simp [phaseAlignedPlaypos, longBeatDeck, constructed, getBeatContextNoLookup]
    norm_num
  have hq : ((2147483649.5 : ℚ) - 1) / (1 - 0) = 2147483648.5 := by norm_num
  have ht : truncate (2147483648.5 : ℚ) = 2147483648 :=
    truncate_eq_of_nonneg _ _ (by norm_num) (by norm_num) (by norm_num)
  have hconv : truncToInt (2147483648.5 : ℚ) = INT_MIN := by
    apply truncToInt_of_large
    rw [ht]
    unfold INT_MAX
    norm_num
  have hwrap : loopWrappedPlaypos 0 1 2147483649.5 = 4294967296.5 := by
    unfold loopWrappedPlaypos
    dsimp only
    rw [hq, hconv]
    unfold INT_MIN
    norm_num
  have hs : longBeatDeck.m_pLoopStartPosition = 0 := rfl
  have he : longBeatDeck.m_pLoopEndPosition = 1 := rfl
  have hen : longBeatDeck.m_pLoopEnabled = true := rfl
  refine ⟨⟨hen, hs, he, hn⟩, ?_, hwrap, ?_, ?_⟩
  · rw [hq, ht]
    norm_num
  · rw [hwrap]
    norm_num
  · rw [getNearestPositionInPhase_loops _ _ _ _ _ hn, hs, he, hen,
      if_pos ⟨rfl, le_refl _⟩, if_pos (by norm_num), hq, hconv]
    congr 1
    unfold INT_MIN
    norm_num

/-- C25 (amended). With an enabled loop of positive length, `position ≤ loopEnd`,
a naive new position (the position aligned without loops) past the loop end and
a quotient `(newPos - loopEnd) / loopLength` that fits the 32-bit `int` (it is
below 2^31), the wrapped position
`loopStart + (newPos - loopEnd) - trunc((newPos - loopEnd) / loopLength) * loopLength`
lies in the loop, the end excluded, and `getNearestPositionInPhase` with
`respectLoops = true` returns what its one recursive call, made at that position
with `respectLoops = false`, returns. -/
theorem loopWrappedPlaypos_spec (s : BpmControl) (syncTarget : Option EngineBuffer)
    (position : ℚ) (playing : Bool)
    (hen : s.m_pLoopEnabled = true)
    (hlen : s.m_pLoopStartPosition < s.m_pLoopEndPosition)
    (hpos : position ≤ s.m_pLoopEndPosition)
    (hnaive : s.m_pLoopEndPosition
      < getNearestPositionInPhase s syncTarget position false playing)
    (hfits : (getNearestPositionInPhase s syncTarget position false playing
        - s.m_pLoopEndPosition) / (s.m_pLoopEndPosition - s.m_pLoopStartPosition)
      < 2147483648) :
    loopWrappedPlaypos s.m_pLoopStartPosition s.m_pLoopEndPosition
        (getNearestPositionInPhase s syncTarget position false playing)
      = s.m_pLoopStartPosition
        + (getNearestPositionInPhase s syncTarget position false playing
            - s.m_pLoopEndPosition)
        - truncate ((getNearestPositionInPhase s syncTarget position false playing
              - s.m_pLoopEndPosition) / (s.m_pLoopEndPosition - s.m_pLoopStartPosition))
          * (s.m_pLoopEndPosition - s.m_pLoopStartPosition) ∧
    s.m_pLoopStartPosition
      ≤ loopWrappedPlaypos s.m_pLoopStartPosition s.m_pLoopEndPosition
          (getNearestPositionInPhase s syncTarget position false playing) ∧
    loopWrappedPlaypos s.m_pLoopStartPosition s.m_pLoopEndPosition
        (getNearestPositionInPhase s syncTarget position false playing)
      < s.m_pLoopEndPosition ∧
    getNearestPositionInPhase s syncTarget position true playing
      = getNearestPositionInPhase s syncTarget
          (loopWrappedPlaypos s.m_pLoopStartPosition s.m_pLoopEndPosition
            (getNearestPositionInPhase s syncTarget position false playing))
          false playing := by
  cases hn : phaseAlignedPlaypos s syncTarget position playing with
  | none =>
    rw [getNearestPositionInPhase_of_none _ _ _ _ _ hn] at hnaive
    exact absurd hnaive (not_lt.mpr hpos)
  | some n =>
    have hfalse : getNearestPositionInPhase s syncTarget position false playing = n := by
      rw [getNearestPositionInPhase_no_loops, hn, Option.getD_some]
    rw [hfalse] at hnaive hfits ⊢
    have hd : 0 < n - s.m_pLoopEndPosition := by linarith
    have hl : 0 < s.m_pLoopEndPosition - s.m_pLoopStartPosition := by linarith
    have hq : 0 < (n - s.m_pLoopEndPosition)
        / (s.m_pLoopEndPosition - s.m_pLoopStartPosition) := div_pos hd hl
    have hconv := truncToInt_of_fits _ (by linarith) hfits
    have hw : loopWrappedPlaypos s.m_pLoopStartPosition s.m_pLoopEndPosition n
        = s.m_pLoopStartPosition + (n - s.m_pLoopEndPosition)
          - truncate ((n - s.m_pLoopEndPosition)
              / (s.m_pLoopEndPosition - s.m_pLoopStartPosition))
            * (s.m_pLoopEndPosition - s.m_pLoopStartPosition) := by
      unfold loopWrappedPlaypos
      dsimp only
      rw [hconv]
    obtain ⟨w1, w2⟩ := wrapped_in_loop s.m_pLoopStartPosition
      (s.m_pLoopEndPosition - s.m_pLoopStartPosition) (n - s.m_pLoopEndPosition) hd hl
    refine ⟨hw, by rw [hw]; exact w1, by rw [hw]; linarith, ?_⟩
    rw [getNearestPositionInPhase_loops _ _ _ _ _ hn, if_pos ⟨hen, hpos⟩, if_pos ⟨hd, hl⟩]
    rfl

/-- C25 (amended), at the scenario of the claim: a follower looping over 0 to
44100 and standing at 44100, whose naive new position is 50000; the wrapped
position is 5900, and the call with `respectLoops = true` returns 5900, the
alignment of 5900. -/
theorem loopWrappedPlaypos_spec_witness :
    (loopWrapDeck.m_pLoopEnabled = true ∧
      loopWrapDeck.m_pLoopStartPosition = 0 ∧ loopWrapDeck.m_pLoopEndPosition = 44100 ∧
      (44100 : ℚ) ≤ loopWrapDeck.m_pLoopEndPosition ∧
      getNearestPositionInPhase loopWrapDeck none 44100 false false = 50000 ∧
      (getNearestPositionInPhase loopWrapDeck none 44100 false false
          - loopWrapDeck.m_pLoopEndPosition)
        / (loopWrapDeck.m_pLoopEndPosition - loopWrapDeck.m_pLoopStartPosition)
        < 2147483648) ∧
    loopWrappedPlaypos 0 44100 50000 = 5900 ∧
    getNearestPositionInPhase loopWrapDeck none 5900 false false = 5900 ∧
    getNearestPositionInPhase loopWrapDeck none 44100 true false = 5900 := by
  have hn : phaseAlignedPlaypos loopWrapDeck none 44100 false = some 50000 := by
    simp [phaseAlignedPlaypos, loopWrapDeck, basicRateDeck, constructed,
      getBeatContextNoLookup]
    norm_num
  have hw : phaseAlignedPlaypos loopWrapDeck none 5900 false = some 5900 := by
    simp [phaseAlignedPlaypos, loopWrapDeck, basicRateDeck, constructed,
      getBeatContextNoLookup, getBeatContext, uniformBeats]
    norm_num
  have h1 : getNearestPositionInPhase loopWrapDeck none 44100 false false = 50000 := by
    rw [getNearestPositionInPhase_no_loops, hn, Option.getD_some]
  have h2 : getNearestPositionInPhase loopWrapDeck none 5900 false false = 5900 := by
    rw [getNearestPositionInPhase_no_loops, hw, Option.getD_some]
  have hs : loopWrapDeck.m_pLoopStartPosition = 0 := rfl
  have he : loopWrapDeck.m_pLoopEndPosition = 44100 := rfl
  have hlen : loopWrapDeck.m_pLoopStartPosition < loopWrapDeck.m_pLoopEndPosition := by
    rw [hs, he]; norm_num
  have hpos : (44100 : ℚ) ≤ loopWrapDeck.m_pLoopEndPosition := by rw [he]
  have hnaive : loopWrapDeck.m_pLoopEndPosition
      < getNearestPositionInPhase loopWrapDeck none 44100 false false := by
    rw [h1, he]; norm_num
  have hfits : (getNearestPositionInPhase loopWrapDeck none 44100 false false
        - loopWrapDeck.m_pLoopEndPosition)
      / (loopWrapDeck.m_pLoopEndPosition - loopWrapDeck.m_pLoopStartPosition)
      < 2147483648 := by
    rw [h1, hs, he]; norm_num
  have key := loopWrappedPlaypos_spec loopWrapDeck none 44100 false rfl hlen hpos hnaive hfits
  rw [h1, hs, he] at key
  have ht : truncate (((50000 : ℚ) - 44100) / (44100 - 0)) = 0 :=
    truncate_eq_of_nonneg _ _ (by norm_num) (by norm_num) (by norm_num)
  have hwrap : loopWrappedPlaypos 0 44100 50000 = 5900 := by
    rw [key.1, ht]
    norm_num
  refine ⟨⟨rfl, hs, he, hpos, h1, hfits⟩, hwrap, h2, ?_⟩
  rw [key.2.2.2, hwrap, h2]

/-- C26. In the proportional branch (no user tweaking, 0.01 < |error| ≤ 0.2),
with L the previous adjustment in effect (1.0 if the reset flag is set, the
stored `m_dLastSyncAdjustment` otherwise) and |L - 1| ≤ 0.05,
`calcSyncAdjustment` returns a value within 0.02 of L. -/
theorem calcSyncAdjustment_proportional_step (s : BpmControl) (my_percentage : ℚ)
    (hlo : 0.01 < |syncError s my_percentage|)
    (hhi : |syncError s my_percentage| ≤ 0.2)
    (hL : |lastAdjustmentInEffect s - 1| ≤ 0.05) :
    |(calcSyncAdjustment s my_percentage false).1 - lastAdjustmentInEffect s| ≤ 0.02 := by
  have h1 : ¬ |syncError s my_percentage| > kTrainWreckThreshold := by
    rw [kTrainWreckThreshold]; exact not_lt.mpr hhi
  have h2 : |syncError s my_percentage| > kErrorThreshold := by
    rw [kErrorThreshold]; exact hlo
  have hd : (0 : ℚ) ≤ kSyncDeltaCap := by norm_num [kSyncDeltaCap]
  have hk : kSyncAdjustmentCap = 0.05 := by norm_num [kSyncAdjustmentCap]
  have hk2 : kSyncDeltaCap = 0.02 := by norm_num [kSyncDeltaCap]
  rw [calcSyncAdjustment_auto, if_neg h1, if_pos h2]
  have key := math_clamp_sub_le (lastAdjustmentInEffect s - 1)
    (math_clamp (1 + (-(syncError s my_percentage) * kSyncAdjustmentProportional)
        - lastAdjustmentInEffect s) (-kSyncDeltaCap) kSyncDeltaCap)
    kSyncAdjustmentCap kSyncDeltaCap (hk ▸ hL) (math_clamp_abs_le _ _ hd)
  rw [← hk2]
  calc |1 + math_clamp _ (-kSyncAdjustmentCap) kSyncAdjustmentCap - lastAdjustmentInEffect s|
      = |math_clamp _ (-kSyncAdjustmentCap) kSyncAdjustmentCap
          - (lastAdjustmentInEffect s - 1)| := by congr 1; ring
    _ ≤ kSyncDeltaCap := key

/-- C26, at a deck whose stored last adjustment 1.05 is overridden by the reset
flag: master at 0.48, deck at 0.5, previous adjustment in effect 1.0. -/
theorem calcSyncAdjustment_proportional_step_witness :
    (0.01 < |syncError resetPendingDeck 0.5| ∧ |syncError resetPendingDeck 0.5| ≤ 0.2 ∧
      |lastAdjustmentInEffect resetPendingDeck - 1| ≤ 0.05) ∧
    lastAdjustmentInEffect resetPendingDeck = 1 ∧
    |(calcSyncAdjustment resetPendingDeck 0.5 false).1
        - lastAdjustmentInEffect resetPendingDeck| ≤ 0.02 := by
  have he : syncError resetPendingDeck 0.5 = 0.02 := by
    rw [syncError, shortestPercentageChange_eq]
    norm_num [resetPendingDeck, smallErrorDeck, constructed]
  have hL : lastAdjustmentInEffect resetPendingDeck = 1 := by
    simp [lastAdjustmentInEffect, resetPendingDeck]
  have h1 : (0.01 : ℚ) < |syncError resetPendingDeck 0.5| := by
    rw [he]; norm_num [abs_of_pos]
  have h2 : |syncError resetPendingDeck 0.5| ≤ 0.2 := by
    rw [he]; norm_num [abs_of_pos]
  have h3 : |lastAdjustmentInEffect resetPendingDeck - 1| ≤ 0.05 := by
    rw [hL]; norm_num
  exact ⟨⟨h1, h2, h3⟩, hL, calcSyncAdjustment_proportional_step resetPendingDeck 0.5 h1 h2 h3⟩

/-- The value of the proportional branch with the constants written out. -/
theorem calcSyncAdjustment_proportional (s : BpmControl) (f : ℚ)
    (hlo : 0.01 < |syncError s f|) (hhi : |syncError s f| ≤ 0.2) :
    (calcSyncAdjustment s f false).1 =
      1 + max (-(1 / 20)) (min (1 / 20) (lastAdjustmentInEffect s - 1
        + max (-(1 / 50)) (min (1 / 50)
            (1 - 7 / 10 * syncError s f - lastAdjustmentInEffect s)))) := by
  have h1 : ¬ |syncError s f| > kTrainWreckThreshold := by
    rw [kTrainWreckThreshold]; exact not_lt.mpr hhi
  have h2 : |syncError s f| > kErrorThreshold := by
    rw [kErrorThreshold]; exact hlo
  have hk : kSyncAdjustmentCap = 1 / 20 := by norm_num [kSyncAdjustmentCap]
  have hk2 : kSyncDeltaCap = 1 / 50 := by norm_num [kSyncDeltaCap]
  have hk3 : kSyncAdjustmentProportional = 7 / 10 := by
    norm_num [kSyncAdjustmentProportional]
  rw [calcSyncAdjustment_auto, if_neg h1, if_pos h2, hk, hk2, hk3]
  unfold math_clamp
  have e : 1 + -syncError s f * (7 / 10) - lastAdjustmentInEffect s
      = 1 - 7 / 10 * syncError s f - lastAdjustmentInEffect s := by ring
  rw [e]

/-- A symmetric clamp moves its argument toward 0 and not past it. -/
theorem clamp_toward_zero (y c : ℚ) (hc : 0 ≤ c) :
    (0 ≤ y → 0 ≤ max (-c) (min c y) ∧ max (-c) (min c y) ≤ y) ∧
    (y ≤ 0 → y ≤ max (-c) (min c y) ∧ max (-c) (min c y) ≤ 0) := by
  constructor
  · intro hy
    exact ⟨le_max_of_le_right (le_min hc hy), max_le (by linarith) (min_le_right _ _)⟩
  · intro hy
    refine ⟨le_max_of_le_right (le_min (by linarith) (le_refl _)), max_le (by linarith) ?_⟩
    exact (min_le_right _ _).trans hy

/-- A symmetric clamp leaves a value of magnitude at most the cap as it is. -/
theorem clamp_of_abs_le (y c : ℚ) (h1 : -c ≤ y) (h2 : y ≤ c) :
    max (-c) (min c y) = y := by
  rw [min_eq_right h2, max_eq_right h1]

/-- The proportional step stays between the previous adjustment and the
target. -/
theorem proportional_between (L T : ℚ) (hL1 : -(1 / 20) ≤ L - 1) (hL2 : L - 1 ≤ 1 / 20) :
    min L T ≤ 1 + max (-(1 / 20)) (min (1 / 20) (L - 1
        + max (-(1 / 50)) (min (1 / 50) (T - L)))) ∧
    1 + max (-(1 / 20)) (min (1 / 20) (L - 1
        + max (-(1 / 50)) (min (1 / 50) (T - L)))) ≤ max L T := by
  have hc := clamp_toward_zero (T - L) (1 / 50) (by norm_num)
  generalize max (-(1 / 50 : ℚ)) (min (1 / 50) (T - L)) = d at hc ⊢
  rcases le_total 0 (T - L) with hy | hy
  · obtain ⟨hd0, hd1⟩ := hc.1 hy
    have hlow : L - 1 ≤ max (-(1 / 20 : ℚ)) (min (1 / 20) (L - 1 + d)) :=
      le_max_of_le_right (le_min hL2 (by linarith))
    have hup : max (-(1 / 20 : ℚ)) (min (1 / 20) (L - 1 + d)) ≤ L - 1 + d :=
      max_le (by linarith) (min_le_right _ _)
    constructor
    · exact (min_le_left _ _).trans (by linarith)
    · exact le_trans (by linarith) (le_max_right L T)
  · obtain ⟨hd0, hd1⟩ := hc.2 hy
    have hlow : L - 1 + d ≤ max (-(1 / 20 : ℚ)) (min (1 / 20) (L - 1 + d)) :=
      le_max_of_le_right (le_min (by linarith) (le_refl _))
    have hup : max (-(1 / 20 : ℚ)) (min (1 / 20) (L - 1 + d)) ≤ L - 1 :=
      max_le hL1 ((min_le_right _ _).trans (by linarith))
    constructor
    · exact (min_le_right _ _).trans (by linarith)
    · exact le_trans (by linarith) (le_max_left L T)

/-- From a previous adjustment of 1 the proportional step is the target's
deviation from 1, limited to 0.02. -/
theorem proportional_from_one (e : ℚ) :
    1 + max (-(1 / 20)) (min (1 / 20) ((1 : ℚ) - 1
        + max (-(1 / 50)) (min (1 / 50) (1 - 7 / 10 * e - 1))))
      = 1 + max (-(1 / 50)) (min (1 / 50) (-(7 / 10 * e))) := by
  have e1 : (1 : ℚ) - 7 / 10 * e - 1 = -(7 / 10 * e) := by ring
  rw [e1, sub_self, zero_add]
  have h1 : -(1 / 50 : ℚ) ≤ max (-(1 / 50)) (min (1 / 50) (-(7 / 10 * e))) := le_max_left _ _
  have h2 : max (-(1 / 50 : ℚ)) (min (1 / 50) (-(7 / 10 * e))) ≤ 1 / 50 :=
    max_le (by norm_num) (min_le_left _ _)
  rw [clamp_of_abs_le _ _ (by linarith) (by linarith)]

/-- C27. In the proportional branch (no user tweaking, 0.01 < |error| ≤ 0.2),
with the previous adjustment in effect L within 0.05 of 1, the returned
adjustment lies between L and the proportional target `1 - 0.7 * error`.  From
L = 1.0 it is below 1 for a positive error and above 1 for a negative one, and
its distance from 1 is `min(0.7 * |error|, 0.02)`. -/
theorem calcSyncAdjustment_no_overshoot (s : BpmControl) (my_percentage : ℚ)
    (hlo : 0.01 < |syncError s my_percentage|)
    (hhi : |syncError s my_percentage| ≤ 0.2)
    (hL : |lastAdjustmentInEffect s - 1| ≤ 0.05) :
    min (lastAdjustmentInEffect s) (1 - 0.7 * syncError s my_percentage)
      ≤ (calcSyncAdjustment s my_percentage false).1 ∧
    (calcSyncAdjustment s my_percentage false).1
      ≤ max (lastAdjustmentInEffect s) (1 - 0.7 * syncError s my_percentage) ∧
    (lastAdjustmentInEffect s = 1 →
      (0 < syncError s my_percentage → (calcSyncAdjustment s my_percentage false).1 < 1) ∧
      (syncError s my_percentage < 0 → 1 < (calcSyncAdjustment s my_percentage false).1) ∧
      |(calcSyncAdjustment s my_percentage false).1 - 1|
        = min (0.7 * |syncError s my_percentage|) 0.02) := by
  rw [calcSyncAdjustment_proportional s my_percentage hlo hhi]
  have c1 : (0.7 : ℚ) = 7 / 10 := by norm_num
  have c2 : (0.02 : ℚ) = 1 / 50 := by norm_num
  have c3 : (0.05 : ℚ) = 1 / 20 := by norm_num
  have c4 : (0.01 : ℚ) = 1 / 100 := by norm_num
  rw [c4] at hlo
  rw [c3, abs_le] at hL
  rw [c1, c2]
  obtain ⟨hL1, hL2⟩ := hL
  generalize lastAdjustmentInEffect s = L at hL1 hL2 ⊢
  generalize syncError s my_percentage = e at hlo hhi ⊢
  have hb := proportional_between L (1 - 7 / 10 * e) hL1 hL2
  refine ⟨hb.1, hb.2, ?_⟩
  intro h1
  rw [h1, proportional_from_one]
  rcases le_or_lt 0 e with he | he
  · rw [abs_of_nonneg he] at hlo ⊢
    have hmin : min (1 / 50 : ℚ) (-(7 / 10 * e)) = -(7 / 10 * e) :=
      min_eq_right (by linarith)
    rw [hmin]
    refine ⟨fun _ => ?_, fun h => absurd h (not_lt.mpr he), ?_⟩
    · have : max (-(1 / 50 : ℚ)) (-(7 / 10 * e)) < 0 := max_lt (by norm_num) (by linarith)
      linarith
    · have hneg : 1 + max (-(1 / 50 : ℚ)) (-(7 / 10 * e)) - 1 ≤ 0 := by
        have : max (-(1 / 50 : ℚ)) (-(7 / 10 * e)) ≤ 0 := max_le (by norm_num) (by linarith)
        linarith
      rw [abs_of_nonpos hneg]
      rcases le_total (7 / 10 * e) (1 / 50) with hc | hc
      · rw [max_eq_right (by linarith), min_eq_left hc]; ring
      · rw [max_eq_left (by linarith), min_eq_right hc]; ring
  · rw [abs_of_neg he] at hlo ⊢
    refine ⟨fun h => absurd h (not_lt.mpr he.le), fun _ => ?_, ?_⟩
    · have : 0 < max (-(1 / 50 : ℚ)) (min (1 / 50) (-(7 / 10 * e))) :=
        lt_max_of_lt_right (lt_min (by norm_num) (by linarith))
      linarith
    · have hpos : 0 ≤ 1 + max (-(1 / 50 : ℚ)) (min (1 / 50) (-(7 / 10 * e))) - 1 := by
        have : 0 ≤ max (-(1 / 50 : ℚ)) (min (1 / 50) (-(7 / 10 * e))) :=
          le_max_of_le_right (le_min (by norm_num) (by linarith))
        linarith
      rw [abs_of_nonneg hpos]
      rcases le_total (7 / 10 * -e) (1 / 50) with hc | hc
      · rw [min_eq_right (by linarith), max_eq_right (by linarith), min_eq_left hc]; ring
      · rw [min_eq_left (by linarith), max_eq_right (by norm_num), min_eq_right hc]; ring

/-- C27, at the small-error scenario (error +0.02, previous adjustment 1.0):
the adjustment 0.986 lies between 1.0 and the target 0.986. -/
theorem calcSyncAdjustment_no_overshoot_witness :
    (0.01 < |syncError smallErrorDeck 0.5| ∧ |syncError smallErrorDeck 0.5| ≤ 0.2 ∧
      |lastAdjustmentInEffect smallErrorDeck - 1| ≤ 0.05 ∧
      lastAdjustmentInEffect smallErrorDeck = 1 ∧ 0 < syncError smallErrorDeck 0.5) ∧
    (calcSyncAdjustment smallErrorDeck 0.5 false).1 < 1 ∧
    |(calcSyncAdjustment smallErrorDeck 0.5 false).1 - 1|
      = min (0.7 * |syncError smallErrorDeck 0.5|) 0.02 := by
  have he : syncError smallErrorDeck 0.5 = 0.02 := by
    rw [syncError, shortestPercentageChange_eq]
    norm_num [smallErrorDeck, constructed]
  have hL : lastAdjustmentInEffect smallErrorDeck = 1 := by
    simp [lastAdjustmentInEffect, smallErrorDeck, constructed]
  have h1 : (0.01 : ℚ) < |syncError smallErrorDeck 0.5| := by
    rw [he]; norm_num [abs_of_pos]
  have h2 : |syncError smallErrorDeck 0.5| ≤ 0.2 := by
    rw [he]; norm_num [abs_of_pos]
  have h3 : |lastAdjustmentInEffect smallErrorDeck - 1| ≤ 0.05 := by
    rw [hL]; norm_num
  have hpos : 0 < syncError smallErrorDeck 0.5 := by
    rw [he]; norm_num
  have key := (calcSyncAdjustment_no_overshoot smallErrorDeck 0.5 h1 h2 h3).2.2 hL
  exact ⟨⟨h1, h2, h3, hL, hpos⟩, key.1 hpos, key.2.2⟩

/-- For positive a, |2a - b| < |a - b| exactly when 3a < 2b. -/
theorem half_test_iff (a b : ℚ) (ha : 0 < a) :
    |a * 2 - b| < |a - b| ↔ 3 * a < 2 * b := by
  constructor
  · intro h
    by_contra hn
    have hn2 : 2 * b ≤ 3 * a := not_lt.mp hn
    rcases le_total b a with hba | hab
    · rw [abs_of_nonneg (by linarith), abs_of_nonneg (by linarith)] at h
      linarith
    · rw [abs_of_nonpos (show a - b ≤ 0 by linarith)] at h
      rcases le_total 0 (a * 2 - b) with h2 | h2
      · rw [abs_of_nonneg h2] at h; linarith
      · rw [abs_of_nonpos h2] at h; linarith
  · intro h
    rw [abs_of_neg (show a - b < 0 by linarith)]
    rw [abs_lt]
    constructor <;> linarith

/-- C28 (as stated, refuted). This deck's local tempo is a = 100 + 3/2^21 and
the other's is b = 150 + 5/2^21, both positive, with b > 1.5 a and the exact
halving test |2a - b| < |a - b| true.  The source compares against
`float fFileBpmDelta`, which is |a - b| = 50 + 2^-20 rounded to 50, and
|2a - b| = 50 + 2^-21 is not below 50: the desired rate stays the quotient
`otherBpm / a` and is not halved. -/
theorem syncTempoDesiredRate_near_tie :
    (0 < nearTieDeck.m_pLocalBpm ∧ 0 < nearTieTarget.getLocalBpm) ∧
    nearTieTarget.getLocalBpm > 1.5 * nearTieDeck.m_pLocalBpm ∧
    |nearTieDeck.m_pLocalBpm * 2 - nearTieTarget.getLocalBpm|
      < |nearTieDeck.m_pLocalBpm - nearTieTarget.getLocalBpm| ∧
    toFloat |nearTieDeck.m_pLocalBpm - nearTieTarget.getLocalBpm| = 50 ∧
    ¬ |nearTieDeck.m_pLocalBpm * 2 - nearTieTarget.getLocalBpm|
      < toFloat |nearTieDeck.m_pLocalBpm - nearTieTarget.getLocalBpm| ∧
    syncTempoDesiredRate nearTieDeck.m_pLocalBpm nearTieTarget.getLocalBpm
        nearTieTarget.getBpm
      = nearTieTarget.getBpm / nearTieDeck.m_pLocalBpm ∧
    syncTempoDesiredRate nearTieDeck.m_pLocalBpm nearTieTarget.getLocalBpm
        nearTieTarget.getBpm
      ≠ nearTieTarget.getBpm / nearTieDeck.m_pLocalBpm / 2 := by
  have ha : nearTieDeck.m_pLocalBpm = 209715203 / 2097152 := rfl
  have hb : nearTieTarget.getLocalBpm = 314572805 / 2097152 := rfl
  have hr : nearTieTarget.getBpm = 314572805 / 2097152 := rfl
  have hpos : (0 : ℚ) < 209715203 / 2097152 := by norm_num
  have hexact : |nearTieDeck.m_pLocalBpm * 2 - nearTieTarget.getLocalBpm|
      < |nearTieDeck.m_pLocalBpm - nearTieTarget.getLocalBpm| := by
    rw [half_test_iff _ _ (by rw [ha]; exact hpos), ha, hb]
    norm_num
  have hfloat : ¬ |nearTieDeck.m_pLocalBpm * 2 - nearTieTarget.getLocalBpm|
      < toFloat |nearTieDeck.m_pLocalBpm - nearTieTarget.getLocalBpm| := by
    rw [nearTie_delta.2.2]
    have e : nearTieDeck.m_pLocalBpm * 2 - nearTieTarget.getLocalBpm = 50 + 1 / 2097152 := by
      rw [ha, hb]; norm_num
    rw [e, abs_of_pos (by norm_num)]
    norm_num
  refine ⟨⟨by rw [ha]; exact hpos, by rw [hb]; norm_num⟩, by rw [ha, hb]; norm_num,
    hexact, nearTie_delta.2.2, hfloat, nearTie_desiredRate _, ?_⟩
  rw [nearTie_desiredRate, ha, hr]
  norm_num

/-- C28 (amended). In `syncTempo`, for positive local tempos a (this deck) and b
(the other deck), the exact halving test |2a - b| < |a - b| holds exactly when
2b > 3a, the exact doubling test |a - 2b| < |a - b| holds exactly when 2a > 3b,
and the two never hold together.  The code compares against
`float fFileBpmDelta`, the difference |a - b| rounded to single precision: with
that difference below the `float` range limit, the desired rate is
`otherBpm / a` halved when |2a - b| is below the rounded difference, doubled
when |a - 2b| is, and unchanged otherwise; when the rounding leaves the
difference unchanged, it is halved exactly when b exceeds 1.5 a, doubled exactly
when a exceeds 1.5 b, and unchanged otherwise.  This is the rate `syncTempo`
applies. -/
theorem syncTempo_half_double_tests (a b otherBpm : ℚ) (ha : 0 < a) (hb : 0 < b)
    (hfin : |a - b| < floatOverflowBound) :
    (|a * 2 - b| < |a - b| ↔ 2 * b > 3 * a) ∧
    (|a - 2 * b| < |a - b| ↔ 2 * a > 3 * b) ∧
    ¬ (|a * 2 - b| < |a - b| ∧ |a - 2 * b| < |a - b|) ∧
    syncTempoDesiredRate a b otherBpm =
      (if |a * 2 - b| < toFloat |a - b| then otherBpm / a / 2
       else if |a - 2 * b| < toFloat |a - b| then otherBpm / a * 2
       else otherBpm / a) ∧
    (toFloat |a - b| = |a - b| →
      syncTempoDesiredRate a b otherBpm =
        (if b > 1.5 * a then otherBpm / a / 2
         else if a > 1.5 * b then otherBpm / a * 2
         else otherBpm / a)) ∧
    ∀ (s : BpmControl) (other : EngineBuffer),
      s.m_pLocalBpm = a → other.getLocalBpm = b → other.getBpm = otherBpm →
      0 < otherBpm → 0 < s.m_pEngineBpm →
      syncTempoDesiredRate a b otherBpm - 1 < 1 →
      -0.5 < syncTempoDesiredRate a b otherBpm - 1 →
      (syncTempo s (some other)).1 = true ∧
      (syncTempo s (some other)).2.m_pEngineBpm = a * syncTempoDesiredRate a b otherBpm := by
  have h1 : |a * 2 - b| < |a - b| ↔ 2 * b > 3 * a := half_test_iff a b ha
  have h2 : |a - 2 * b| < |a - b| ↔ 2 * a > 3 * b := by
    have := half_test_iff b a hb
    rw [abs_sub_comm (b * 2) a, abs_sub_comm b a, mul_comm b 2] at this
    exact this
  have c : (1.5 : ℚ) = 3 / 2 := by norm_num
  refine ⟨h1, h2, ?_, syncTempoDesiredRate_of_float a b otherBpm _ rfl hfin, ?_, ?_⟩
  · rintro ⟨x, y⟩
    have x2 := h1.mp x
    have y2 := h2.mp y
    linarith
  · intro hexact
    rw [syncTempoDesiredRate_of_float a b otherBpm _ hexact hfin, c]
    by_cases hx : |a * 2 - b| < |a - b|
    · have hx2 : b > 3 / 2 * a := by have := h1.mp hx; linarith
      rw [if_pos hx, if_pos hx2]
    · have hx2 : ¬ b > 3 / 2 * a := by
        intro hgt; exact hx (h1.mpr (by linarith))
      rw [if_neg hx, if_neg hx2]
      by_cases hy : |a - 2 * b| < |a - b|
      · have hy2 : a > 3 / 2 * b := by have := h2.mp hy; linarith
        rw [if_pos hy, if_pos hy2]
      · have hy2 : ¬ a > 3 / 2 * b := by
          intro hgt; exact hy (h2.mpr (by linarith))
        rw [if_neg hy, if_neg hy2]
  · intro s other hsa hob hbpm hpos hthis hlt hgt
    rw [syncTempo_eq, hsa, hob, hbpm, if_pos ⟨hpos, hthis⟩, if_pos ⟨hlt, hgt⟩]
    exact ⟨rfl, rfl⟩

/-- C28 (amended), at this deck's local tempo 60 and the other's 120: the
difference 60 is a `float`, the halving test holds (2 * 120 > 3 * 60) and the
desired rate 120 / 60 is halved to 1. -/
theorem syncTempo_half_double_tests_witness :
    ((0 : ℚ) < 60 ∧ (0 : ℚ) < 120 ∧ |(60 : ℚ) - 120| < floatOverflowBound ∧
      toFloat |(60 : ℚ) - 120| = |(60 : ℚ) - 120|) ∧
    |(60 : ℚ) * 2 - 120| < |(60 : ℚ) - 120| ∧
    syncTempoDesiredRate 60 120 120 = 1 := by
  have hd : |(60 : ℚ) - 120| = 60 := by
    rw [abs_of_neg (by norm_num)]
    norm_num
  have hfin : |(60 : ℚ) - 120| < floatOverflowBound := by
    rw [hd]
    norm_num [floatOverflowBound]
  have hexact : toFloat |(60 : ℚ) - 120| = |(60 : ℚ) - 120| := by
    rw [hd]
    exact toFloat_sixty
  have key := syncTempo_half_double_tests 60 120 120 (by norm_num) (by norm_num) hfin
  refine ⟨⟨by norm_num, by norm_num, hfin, hexact⟩, key.1.mpr (by norm_num), ?_⟩
  rw [key.2.2.2.2.1 hexact]
  norm_num

/-- With a grid loaded, a position inside the cached pair and a cached beat
absent, the alignment returns early. -/
theorem phaseAlignedPlaypos_cached_absent (s : BpmControl) (g : Beats)
    (t : Option EngineBuffer) (pos : ℚ) (playing : Bool)
    (hgrid : s.m_pBeats = some g)
    (h1 : s.m_pPrevBeat ≤ pos) (h2 : pos ≤ s.m_pNextBeat)
    (habs : s.m_pPrevBeat = -1 ∨ s.m_pNextBeat = -1) :
    phaseAlignedPlaypos s t pos playing = none := by
  have hstale : ¬ (pos > s.m_pNextBeat ∨ pos < s.m_pPrevBeat) := by
    rintro (h | h)
    · exact absurd h (not_lt.mpr h2)
    · exact absurd h (not_lt.mpr h1)
  unfold phaseAlignedPlaypos
  rw [hgrid]
  dsimp only
  by_cases hm : s.syncMode = SyncMode.SYNC_MASTER
  · rw [if_pos hm]
  · rw [if_neg hm, if_neg hstale, getBeatContextNoLookup_absent _ _ _ habs]
    rfl

/-- C29. For a follower with a uniform grid of beat length L > 0 (cached beats
`prev` and `next = prev + L`, `findNthBeat(position, -2) = prev - L`), no user
offset, a target beat distance in [0, 1), `respectLoops = false` and
`prev ≤ position ≤ next`, the position `getNearestPositionInPhase` returns is
less than one beat length away from the input position. -/
theorem getNearestPositionInPhase_within_one_beat (s : BpmControl) (g : Beats)
    (syncTarget : Option EngineBuffer) (position L : ℚ) (playing : Bool)
    (hmode : s.syncMode = SyncMode.SYNC_FOLLOWER) (hgrid : s.m_pBeats = some g)
    (hL : 0 < L) (hnext : s.m_pNextBeat = s.m_pPrevBeat + L)
    (hnth : g.findNthBeat position (-2) = s.m_pPrevBeat - L)
    (hoff : s.m_dUserOffset = 0)
    (ht0 : 0 ≤ s.m_dSyncTargetBeatDistance) (ht1 : s.m_dSyncTargetBeatDistance < 1)
    (h1 : s.m_pPrevBeat ≤ position) (h2 : position ≤ s.m_pNextBeat) :
    |getNearestPositionInPhase s syncTarget position false playing - position| < L := by
  by_cases habs : s.m_pPrevBeat = -1 ∨ s.m_pNextBeat = -1
  · rw [getNearestPositionInPhase_of_none _ _ _ _ _
      (phaseAlignedPlaypos_cached_absent s g syncTarget position playing hgrid h1 h2 habs),
      sub_self, abs_zero]
    exact hL
  · have hp : s.m_pPrevBeat ≠ -1 := fun e => habs (Or.inl e)
    have hn : s.m_pNextBeat ≠ -1 := fun e => habs (Or.inr e)
    have hlen : s.m_pNextBeat - s.m_pPrevBeat = L := by rw [hnext]; ring
    have hval := phaseAlignedPlaypos_follower_cached s g syncTarget position playing hmode
      hgrid hp hn h1 h2
    rw [hlen, hoff, add_zero] at hval
    rw [getNearestPositionInPhase_no_loops, hval, Option.getD_some]
    have hu0 : 0 ≤ s.m_dSyncTargetBeatDistance * L := mul_nonneg ht0 hL.le
    have hu1 : s.m_dSyncTargetBeatDistance * L < L := by
      have := mul_lt_mul_of_pos_right ht1 hL
      linarith
    have half : (0.5 : ℚ) = 1 / 2 := by norm_num
    rw [half]
    rw [hnext] at h2
    by_cases hA : s.m_pNextBeat - position ≤ position - s.m_pPrevBeat
    · have hA2 : L ≤ 2 * (position - s.m_pPrevBeat) := by
        rw [hnext] at hA; linarith
      by_cases hB : s.m_dSyncTargetBeatDistance ≥ 1 / 2
      · have hu2 : L / 2 ≤ s.m_dSyncTargetBeatDistance * L := by
          have := mul_le_mul_of_nonneg_right hB hL.le
          linarith
        rw [if_pos (by rw [decide_eq_true hA, decide_eq_true hB]), abs_lt]
        constructor <;> linarith
      · have hu2 : s.m_dSyncTargetBeatDistance * L < L / 2 := by
          have := mul_lt_mul_of_pos_right (not_le.mp hB) hL
          linarith
        rw [if_neg (by rw [decide_eq_true hA, decide_eq_false hB]; decide),
          if_pos ⟨decide_eq_true hA, decide_eq_false hB⟩, hnext, abs_lt]
        constructor <;> linarith
    · have hA2 : 2 * (position - s.m_pPrevBeat) < L := by
        rw [hnext] at hA; linarith
      by_cases hB : s.m_dSyncTargetBeatDistance ≥ 1 / 2
      · have hu2 : L / 2 ≤ s.m_dSyncTargetBeatDistance * L := by
          have := mul_le_mul_of_nonneg_right hB hL.le
          linarith
        rw [if_neg (by rw [decide_eq_false hA, decide_eq_true hB]; decide),
          if_neg (by rw [decide_eq_false hA]; rintro ⟨h, -⟩; exact Bool.false_ne_true h),
          hnth, abs_lt]
        constructor <;> linarith
      · have hu2 : s.m_dSyncTargetBeatDistance * L < L / 2 := by
          have := mul_lt_mul_of_pos_right (not_le.mp hB) hL
          linarith
        rw [if_pos (by rw [decide_eq_false hA, decide_eq_false hB]), abs_lt]
        constructor <;> linarith

/-- C29, at the basic-rate deck asked about position 5000 while the master is at
beat distance 0.5: the deck is near its previous beat, the master near its next,
and the result -11025 is 16025 samples (less than a beat of 22050) away. -/
theorem getNearestPositionInPhase_within_one_beat_witness :
    (basicRateDeck.syncMode = SyncMode.SYNC_FOLLOWER ∧
      basicRateDeck.m_pBeats = some (uniformBeats 22050 120) ∧
      basicRateDeck.m_pNextBeat = basicRateDeck.m_pPrevBeat + 22050 ∧
      (uniformBeats 22050 120).findNthBeat 5000 (-2) = basicRateDeck.m_pPrevBeat - 22050 ∧
      basicRateDeck.m_dUserOffset = 0 ∧
      0 ≤ basicRateDeck.m_dSyncTargetBeatDistance ∧
      basicRateDeck.m_dSyncTargetBeatDistance < 1 ∧
      basicRateDeck.m_pPrevBeat ≤ 5000 ∧ 5000 ≤ basicRateDeck.m_pNextBeat) ∧
    getNearestPositionInPhase basicRateDeck none 5000 false false = -11025 ∧
    |getNearestPositionInPhase basicRateDeck none 5000 false false - 5000| < 22050 := by
  have hnext : basicRateDeck.m_pNextBeat = basicRateDeck.m_pPrevBeat + 22050 := by
    norm_num [basicRateDeck, constructed]
  have hnth : (uniformBeats 22050 120).findNthBeat 5000 (-2)
      = basicRateDeck.m_pPrevBeat - 22050 := by
    have hf : ⌊(5000 : ℚ) / 22050⌋ = 0 := by
      rw [Int.floor_eq_iff]
      constructor <;> norm_num
    simp only [uniformBeats]
    rw [if_pos (by norm_num), hf]
    norm_num [basicRateDeck, constructed]
  have ht0 : 0 ≤ basicRateDeck.m_dSyncTargetBeatDistance := by
    norm_num [basicRateDeck, constructed]
  have ht1 : basicRateDeck.m_dSyncTargetBeatDistance < 1 := by
    norm_num [basicRateDeck, constructed]
  have h1 : basicRateDeck.m_pPrevBeat ≤ 5000 := by norm_num [basicRateDeck, constructed]
  have h2 : (5000 : ℚ) ≤ basicRateDeck.m_pNextBeat := by norm_num [basicRateDeck, constructed]
  have hval : getNearestPositionInPhase basicRateDeck none 5000 false false = -11025 := by
    have hp : basicRateDeck.m_pPrevBeat ≠ -1 := by norm_num [basicRateDeck, constructed]
    have hn : basicRateDeck.m_pNextBeat ≠ -1 := by norm_num [basicRateDeck, constructed]
    rw [getNearestPositionInPhase_no_loops,
      phaseAlignedPlaypos_follower_cached basicRateDeck (uniformBeats 22050 120) none 5000
        false rfl rfl hp hn h1 h2, Option.getD_some, hnth]
    norm_num [basicRateDeck, constructed]
  exact ⟨⟨rfl, rfl, hnext, hnth, rfl, ht0, ht1, h1, h2⟩, hval,
    getNearestPositionInPhase_within_one_beat basicRateDeck (uniformBeats 22050 120) none 5000
      22050 false rfl rfl (by norm_num) hnext hnth rfl ht0 ht1 h1 h2⟩

end BpmControl
